import Mathlib

/-!
Verification of the gsmail unified e-mail library.

The Go sources are shallowly embedded over byte lists (`List Nat`): Go strings
and byte slices both become `List Nat` (a Go string is a byte sequence), pure
functions become Lean functions, and the two effectful inputs of the message
builder (current time, random bytes) become explicit parameters.  Standard
library calls made by the repository (net/textproto header reading, net/mail
address parsing, mime word encoding, base64, ...) are modelled next to the
functions that use them; each model carries a doc comment naming the Go
function it follows.  All definitions are executable and all predicates on
them decidable, so concrete runs can be checked with `decide`.
-/

namespace Gsmail

/-- A Go byte, represented as a natural number (< 256 on every real input). -/
abbrev Byte := Nat

/-- The bytes of an ASCII Lean string literal, used to transcribe the Go string
constants of the sources.  (Every literal transcribed in this file is ASCII, so
`Char.toNat` per character is exactly the Go byte sequence.) -/
def strBytes (s : String) : List Byte :=
  s.data.map Char.toNat

/-- Carriage-return / line-feed pair. -/
def CRLF : List Byte := [13, 10]

/-- ASCII lower-casing of a single byte in A..Z, as the byte-wise comparison in
utils.go `matchAt` does it. -/
def lowerAZ (c : Byte) : Byte := if 65 ≤ c ∧ c ≤ 90 then c + 32 else c

/-- ASCII upper-casing of a single byte in a..z. -/
def upperAZ (c : Byte) : Byte := if 97 ≤ c ∧ c ≤ 122 then c - 32 else c

/-- Case-insensitive equality of two bytes (the inner comparison of utils.go
`matchAt`: equal, or equal after lowering A..Z). -/
def ciEqB (a b : Byte) : Bool := lowerAZ a == lowerAZ b

/-- `ciPref pat l`: `l` starts with `pat` up to ASCII case. -/
def ciPref : List Byte → List Byte → Bool
  | [], _ => true
  | _ :: _, [] => false
  | a :: as, b :: bs => ciEqB a b && ciPref as bs

/-- utils.go `matchAt`: `b` contains `substr` at `pos`, ignoring ASCII case
(false when the match would run beyond the end, as in the source's bound check). -/
def matchAt (b : List Byte) (pos : Nat) (substr : List Byte) : Bool :=
  ciPref substr (b.drop pos)

/-- Scan of all start positions for utils.go `containsCaseInsensitive`. -/
def containsCIAux (substr : List Byte) : List Byte → Bool
  | [] => false
  | b :: bs => ciPref substr (b :: bs) || containsCIAux substr bs

/-- utils.go `containsCaseInsensitive`. -/
def containsCaseInsensitive (b substr : List Byte) : Bool :=
  if substr.isEmpty then true
  else if b.length < substr.length then false
  else containsCIAux substr b

/-- Scan of all start positions for Go `bytes.Contains` (case-sensitive). -/
def containsSubAux (pat : List Byte) : List Byte → Bool
  | [] => false
  | b :: bs => pat.isPrefixOf (b :: bs) || containsSubAux pat bs

/-- Go `bytes.Contains`. -/
def bytesContains (b pat : List Byte) : Bool :=
  if pat.isEmpty then true else containsSubAux pat b

/-- Scan for Go `bytes.Index`. -/
def bytesIndexAux (pat : List Byte) : List Byte → Nat → Option Nat
  | [], _ => none
  | b :: bs, i => if pat.isPrefixOf (b :: bs) then some i else bytesIndexAux pat bs (i + 1)

/-- Go `bytes.Index`: index of the first occurrence of `pat` in `b`
(`none` for Go's -1). -/
def bytesIndex (b pat : List Byte) : Option Nat :=
  if pat.isEmpty then some 0 else bytesIndexAux pat b 0

/-- Go `bytes.IndexByte`. -/
def bytesIndexByte : List Byte → Byte → Option Nat
  | [], _ => none
  | b :: bs, c => if b == c then some 0 else (bytesIndexByte bs c).map (· + 1)

/-- utils.go `isHeaderAt`: a case-insensitive copy of `header` at `pos`,
followed by a colon (and the colon must lie inside `b`). -/
def isHeaderAt (b : List Byte) (pos : Nat) (header : List Byte) : Bool :=
  if b.length ≤ pos + header.length then false
  else matchAt b pos header && b.getD (pos + header.length) 0 == 58

/-- The index loop of utils.go `HasHeader`: some `i < n` has `b[i]` = LF and a
header start at `i + 1`. -/
def hasHeaderScan (b header : List Byte) : Nat → Bool
  | 0 => false
  | n + 1 => hasHeaderScan b header n || (b.getD n 0 == 10 && isHeaderAt b (n + 1) header)

/-- The end of the searchable region in utils.go `HasHeader`: the first blank
line (CRLFCRLF, or LFLF), or the whole buffer. -/
def headerEndOf (b : List Byte) : Nat :=
  match bytesIndex b [13, 10, 13, 10] with
  | some i => i
  | none =>
    match bytesIndex b [10, 10] with
    | some i => i
    | none => b.length

/-- utils.go `HasHeader`: `header` appears as a header key (followed by a colon)
at the start of a line, searched only before the first blank line. -/
def HasHeader (b header : List Byte) : Bool :=
  if header.isEmpty then false
  else isHeaderAt b 0 header || hasHeaderScan b header (headerEndOf b - header.length)

/-- utils.go `htmlTags`. -/
def htmlTags : List (List Byte) :=
  [strBytes "<html", strBytes "<body", strBytes "<div",
   strBytes "<p", strBytes "<!doctype", strBytes "<h"]

/-- utils.go `IsHTML`: case-insensitive search for a common tag opener in the
first 1024 bytes; empty input is never HTML. -/
def IsHTML (b : List Byte) : Bool :=
  if b.isEmpty then false
  else htmlTags.any fun tag => containsCaseInsensitive (b.take 1024) tag

/-- The white-space bytes trimmed by Go `strings.TrimSpace` (ASCII fragment;
no non-ASCII white space occurs in this development). -/
def isSpaceB (c : Byte) : Bool :=
  c == 32 || c == 9 || c == 10 || c == 13 || c == 11 || c == 12

/-- Go `strings.TrimSpace` (ASCII fragment). -/
def trimSpace (l : List Byte) : List Byte :=
  ((l.dropWhile isSpaceB).reverse.dropWhile isSpaceB).reverse

/-- Go `strings.ToLower` on bytes (ASCII fragment; the sources only ever
compare ASCII prefixes after lowering). -/
def toLowerB (l : List Byte) : List Byte := l.map lowerAZ

/-- Go `strings.HasPrefix s pre`. -/
def hasPrefixB (s pre : List Byte) : Bool := pre.isPrefixOf s

/-- Go `strings.Join` with separator `sep`. -/
def joinSep (sep : List Byte) : List (List Byte) → List Byte
  | [] => []
  | [x] => x
  | x :: xs => x ++ sep ++ joinSep sep xs

/-- Go `strings.SplitN s sep 2` for a one-byte separator. -/
def splitN2 (c : Byte) (l : List Byte) : List (List Byte) :=
  match bytesIndexByte l c with
  | none => [l]
  | some i => [l.take i, l.drop (i + 1)]

/-- Decimal rendering of an integer, as Go `fmt.Sprintf` with a d-verb. -/
def intToDecimal (i : Int) : List Byte :=
  if i < 0 then 45 :: strBytes (Nat.repr i.natAbs) else strBytes (Nat.repr i.toNat)

/-- email.go `Attachment` (with the `ContentID` field that utils.go
`BuildMessage` and the inline-attachment test use). -/
structure Attachment where
  Filename : List Byte := []
  ContentType : List Byte := []
  ContentID : List Byte := []
  Data : List Byte := []
deriving DecidableEq

/-- The Email value type.  Modelled from the spec: the copy of email.go under
src/ predates the `Cc`, `Bcc`, `ReplyTo` and `HTMLBody` fields that
utils.go `BuildMessage` and the tests use; the full field list follows
spec section 3. -/
structure Email where
  From : List Byte := []
  To : List (List Byte) := []
  Cc : List (List Byte) := []
  Bcc : List (List Byte) := []
  ReplyTo : List Byte := []
  Subject : List Byte := []
  Body : List Byte := []
  HTMLBody : List Byte := []
  Attachments : List Attachment := []
  OutlookCompatible : Bool := false
deriving DecidableEq

/-! ## Retry framework (provider.go) -/

/-- provider.go `RetryConfig`.  Durations are int64 nanoseconds; the float64
`Multiplier` is modelled as a rational (no claim observes the numeric value of
a back-off interval, so floating-point rounding is not observable here). -/
structure RetryConfig where
  MaxRetries : Int
  InitialInterval : Int
  MaxInterval : Int
  Multiplier : ℚ
deriving DecidableEq

/-- provider.go `DefaultRetryConfig`. -/
def DefaultRetryConfig : RetryConfig :=
  { MaxRetries := 3, InitialInterval := 500000000,
    MaxInterval := 5000000000, Multiplier := 2 }

/-- provider.go `BaseProvider.GetRetryConfig`: the stored config, or the
default when `MaxRetries ≤ 0`. -/
def GetRetryConfig (p : RetryConfig) : RetryConfig :=
  if p.MaxRetries ≤ 0 then DefaultRetryConfig else p

/-- The Go error value returned by one `Retry` run: the context's cancellation
error, or the operation's own error. -/
inductive RetryErr where
  | cancelled
  | op (e : List Byte)
deriving DecidableEq

/-- Environment of one `Retry` run.  `pre k` tells whether `ctx.Done()` has
already fired at the select before the k-th invocation; `wait k` tells whether
the select in the back-off wait after the k-th invocation chose `ctx.Done()`
over the timer; `fn k` is the outcome of the k-th invocation of the operation
(`none` = nil error). -/
structure RetryEnv where
  pre : Nat → Bool
  wait : Nat → Bool
  fn : Nat → Option (List Byte)

/-- The loop of provider.go `Retry`, with `remaining` iterations still allowed
(`remaining = 0` means the loop condition `i <= MaxRetries` failed) and `k`
operation invocations already performed.  Returns Go's return value paired with
the total number of invocations of the operation. -/
def retryLoop (env : RetryEnv) (maxInterval : Int) (mult : ℚ) :
    Nat → Int → Nat → Option (List Byte) → Option RetryErr × Nat
  | 0, _, k, lastErr => (lastErr.map RetryErr.op, k)
  | r + 1, interval, k, _lastErr =>
    if env.pre k then (some RetryErr.cancelled, k)
    else
      match env.fn k with
      | none => (none, k + 1)
      | some e =>
        if r = 0 then (some (RetryErr.op e), k + 1)
        else if env.wait k then (some RetryErr.cancelled, k + 1)
        else
          let next := min (Int.floor ((interval : ℚ) * mult)) maxInterval
          retryLoop env maxInterval mult r next (k + 1) (some e)

/-- provider.go `Retry` (instrumented with the invocation count; the loop runs
`1 + MaxRetries` times, not at all when `MaxRetries` is negative). -/
def Retry (env : RetryEnv) (config : RetryConfig) : Option RetryErr × Nat :=
  retryLoop env config.MaxInterval config.Multiplier
    (config.MaxRetries + 1).toNat config.InitialInterval 0 none

/-! ## Package-level operations (the current Send/Receive/Search/Idle/Ping of
the gsmail package, as in validation_test.go's package copy) -/

/-- Contexts are opaque to the package-level wrappers. -/
abbrev Ctx := Nat

/-- A Go error value (its message bytes). -/
abbrev GoErr := List Byte

/-- Modelled from the spec: `SearchOptions` (spec section 3); its defining file
is not under src/, and the package-level `Search` only passes it through. -/
structure SearchOptions where
  From : List Byte := []
  Subject : List Byte := []
  Since : Int := 0
  Before : Int := 0
  Unseen : Bool := false
deriving DecidableEq

/-- A Go channel as observed once a wrapper returns: currently buffered values
plus whether it has been closed. -/
structure Chan (α : Type) where
  buffered : List α
  closed : Bool
deriving DecidableEq

/-- The behaviour of a concrete Sender implementation (the dynamic methods a
non-nil `Sender` interface value carries). -/
structure SenderImpl where
  send : Ctx → Email → Option GoErr
  validate : Ctx → List Byte → Option GoErr
  ping : Ctx → Option GoErr

/-- The behaviour of a concrete Receiver implementation. -/
structure ReceiverImpl where
  receive : Ctx → Int → List Email × Option GoErr
  search : Ctx → SearchOptions → Int → List Email × Option GoErr
  idle : Ctx → Chan Email × Chan GoErr
  ping : Ctx → Option GoErr

/-- Package-level `Send`: nil guard, then delegate to the sender. -/
def Send (ctx : Ctx) (s : Option SenderImpl) (email : Email) : Option GoErr :=
  match s with
  | none => some (strBytes "sender is nil")
  | some s => s.send ctx email

/-- Package-level `Receive`: nil guard, then delegate (Go's nil slice is the
empty list). -/
def Receive (ctx : Ctx) (f : Option ReceiverImpl) (limit : Int) :
    List Email × Option GoErr :=
  match f with
  | none => ([], some (strBytes "receiver is nil"))
  | some f => f.receive ctx limit

/-- Package-level `Search`: nil guard, then delegate. -/
def Search (ctx : Ctx) (f : Option ReceiverImpl) (options : SearchOptions)
    (limit : Int) : List Email × Option GoErr :=
  match f with
  | none => ([], some (strBytes "receiver is nil"))
  | some f => f.search ctx options limit

/-- Package-level `Idle`: on a nil receiver, synchronously returns a closed
empty email channel and a closed error channel holding one error. -/
def Idle (ctx : Ctx) (f : Option ReceiverImpl) : Chan Email × Chan GoErr :=
  match f with
  | none => ({ buffered := [], closed := true },
             { buffered := [strBytes "receiver is nil"], closed := true })
  | some f => f.idle ctx

/-- The dynamic value handed to the package-level `Ping`: it may carry the
Sender capability, the Receiver capability, or neither (which also covers a nil
interface value). -/
inductive ProviderVal where
  | sender (s : SenderImpl)
  | receiver (r : ReceiverImpl)
  | neither

/-- Package-level `Ping`: dispatch on the capability the value implements. -/
def Ping (ctx : Ctx) (p : ProviderVal) : Option GoErr :=
  match p with
  | .sender s => s.ping ctx
  | .receiver r => r.ping ctx
  | .neither => some (strBytes "provider does not implement Sender or Receiver interface")

/-! ## Domain health checks (the health-check file, src/unnamed/part_006) -/

/-- health: `HealthResult`. -/
structure HealthResult where
  Found : Bool := false
  Valid : Bool := false
  Record : List Byte := []
  Details : List Byte := []
  Error : List Byte := []
deriving DecidableEq

/-- Outcome of one DNS TXT lookup, already classified the way the health
checker classifies `lookupTXT` errors: success with the answer set, a resolver
not-found condition (`isNotFound`), or any other lookup failure. -/
inductive LookupResult where
  | ok (txts : List (List Byte))
  | notFound
  | err (msg : List Byte)
deriving DecidableEq

/-- The SPF-candidate test of `CheckSPF`: the record, surrounding white space
trimmed, starts case-insensitively with v=spf1. -/
def isSPFCandidate (txt : List Byte) : Bool :=
  hasPrefixB (toLowerB (trimSpace txt)) (strBytes "v=spf1")

/-- The accumulation loop of `CheckSPF`: the trimmed records that start
case-insensitively with v=spf1, in order. -/
def spfCandidates (txts : List (List Byte)) : List (List Byte) :=
  (txts.map trimSpace).filter fun t => hasPrefixB (toLowerB t) (strBytes "v=spf1")

/-- health: `CheckSPF`, parameterized by the TXT lookup outcome for the apex
domain. -/
def CheckSPF (res : LookupResult) : HealthResult :=
  match res with
  | .notFound => { Found := false, Details := strBytes "No TXT records found" }
  | .err m => { Error := m }
  | .ok txts =>
    let spfRecords := spfCandidates txts
    if spfRecords.length = 0 then
      { Found := false, Details := strBytes "No SPF record found" }
    else if spfRecords.length > 1 then
      { Found := true, Valid := false, Record := joinSep (strBytes " | ") spfRecords,
        Details := strBytes "Multiple SPF records found (invalid configuration)" }
    else
      { Found := true, Valid := true, Record := spfRecords.headD [] }

/-- Insert-or-overwrite into an association list: Go map assignment. -/
def upsert (m : List (List Byte × List Byte)) (k v : List Byte) :
    List (List Byte × List Byte) :=
  if m.any (fun p => p.1 == k) then m.map (fun p => if p.1 == k then (k, v) else p)
  else m ++ [(k, v)]

/-- Last-write-wins lookup for the Go map of DKIM tags. -/
def lookupTag (m : List (List Byte × List Byte)) (k : List Byte) :
    Option (List Byte) :=
  (m.find? (fun p => p.1 == k)).map Prod.snd

/-- The tag=value parser inside `CheckDKIM`: split on semicolons, trim, keep
parts with an equals sign, later duplicates overwriting (Go map semantics). -/
def dkimTags (record : List Byte) : List (List Byte × List Byte) :=
  (List.splitOn 59 record).foldl
    (fun acc part =>
      let part := trimSpace part
      if part.isEmpty then acc
      else
        match splitN2 61 part with
        | [k, v] => upsert acc (trimSpace k) (trimSpace v)
        | _ => acc)
    []

/-- health: `CheckDKIM`, parameterized by the selector and the TXT lookup
outcome at selector._domainkey.domain. -/
def CheckDKIM (selector : List Byte) (res : LookupResult) : HealthResult :=
  if selector.isEmpty then
    { Error := strBytes "Selector is required for DKIM check" }
  else
    match res with
    | .notFound =>
      { Found := false,
        Details := strBytes "No DKIM record found for selector " ++ selector }
    | .err m => { Error := m }
    | .ok txts =>
      if txts.length = 0 then
        { Found := false,
          Details := strBytes "No DKIM record found for selector " ++ selector }
      else if txts.length > 1 then
        { Found := true, Valid := false, Record := joinSep (strBytes " | ") txts,
          Details := strBytes "Multiple DKIM records found for selector " ++ selector
            ++ strBytes " (invalid configuration)" }
      else
        let record := txts.headD []
        let tags := dkimTags record
        let vd : Bool × List Byte :=
          match lookupTag tags (strBytes "p") with
          | none => (false, strBytes "DKIM record missing " ++ [39] ++ strBytes "p="
              ++ [39] ++ strBytes " tag (public key)")
          | some p =>
            if p.isEmpty then
              (false, strBytes "DKIM public key has been revoked (p= is empty)")
            else (true, [])
        { Found := true, Valid := vd.1, Record := record, Details := vd.2 }

/-! ## A model of net/textproto header reading (used by the mail parser and
the bounce parser) -/

/-- Go `bufio.Reader.ReadLine`: the next line without its terminator (a final
CR is stripped only as part of a CR LF terminator), the rest, and whether an
LF terminator was found. -/
def takeLine : List Byte → List Byte × List Byte × Bool
  | [] => ([], [], false)
  | c :: rest =>
    if c = 10 then ([], rest, true)
    else
      let r := takeLine rest
      (c :: r.1, r.2.1, r.2.2)

/-- Strip one trailing CR (part of Go ReadLine's CR LF handling). -/
def dropTrailCR (l : List Byte) : List Byte :=
  if l.getLast? == some 13 then l.dropLast else l

/-- One terminated-or-final line: content without CR LF, rest. -/
def readLine (b : List Byte) : List Byte × List Byte × Bool :=
  let r := takeLine b
  (if r.2.2 then dropTrailCR r.1 else r.1, r.2.1, r.2.2)

/-- Space or horizontal tab (the separator class of textproto `trim` and
`skipSpace`). -/
def isST (c : Byte) : Bool := c == 32 || c == 9

/-- textproto `trim`: strip leading and trailing spaces and tabs. -/
def trimST (l : List Byte) : List Byte :=
  ((l.dropWhile isST).reverse.dropWhile isST).reverse

/-- The continuation loop of textproto `readContinuedLineSlice`: while the
rest starts with space or tab, consume the run and join the next line with a
single space. -/
def readContinuedAux (fuel : Nat) (acc : List Byte) (rest : List Byte) :
    List Byte × List Byte :=
  match fuel with
  | 0 => (acc, rest)
  | fuel + 1 =>
    if (rest.head?.map isST).getD false then
      let rest2 := rest.dropWhile isST
      if rest2.isEmpty then (acc, [])
      else
        let r := readLine rest2
        readContinuedAux fuel (acc ++ [32] ++ trimST r.1) r.2.1
    else (acc, rest)

/-- textproto `readContinuedLineSlice`: one trimmed logical header line (with
folded continuations joined by single spaces), and the rest. -/
def readContinued (b : List Byte) : List Byte × List Byte :=
  let r := readLine b
  if r.1.isEmpty then ([], r.2.1)
  else readContinuedAux b.length (trimST r.1) r.2.1

/-- textproto `validHeaderFieldByte`: RFC 7230 token characters. -/
def validHeaderFieldByte (c : Byte) : Bool :=
  (48 ≤ c && c ≤ 57) || (65 ≤ c && c ≤ 90) || (97 ≤ c && c ≤ 122) ||
  c == 33 || c == 35 || c == 36 || c == 37 || c == 38 || c == 39 ||
  c == 42 || c == 43 || c == 45 || c == 46 || c == 94 || c == 95 ||
  c == 96 || c == 124 || c == 126

/-- The case normalization of textproto `canonicalMIMEHeaderKey`: upper case
at the start and after each hyphen, lower case elsewhere. -/
def canonKeyAux : Bool → List Byte → List Byte
  | _, [] => []
  | up, c :: cs => (if up then upperAZ c else lowerAZ c) :: canonKeyAux (c == 45) cs

/-- textproto `canonicalMIMEHeaderKey`; `none` when the key holds a byte that
is not a valid header-field byte (the caller then reports a protocol error). -/
def canonicalMIMEHeaderKey (k : List Byte) : Option (List Byte) :=
  if k.any (fun c => !validHeaderFieldByte c) then none
  else some (canonKeyAux true k)

/-- How a header-block read ended: at a blank line, at end of input (Go's
io.EOF result), or with a protocol error. -/
inductive MIMEEnd where
  | clean
  | eof
  | proto
deriving DecidableEq

/-- The loop of textproto `ReadMIMEHeader`, keeping the partially filled
header list on every exit the way the Go map survives an error return. -/
def readMIMEHeaderAux (fuel : Nat) (b : List Byte)
    (acc : List (List Byte × List Byte)) :
    List (List Byte × List Byte) × List Byte × MIMEEnd :=
  match fuel with
  | 0 => (acc, b, .proto)
  | fuel + 1 =>
    if b.isEmpty then (acc, [], .eof)
    else
      let r := readContinued b
      let kv := r.1
      let rest := r.2
      if kv.isEmpty then (acc, rest, .clean)
      else
        match bytesIndexByte kv 58 with
        | none => (acc, rest, .proto)
        | some i =>
          match canonicalMIMEHeaderKey (kv.take i) with
          | none => (acc, rest, .proto)
          | some key =>
            let v := (kv.drop (i + 1)).dropWhile isST
            readMIMEHeaderAux fuel rest (acc ++ [(key, v)])

/-- textproto `ReadMIMEHeader`: the header list in order, the rest of the
input, and how reading ended.  The initial check mirrors the source: a first
line starting with space or tab is a protocol error. -/
def readMIMEHeader (b : List Byte) : List (List Byte × List Byte) × List Byte × MIMEEnd :=
  if (b.head?.map isST).getD false then ([], b, .proto)
  else readMIMEHeaderAux (b.length + 1) b []

/-- Whether textproto's look-ahead `upcomingHeaderKeys` counts zero keys, in
which case `ReadMIMEHeader` leaves its result map nil: the first line holds
nothing but CR and LF bytes (or the input is empty). -/
def mimeHintZero (b : List Byte) : Bool :=
  (takeLine b).1.all fun c => c == 13 || c == 10

/-- textproto `MIMEHeader.Get`: canonicalize the key (left unchanged when it
holds an invalid byte, as the exported canonicalization does), first value or
empty. -/
def headerGet (hs : List (List Byte × List Byte)) (key : List Byte) : List Byte :=
  let ck := (canonicalMIMEHeaderKey key).getD key
  match hs.find? (fun p => p.1 == ck) with
  | some p => p.2
  | none => []

/-! ## Bounce and complaint normalization (bounce.go) -/

deriving instance DecidableEq for Except


/-- bounce.go `BounceType`. -/
inductive BounceType where
  | Hard
  | Soft
deriving DecidableEq

/-- bounce.go `Bounce` (time.Time values appear as abstract instants). -/
structure Bounce where
  Type' : BounceType
  EmailAddress : List Byte := []
  Reason : List Byte := []
  Status : List Byte := []
  Timestamp : Int := 0
  OriginalMsgID : List Byte := []
  Provider : List Byte := []
deriving DecidableEq

/-- bounce.go `Complaint`. -/
structure Complaint where
  EmailAddress : List Byte := []
  Type' : List Byte := []
  Timestamp : Int := 0
  OriginalMsgID : List Byte := []
  UserAgent : List Byte := []
  Provider : List Byte := []
deriving DecidableEq

/-- bounce.go `isRFC822`. -/
def isRFC822 (contentType : List Byte) : Bool :=
  let ct := toLowerB contentType
  bytesContains ct (strBytes "message/rfc822") ||
    bytesContains ct (strBytes "text/rfc822-headers")

/-- bounce.go `findOriginalMsgID`: first rfc822-ish attachment whose header
block parses to a non-nil map yields its Message-ID. -/
def findOriginalMsgID (email : Email) : List Byte :=
  match email.Attachments.find?
      (fun att => isRFC822 att.ContentType && !mimeHintZero att.Data) with
  | some att => headerGet (readMIMEHeader att.Data).1 (strBytes "Message-ID")
  | none => []

/-- bounce.go `parseDSN`: two sequential header blocks (per-message, then
per-recipient); `nowT` stands for the `time.Now()` the source stores.  An EOF
end is tolerated exactly as the source tolerates io.EOF. -/
def parseDSN (nowT : Int) (data : List Byte) (email : Email) :
    Except GoErr Bounce :=
  let first := readMIMEHeader data
  if first.2.2 == .proto then .error (strBytes "read DSN message headers")
  else
    let rest := first.2.1
    let second := readMIMEHeader rest
    if second.2.2 == .proto then .error (strBytes "read DSN recipient headers")
    else if mimeHintZero rest then
      .error (strBytes "invalid DSN format: missing recipient section")
    else
      let hs := second.1
      let recipient0 := headerGet hs (strBytes "Final-Recipient")
      let recipient :=
        if recipient0.isEmpty then recipient0
        else
          match List.splitOn 59 recipient0 with
          | _ :: p2 :: _ => trimSpace p2
          | _ => recipient0
      let status := headerGet hs (strBytes "Status")
      let diagnostic := headerGet hs (strBytes "Diagnostic-Code")
      .ok { Type' := if hasPrefixB status (strBytes "5") then .Hard else .Soft,
            EmailAddress := recipient, Status := status, Reason := diagnostic,
            Timestamp := nowT, OriginalMsgID := findOriginalMsgID email }

/-- bounce.go `ParseBounce`: find the message/delivery-status attachment and
parse it as a DSN. -/
def ParseBounce (nowT : Int) (email : Email) : Except GoErr Bounce :=
  match email.Attachments.find?
      (fun att => bytesContains (toLowerB att.ContentType)
        (strBytes "message/delivery-status")) with
  | some att => parseDSN nowT att.Data email
  | none => .error (strBytes "no delivery-status part found")

/-- bounce.go `SESNotification`, bounced-recipient entry. -/
structure SESRecipient where
  EmailAddress : List Byte := []
  Status : List Byte := []
  DiagnosticCode : List Byte := []
deriving DecidableEq

/-- bounce.go `SESNotification`, bounce block. -/
structure SESBounceInfo where
  BounceType : List Byte := []
  BounceSubType : List Byte := []
  BouncedRecipients : List SESRecipient := []
  Timestamp : List Byte := []
deriving DecidableEq

/-- bounce.go `SESNotification`, complaint block. -/
structure SESComplaintInfo where
  ComplainedRecipients : List (List Byte) := []
  ComplaintFeedbackType : List Byte := []
  Timestamp : List Byte := []
  UserAgent : List Byte := []
deriving DecidableEq

/-- bounce.go `SESNotification`, mail block. -/
structure SESMail where
  MessageID : List Byte := []
  Timestamp : List Byte := []
deriving DecidableEq

/-- bounce.go `SESNotification` after JSON decoding. -/
structure SESNotification where
  NotificationType : List Byte := []
  Bounce : Option SESBounceInfo := none
  Complaint : Option SESComplaintInfo := none
  Mail : SESMail := {}
deriving DecidableEq

/-- bounce.go `ParseSESWebhook` after JSON decoding (encoding/json and the SNS
envelope unwrapping are external inputs of the dispatch logic modelled here;
`parseTime` abstracts time.Parse of an RFC 3339 stamp, `none` for a parse
failure, in which case the zero instant stays). -/
def ParseSESWebhook (parseTime : List Byte → Option Int) (ses : SESNotification) :
    Except GoErr (Sum Bounce Complaint) :=
  if ses.NotificationType = strBytes "Bounce" then
    match ses.Bounce with
    | none => .error (strBytes "invalid SES bounce notification")
    | some bi =>
      match bi.BouncedRecipients with
      | [] => .error (strBytes "invalid SES bounce notification")
      | r :: _ =>
        .ok (.inl
          { Type' := if bi.BounceType = strBytes "Permanent" then .Hard else .Soft,
            EmailAddress := r.EmailAddress, Status := r.Status,
            Reason := r.DiagnosticCode,
            Timestamp := (parseTime bi.Timestamp).getD 0,
            OriginalMsgID := ses.Mail.MessageID,
            Provider := strBytes "AWS SES" })
  else if ses.NotificationType = strBytes "Complaint" then
    match ses.Complaint with
    | none => .error (strBytes "invalid SES complaint notification")
    | some ci =>
      match ci.ComplainedRecipients with
      | [] => .error (strBytes "invalid SES complaint notification")
      | r :: _ =>
        .ok (.inr
          { EmailAddress := r, Type' := ci.ComplaintFeedbackType,
            Timestamp := (parseTime ci.Timestamp).getD 0,
            OriginalMsgID := ses.Mail.MessageID, UserAgent := ci.UserAgent,
            Provider := strBytes "AWS SES" })
  else .error (strBytes "unsupported SES notification type")

/-- bounce.go `ParseMailgunWebhook`, delivery-status block. -/
structure MailgunDeliveryStatus where
  Code : Int := 0
  Description : List Byte := []
  Message : List Byte := []
deriving DecidableEq

/-- bounce.go `ParseMailgunWebhook`, event-data block after JSON decoding (the
float64 timestamp is already truncated to int64 seconds, as time.Unix receives
it). -/
structure MailgunEventData where
  Event : List Byte := []
  Timestamp : Int := 0
  Recipient : List Byte := []
  MessageID : List Byte := []
  DeliveryStatus : MailgunDeliveryStatus := {}
deriving DecidableEq

/-- bounce.go `ParseMailgunWebhook` after JSON decoding. -/
def ParseMailgunWebhook (ed : MailgunEventData) :
    Except GoErr (Sum Bounce Complaint) :=
  if ed.Event = strBytes "failed" then
    .ok (.inl
      { Type' := if 500 ≤ ed.DeliveryStatus.Code then .Hard else .Soft,
        EmailAddress := ed.Recipient, Reason := ed.DeliveryStatus.Description,
        Status := intToDecimal ed.DeliveryStatus.Code, Timestamp := ed.Timestamp,
        OriginalMsgID := ed.MessageID, Provider := strBytes "Mailgun" })
  else if ed.Event = strBytes "complained" then
    .ok (.inr
      { EmailAddress := ed.Recipient, Type' := strBytes "abuse",
        Timestamp := ed.Timestamp, OriginalMsgID := ed.MessageID,
        Provider := strBytes "Mailgun" })
  else .error (strBytes "unsupported Mailgun event")

/-! ## Lemmas on the retry loop -/

theorem retryLoop_succ (env : RetryEnv) (mi : Int) (m : ℚ) (r : Nat) (interval : Int)
    (k : Nat) (le : Option (List Byte)) :
    retryLoop env mi m (r + 1) interval k le =
      if env.pre k then (some RetryErr.cancelled, k)
      else
        match env.fn k with
        | none => (none, k + 1)
        | some e =>
          if r = 0 then (some (RetryErr.op e), k + 1)
          else if env.wait k then (some RetryErr.cancelled, k + 1)
          else retryLoop env mi m r (min (Int.floor ((interval : ℚ) * m)) mi) (k + 1) (some e) := rfl

theorem retryLoop_count_le (env : RetryEnv) (mi : Int) (m : ℚ) :
    ∀ (r : Nat) (interval : Int) (k : Nat) (le : Option (List Byte)),
      (retryLoop env mi m r interval k le).2 ≤ k + r := by
  intro r
  induction r with
  | zero => intro interval k le; simp [retryLoop]
  | succ n ih =>
    intro interval k le
    rw [retryLoop_succ]
    by_cases hp : env.pre k
    · simp [hp]
    · simp only [hp, Bool.false_eq_true, if_false]
      cases hf : env.fn k with
      | none => simp
      | some e =>
        by_cases hn : n = 0
        · simp [hn]
        · simp only [hn, if_false]
          by_cases hw : env.wait k
          · simp [hw]
          · simp only [hw, Bool.false_eq_true, if_false]
            exact le_trans (ih _ _ _) (by omega)

theorem retryLoop_allFail (env : RetryEnv) (mi : Int) (m : ℚ)
    (hpre : ∀ j, env.pre j = false) (hwait : ∀ j, env.wait j = false)
    (es : Nat → List Byte) (hfn : ∀ j, env.fn j = some (es j)) :
    ∀ (r : Nat) (interval : Int) (k : Nat) (le : Option (List Byte)), 0 < r →
      retryLoop env mi m r interval k le =
        (some (RetryErr.op (es (k + r - 1))), k + r) := by
  intro r
  induction r with
  | zero => omega
  | succ n ih =>
    intro interval k le _
    rw [retryLoop_succ, hpre, hfn]
    simp only [Bool.false_eq_true, if_false]
    rcases Nat.eq_zero_or_pos n with hn | hn
    · subst hn; simp
    · rw [if_neg (Nat.pos_iff_ne_zero.mp hn), hwait]
      simp only [Bool.false_eq_true, if_false]
      rw [ih _ (k + 1) _ hn]
      have h1 : k + 1 + n - 1 = k + (n + 1) - 1 := by omega
      have h2 : k + 1 + n = k + (n + 1) := by omega
      rw [h1, h2]

theorem retryLoop_firstSuccess (env : RetryEnv) (mi : Int) (m : ℚ)
    (hpre : ∀ j, env.pre j = false) (hwait : ∀ j, env.wait j = false) :
    ∀ (t : Nat) (r : Nat) (interval : Int) (k : Nat) (le : Option (List Byte)),
      t < r → (∀ j, j < t → (env.fn (k + j)).isSome) → env.fn (k + t) = none →
      retryLoop env mi m r interval k le = (none, k + t + 1) := by
  intro t
  induction t with
  | zero =>
    intro r interval k le hr _ hnone
    match r, hr with
    | r + 1, _ =>
      rw [retryLoop_succ, hpre]
      simp only [Nat.add_zero] at hnone
      simp [hnone]
  | succ t ih =>
    intro r interval k le hr hsome hnone
    match r, hr with
    | r + 1, _ =>
      rw [retryLoop_succ, hpre]
      obtain ⟨e, he⟩ := Option.isSome_iff_exists.mp (hsome 0 (by omega))
      simp only [Nat.add_zero] at he
      rw [he]
      simp only [Bool.false_eq_true, if_false]
      rw [if_neg (by omega : ¬ r = 0), hwait]
      simp only [Bool.false_eq_true, if_false]
      have hshift : ∀ x : Nat, k + 1 + x = k + (x + 1) := by omega
      rw [ih r _ (k + 1) _ (by omega)
        (fun j hj => by rw [hshift]; exact hsome (j + 1) (by omega))
        (by rw [hshift]; exact hnone)]
      rw [hshift]

theorem retryLoop_preCancel (env : RetryEnv) (mi : Int) (m : ℚ) :
    ∀ (j : Nat) (r : Nat) (interval : Int) (k : Nat) (le : Option (List Byte)),
      j < r →
      (∀ i, i < j → env.pre (k + i) = false ∧ env.wait (k + i) = false ∧
        (env.fn (k + i)).isSome) →
      env.pre (k + j) = true →
      retryLoop env mi m r interval k le = (some RetryErr.cancelled, k + j) := by
  intro j
  induction j with
  | zero =>
    intro r interval k le hr _ hc
    match r, hr with
    | r + 1, _ =>
      simp only [Nat.add_zero] at hc
      rw [retryLoop_succ, hc]
      simp
  | succ j ih =>
    intro r interval k le hr hok hc
    match r, hr with
    | r + 1, _ =>
      obtain ⟨hp0, hw0, hf0⟩ := hok 0 (by omega)
      simp only [Nat.add_zero] at hp0 hw0 hf0
      obtain ⟨e, he⟩ := Option.isSome_iff_exists.mp hf0
      rw [retryLoop_succ, hp0, he]
      simp only [Bool.false_eq_true, if_false]
      rw [if_neg (by omega : ¬ r = 0), hw0]
      simp only [Bool.false_eq_true, if_false]
      have hshift : ∀ x : Nat, k + 1 + x = k + (x + 1) := by omega
      rw [ih r _ (k + 1) _ (by omega)
        (fun i hi => by rw [hshift]; exact hok (i + 1) (by omega))
        (by rw [hshift]; exact hc)]
      rw [hshift]

theorem retryLoop_waitCancel (env : RetryEnv) (mi : Int) (m : ℚ) :
    ∀ (j : Nat) (r : Nat) (interval : Int) (k : Nat) (le : Option (List Byte)),
      j + 1 < r →
      (∀ i, i < j → env.pre (k + i) = false ∧ env.wait (k + i) = false ∧
        (env.fn (k + i)).isSome) →
      env.pre (k + j) = false → (env.fn (k + j)).isSome → env.wait (k + j) = true →
      retryLoop env mi m r interval k le = (some RetryErr.cancelled, k + j + 1) := by
  intro j
  induction j with
  | zero =>
    intro r interval k le hr _ hp hf hw
    match r, hr with
    | r + 1, _ =>
      simp only [Nat.add_zero] at hp hf hw
      obtain ⟨e, he⟩ := Option.isSome_iff_exists.mp hf
      rw [retryLoop_succ, hp, he]
      simp only [Bool.false_eq_true, if_false]
      rw [if_neg (by omega : ¬ r = 0), hw]
      simp
  | succ j ih =>
    intro r interval k le hr hok hp hf hw
    match r, hr with
    | r + 1, _ =>
      obtain ⟨hp0, hw0, hf0⟩ := hok 0 (by omega)
      simp only [Nat.add_zero] at hp0 hw0 hf0
      obtain ⟨e, he⟩ := Option.isSome_iff_exists.mp hf0
      rw [retryLoop_succ, hp0, he]
      simp only [Bool.false_eq_true, if_false]
      rw [if_neg (by omega : ¬ r = 0), hw0]
      simp only [Bool.false_eq_true, if_false]
      have hshift : ∀ x : Nat, k + 1 + x = k + (x + 1) := by omega
      rw [ih r _ (k + 1) _ (by omega)
        (fun i hi => by rw [hshift]; exact hok (i + 1) (by omega))
        (by rw [hshift]; exact hp) (by rw [hshift]; exact hf) (by rw [hshift]; exact hw)]
      rw [hshift]

theorem retry_toNat_succ (n : Nat) : ((n : Int) + 1).toNat = n + 1 := by omega

/-! ## Claim theorems: retry semantics and nil guards -/

/-- C3.  Retry semantics: with MaxRetries = n ≥ 0, the operation runs at most
1 + n times; with no cancellation, an always-failing operation runs exactly
1 + n times and Retry returns its last failure, and an operation first
succeeding on call k ≤ 1 + n runs exactly k times and Retry returns nil; a
context already cancelled at the check before an attempt, or cancelling the
select of a back-off wait, makes Retry return the cancellation error instead
of any prior operation error. -/
theorem C3_retry_semantics :
    (∀ (env : RetryEnv) (cfg : RetryConfig) (n : Nat), cfg.MaxRetries = n →
        (Retry env cfg).2 ≤ 1 + n)
  ∧ (∀ (env : RetryEnv) (cfg : RetryConfig) (n : Nat) (es : Nat → List Byte),
        cfg.MaxRetries = n →
        (∀ j, env.pre j = false) → (∀ j, env.wait j = false) →
        (∀ j, env.fn j = some (es j)) →
        Retry env cfg = (some (RetryErr.op (es n)), 1 + n))
  ∧ (∀ (env : RetryEnv) (cfg : RetryConfig) (n k : Nat), cfg.MaxRetries = n →
        1 ≤ k → k ≤ 1 + n →
        (∀ j, env.pre j = false) → (∀ j, env.wait j = false) →
        (∀ j, j < k - 1 → (env.fn j).isSome) → env.fn (k - 1) = none →
        Retry env cfg = (none, k))
  ∧ (∀ (env : RetryEnv) (cfg : RetryConfig) (n j : Nat), cfg.MaxRetries = n →
        j ≤ n →
        (∀ i, i < j → env.pre i = false ∧ env.wait i = false ∧ (env.fn i).isSome) →
        env.pre j = true →
        (Retry env cfg).1 = some RetryErr.cancelled)
  ∧ (∀ (env : RetryEnv) (cfg : RetryConfig) (n j : Nat), cfg.MaxRetries = n →
        j < n →
        (∀ i, i < j → env.pre i = false ∧ env.wait i = false ∧ (env.fn i).isSome) →
        env.pre j = false → (env.fn j).isSome → env.wait j = true →
        (Retry env cfg).1 = some RetryErr.cancelled) := by
  refine ⟨?_, ?_, ?_, ?_, ?_⟩
  · intro env cfg n hn
    unfold Retry
    rw [hn, retry_toNat_succ]
    exact le_trans (retryLoop_count_le _ _ _ _ _ _ _) (by omega)
  · intro env cfg n es hn hpre hwait hfn
    unfold Retry
    rw [hn, retry_toNat_succ,
      retryLoop_allFail env _ _ hpre hwait es hfn _ _ _ _ (by omega),
      (by omega : 0 + (n + 1) - 1 = n), (by omega : 0 + (n + 1) = 1 + n)]
  · intro env cfg n k hn hk1 hk2 hpre hwait hsome hnone
    unfold Retry
    rw [hn, retry_toNat_succ,
      retryLoop_firstSuccess env _ _ hpre hwait (k - 1) _ _ 0 _ (by omega)
        (fun j hj => by simpa using hsome j hj) (by simpa using hnone),
      (by omega : 0 + (k - 1) + 1 = k)]
  · intro env cfg n j hn hj hok hc
    unfold Retry
    rw [hn, retry_toNat_succ,
      retryLoop_preCancel env _ _ j _ _ 0 _ (by omega)
        (fun i hi => by simpa using hok i hi) (by simpa using hc)]
  · intro env cfg n j hn hj hok hp hf hw
    unfold Retry
    rw [hn, retry_toNat_succ,
      retryLoop_waitCancel env _ _ j _ _ 0 _ (by omega)
        (fun i hi => by simpa using hok i hi) (by simpa using hp)
        (by simpa using hf) (by simpa using hw)]

/-- An operation that fails on every call, never-cancelling context. -/
def envAllFail : RetryEnv :=
  { pre := fun _ => false, wait := fun _ => false,
    fn := fun _ => some (strBytes "send failed") }

/-- An operation that succeeds on its third call, never-cancelling context. -/
def envThird : RetryEnv :=
  { pre := fun _ => false, wait := fun _ => false,
    fn := fun k => if k = 2 then none else some (strBytes "e") }

/-- An always-failing operation whose context cancels during the first
back-off wait. -/
def envWaitCancel : RetryEnv :=
  { pre := fun _ => false, wait := fun k => k == 0,
    fn := fun _ => some (strBytes "e") }

/-- A retry config with the given MaxRetries and the default timing fields. -/
def cfgMR (n : Int) : RetryConfig :=
  { MaxRetries := n, InitialInterval := 500000000,
    MaxInterval := 5000000000, Multiplier := 2 }

theorem C3_retry_semantics_witness :
    Retry envAllFail (cfgMR 2) = (some (RetryErr.op (strBytes "send failed")), 3)
  ∧ Retry envThird (cfgMR 3) = (none, 3)
  ∧ (Retry envWaitCancel (cfgMR 2)).1 = some RetryErr.cancelled := by
  refine ⟨?_, ?_, ?_⟩
  · have h := C3_retry_semantics.2.1 envAllFail (cfgMR 2) 2
      (fun _ => strBytes "send failed") rfl (fun _ => rfl) (fun _ => rfl) (fun _ => rfl)
    simpa using h
  · have h := C3_retry_semantics.2.2.1 envThird (cfgMR 3) 3 3 rfl (by omega) (by omega)
      (fun _ => rfl) (fun _ => rfl)
      (fun j hj => by
        simp only [envThird]
        rw [if_neg (by omega : ¬ j = 2)]
        rfl)
      (by decide)
    simpa using h
  · exact C3_retry_semantics.2.2.2.2 envWaitCancel (cfgMR 2) 2 0 rfl (by omega)
      (fun i hi => absurd hi (by omega)) rfl (by decide) rfl

/-- C10.  Called directly with a negative MaxRetries, Retry reports success
without a single invocation of the operation and without consulting the
context (the result is the same for every environment); the MaxRetries ≤ 0
fallback to the default configuration lives only in GetRetryConfig. -/
theorem C10_negative_maxretries_noop :
    (∀ (env : RetryEnv) (cfg : RetryConfig), cfg.MaxRetries < 0 →
        Retry env cfg = (none, 0))
  ∧ (∀ cfg : RetryConfig, cfg.MaxRetries ≤ 0 → GetRetryConfig cfg = DefaultRetryConfig)
  ∧ (∀ cfg : RetryConfig, 0 < cfg.MaxRetries → GetRetryConfig cfg = cfg) := by
  refine ⟨?_, ?_, ?_⟩
  · intro env cfg h
    unfold Retry
    rw [(by omega : (cfg.MaxRetries + 1).toNat = 0)]
    rfl
  · intro cfg h
    unfold GetRetryConfig
    rw [if_pos h]
  · intro cfg h
    unfold GetRetryConfig
    rw [if_neg (by omega)]

theorem C10_negative_maxretries_noop_witness :
    Retry envAllFail (cfgMR (-5)) = (none, 0)
  ∧ GetRetryConfig (cfgMR (-5)) = DefaultRetryConfig
  ∧ GetRetryConfig (cfgMR 2) = cfgMR 2 :=
  ⟨C10_negative_maxretries_noop.1 envAllFail (cfgMR (-5)) (by decide),
   C10_negative_maxretries_noop.2.1 (cfgMR (-5)) (by decide),
   C10_negative_maxretries_noop.2.2 (cfgMR 2) (by decide)⟩

/-- C4.  The package-level wrappers are nil-safe: Send, Receive and Search on
an absent provider return the nil-provider error without reaching any
transport; Idle on an absent receiver returns an already-closed email channel
and a closed error channel carrying exactly one such error; Ping on a value
that implements neither capability returns the unsupported-provider error. -/
theorem C4_nil_guards :
    (∀ (ctx : Ctx) (email : Email),
        Send ctx none email = some (strBytes "sender is nil"))
  ∧ (∀ (ctx : Ctx) (limit : Int),
        Receive ctx none limit = ([], some (strBytes "receiver is nil")))
  ∧ (∀ (ctx : Ctx) (options : SearchOptions) (limit : Int),
        Search ctx none options limit = ([], some (strBytes "receiver is nil")))
  ∧ (∀ ctx : Ctx,
        Idle ctx none =
          ({ buffered := [], closed := true },
           { buffered := [strBytes "receiver is nil"], closed := true }))
  ∧ (∀ ctx : Ctx,
        Ping ctx .neither =
          some (strBytes "provider does not implement Sender or Receiver interface")) :=
  ⟨fun _ _ => rfl, fun _ _ => rfl, fun _ _ _ => rfl, fun _ => rfl, fun _ => rfl⟩

/-! ## Claim theorems: domain health and bounce severity -/

/-- C8, counterexample.  A TXT record with leading white space does not begin
with v=spf1, yet CheckSPF counts it (the source trims before testing the
prefix): with this sole record the claim predicts Found = false, the code
reports Found = true (and Valid = true). -/
theorem C8_domain_health_counterexample :
    hasPrefixB (toLowerB (strBytes " v=spf1 include:a")) (strBytes "v=spf1") = false
  ∧ (CheckSPF (.ok [strBytes " v=spf1 include:a"])).Found = true
  ∧ (CheckSPF (.ok [strBytes " v=spf1 include:a"])).Valid = true := by
  refine ⟨by decide, by decide, by decide⟩

/-- C8, amended.  With SPF candidates counted on the records after
strings.TrimSpace (as the code does): zero candidates report Found = false;
exactly one reports Found and Valid; more than one reports Found, not Valid,
with the multiple-records detail.  For a single DKIM TXT record (and a
non-empty selector): a missing p tag is invalid with the missing-p detail, an
empty p is invalid with the revoked-key detail, a non-empty p is found and
valid. -/
theorem C8_domain_health_classification :
    (∀ txts : List (List Byte), (spfCandidates txts).length = 0 →
        (CheckSPF (.ok txts)).Found = false)
  ∧ (∀ txts : List (List Byte), (spfCandidates txts).length = 1 →
        (CheckSPF (.ok txts)).Found = true ∧ (CheckSPF (.ok txts)).Valid = true)
  ∧ (∀ txts : List (List Byte), 1 < (spfCandidates txts).length →
        (CheckSPF (.ok txts)).Found = true ∧ (CheckSPF (.ok txts)).Valid = false ∧
        (CheckSPF (.ok txts)).Details =
          strBytes "Multiple SPF records found (invalid configuration)")
  ∧ (∀ (sel record : List Byte), sel ≠ [] →
        lookupTag (dkimTags record) (strBytes "p") = none →
        (CheckDKIM sel (.ok [record])).Valid = false ∧
        (CheckDKIM sel (.ok [record])).Details =
          strBytes "DKIM record missing " ++ [39] ++ strBytes "p=" ++ [39] ++
            strBytes " tag (public key)")
  ∧ (∀ (sel record : List Byte), sel ≠ [] →
        lookupTag (dkimTags record) (strBytes "p") = some [] →
        (CheckDKIM sel (.ok [record])).Valid = false ∧
        (CheckDKIM sel (.ok [record])).Details =
          strBytes "DKIM public key has been revoked (p= is empty)")
  ∧ (∀ (sel record p : List Byte), sel ≠ [] →
        lookupTag (dkimTags record) (strBytes "p") = some p → p ≠ [] →
        (CheckDKIM sel (.ok [record])).Found = true ∧
        (CheckDKIM sel (.ok [record])).Valid = true) := by
  have hdkim : ∀ (sel record : List Byte), sel ≠ [] →
      CheckDKIM sel (.ok [record]) =
        { Found := true,
          Valid := (match lookupTag (dkimTags record) (strBytes "p") with
            | none => false
            | some p => !p.isEmpty),
          Record := record,
          Details := (match lookupTag (dkimTags record) (strBytes "p") with
            | none => strBytes "DKIM record missing " ++ [39] ++ strBytes "p=" ++ [39] ++
                strBytes " tag (public key)"
            | some p =>
              if p.isEmpty then strBytes "DKIM public key has been revoked (p= is empty)"
              else []) } := by
    intro sel record hsel
    unfold CheckDKIM
    rw [if_neg (by simpa [List.isEmpty_iff] using hsel)]
    simp only [List.length_cons, List.length_nil]
    rw [if_neg (by omega), if_neg (by omega)]
    simp only [List.headD]
    cases hp : lookupTag (dkimTags record) (strBytes "p") with
    | none => simp
    | some p => cases hpe : p.isEmpty <;> simp [hpe]
  refine ⟨?_, ?_, ?_, ?_, ?_, ?_⟩
  · intro txts h
    simp only [CheckSPF]
    rw [if_pos h]
  · intro txts h
    simp only [CheckSPF]
    rw [if_neg (show ¬ (spfCandidates txts).length = 0 by omega),
        if_neg (show ¬ (spfCandidates txts).length > 1 by omega)]
    exact ⟨rfl, rfl⟩
  · intro txts h
    simp only [CheckSPF]
    rw [if_neg (show ¬ (spfCandidates txts).length = 0 by omega),
        if_pos (show (spfCandidates txts).length > 1 by omega)]
    exact ⟨rfl, rfl, rfl⟩
  · intro sel record hsel hp
    rw [hdkim sel record hsel, hp]
    exact ⟨rfl, rfl⟩
  · intro sel record hsel hp
    rw [hdkim sel record hsel, hp]
    exact ⟨rfl, rfl⟩
  · intro sel record p hsel hp hpe
    rw [hdkim sel record hsel, hp]
    refine ⟨rfl, ?_⟩
    simp [List.isEmpty_iff, hpe]

theorem C8_domain_health_classification_witness :
    (CheckSPF (.ok [])).Found = false
  ∧ (CheckSPF (.ok [strBytes "v=spf1 include:a"])).Valid = true
  ∧ (CheckSPF (.ok [strBytes "v=spf1 a", strBytes "v=spf1 b"])).Details =
      strBytes "Multiple SPF records found (invalid configuration)"
  ∧ (CheckDKIM (strBytes "s1") (.ok [strBytes "v=DKIM1; k=rsa"])).Valid = false
  ∧ (CheckDKIM (strBytes "s1") (.ok [strBytes "v=DKIM1; k=rsa; p="])).Details =
      strBytes "DKIM public key has been revoked (p= is empty)"
  ∧ (CheckDKIM (strBytes "s1") (.ok [strBytes "v=DKIM1; k=rsa; p=MIGf"])).Valid = true := by
  refine ⟨?_, ?_, ?_, ?_, ?_, ?_⟩
  · exact C8_domain_health_classification.1 [] (by decide)
  · exact (C8_domain_health_classification.2.1 [strBytes "v=spf1 include:a"] (by decide)).2
  · exact (C8_domain_health_classification.2.2.1
      [strBytes "v=spf1 a", strBytes "v=spf1 b"] (by decide)).2.2
  · exact (C8_domain_health_classification.2.2.2.1 (strBytes "s1")
      (strBytes "v=DKIM1; k=rsa") (by decide) (by decide)).1
  · exact (C8_domain_health_classification.2.2.2.2.1 (strBytes "s1")
      (strBytes "v=DKIM1; k=rsa; p=") (by decide) (by decide)).2
  · exact (C8_domain_health_classification.2.2.2.2.2 (strBytes "s1")
      (strBytes "v=DKIM1; k=rsa; p=MIGf") (strBytes "MIGf") (by decide) (by decide)
      (by decide)).2

theorem if_hard_soft_eq_hard_iff (c : Bool) :
    (if c then BounceType.Hard else BounceType.Soft) = BounceType.Hard ↔ c = true := by
  cases c <;> simp

theorem if_hard_soft_eq_hard_iff_prop (P : Prop) [Decidable P] :
    (if P then BounceType.Hard else BounceType.Soft) = BounceType.Hard ↔ P := by
  split <;> simp_all

theorem parseDSN_hard_iff (nowT : Int) (data : List Byte) (email : Email) (b : Bounce)
    (h : parseDSN nowT data email = .ok b) :
    (b.Type' = BounceType.Hard ↔ hasPrefixB b.Status (strBytes "5") = true) := by
  simp only [parseDSN] at h
  split at h
  · exact absurd h (by simp)
  · split at h
    · exact absurd h (by simp)
    · split at h
      · exact absurd h (by simp)
      · rw [Except.ok.injEq] at h
        subst h
        simp only
        exact if_hard_soft_eq_hard_iff _

/-- C9.  Bounce severity classification: ParseBounce marks a DSN per-recipient
section Hard exactly when its Status field begins with 5; ParseSESWebhook
marks a bounce Hard exactly when bounceType is Permanent; ParseMailgunWebhook
marks a failed event Hard exactly when the delivery-status code is at least
500. -/
theorem C9_bounce_severity :
    (∀ (nowT : Int) (email : Email) (b : Bounce), ParseBounce nowT email = .ok b →
        (b.Type' = BounceType.Hard ↔ hasPrefixB b.Status (strBytes "5") = true))
  ∧ (∀ (pt : List Byte → Option Int) (ses : SESNotification) (bi : SESBounceInfo)
        (b : Bounce),
        ses.NotificationType = strBytes "Bounce" → ses.Bounce = some bi →
        ParseSESWebhook pt ses = .ok (.inl b) →
        (b.Type' = BounceType.Hard ↔ bi.BounceType = strBytes "Permanent"))
  ∧ (∀ (ed : MailgunEventData) (b : Bounce),
        ed.Event = strBytes "failed" → ParseMailgunWebhook ed = .ok (.inl b) →
        (b.Type' = BounceType.Hard ↔ 500 ≤ ed.DeliveryStatus.Code)) := by
  refine ⟨?_, ?_, ?_⟩
  · intro nowT email b h
    simp only [ParseBounce] at h
    split at h
    · exact parseDSN_hard_iff _ _ _ _ h
    · exact absurd h (by simp)
  · intro pt ses bi b hNT hbi h
    simp only [ParseSESWebhook] at h
    rw [hNT, if_pos rfl] at h
    split at h
    · exact absurd h (by simp)
    · rename_i bi2 heq
      rw [hbi, Option.some.injEq] at heq
      subst heq
      split at h
      · exact absurd h (by simp)
      · simp only [Except.ok.injEq, Sum.inl.injEq] at h
        subst h
        exact if_hard_soft_eq_hard_iff_prop _
  · intro ed b hE h
    simp only [ParseMailgunWebhook] at h
    rw [hE] at h
    rw [if_pos rfl] at h
    simp only [Except.ok.injEq, Sum.inl.injEq] at h
    subst h
    exact if_hard_soft_eq_hard_iff_prop _

/-- The delivery-status part of a sample DSN. -/
def dsnAttachment : Attachment :=
  { ContentType := strBytes "message/delivery-status",
    Data := strBytes "Reporting-MTA: dns; mx.example.com\r\n\r\nFinal-Recipient: rfc822; user@example.com\r\nStatus: 5.1.1\r\nDiagnostic-Code: smtp; 550 user unknown\r\n" }

/-- A DSN bounce email, as the message parser surfaces the delivery-status
part. -/
def dsnEmail : Email :=
  { Attachments := [dsnAttachment] }

/-- The bounce parseDSN extracts from `dsnEmail`. -/
def dsnBounceExpected : Bounce :=
  { Type' := .Hard, EmailAddress := strBytes "user@example.com",
    Reason := strBytes "smtp; 550 user unknown", Status := strBytes "5.1.1",
    Timestamp := 0, OriginalMsgID := [], Provider := [] }

/-- The bounced recipient of the sample SES notification. -/
def sesRecipient : SESRecipient :=
  { EmailAddress := strBytes "u@x.com", Status := strBytes "5.1.1" }

/-- The bounce block of the sample SES notification. -/
def sesBounceInfo : SESBounceInfo :=
  { BounceType := strBytes "Permanent", BouncedRecipients := [sesRecipient] }

/-- A decoded SES notification with a Permanent bounce. -/
def sesPermanent : SESNotification :=
  { NotificationType := strBytes "Bounce", Bounce := some sesBounceInfo,
    Mail := { MessageID := strBytes "mid-1" } }

/-- The bounce ParseSESWebhook produces from `sesPermanent`. -/
def sesBounceExpected : Bounce :=
  { Type' := .Hard, EmailAddress := strBytes "u@x.com", Reason := [],
    Status := strBytes "5.1.1", Timestamp := 0, OriginalMsgID := strBytes "mid-1",
    Provider := strBytes "AWS SES" }

/-- A decoded Mailgun failed event with a 550 delivery-status code. -/
def mailgunFailed : MailgunEventData :=
  { Event := strBytes "failed", Recipient := strBytes "u@x.com",
    DeliveryStatus := { Code := 550, Description := strBytes "mailbox not found" } }

/-- The bounce ParseMailgunWebhook produces from `mailgunFailed`. -/
def mailgunBounceExpected : Bounce :=
  { Type' := .Hard, EmailAddress := strBytes "u@x.com",
    Reason := strBytes "mailbox not found", Status := strBytes "550",
    Timestamp := 0, OriginalMsgID := [], Provider := strBytes "Mailgun" }

set_option maxRecDepth 8000 in
theorem C9_bounce_severity_witness :
    (ParseBounce 0 dsnEmail = .ok dsnBounceExpected ∧
      dsnBounceExpected.Type' = BounceType.Hard)
  ∧ (ParseSESWebhook (fun _ => none) sesPermanent = .ok (.inl sesBounceExpected) ∧
      sesBounceExpected.Type' = BounceType.Hard)
  ∧ (ParseMailgunWebhook mailgunFailed = .ok (.inl mailgunBounceExpected) ∧
      mailgunBounceExpected.Type' = BounceType.Hard) := by
  have h1 : ParseBounce 0 dsnEmail = .ok dsnBounceExpected := by decide
  have h2 : ParseSESWebhook (fun _ => none) sesPermanent =
      .ok (.inl sesBounceExpected) := by decide
  have h3 : ParseMailgunWebhook mailgunFailed = .ok (.inl mailgunBounceExpected) := by
    decide
  refine ⟨⟨h1, ?_⟩, ⟨h2, ?_⟩, ⟨h3, ?_⟩⟩
  · exact (C9_bounce_severity.1 0 dsnEmail dsnBounceExpected h1).mpr (by decide)
  · exact (C9_bounce_severity.2.1 (fun _ => none) sesPermanent _ sesBounceExpected
      (by decide) rfl h2).mpr (by decide)
  · exact (C9_bounce_severity.2.2 mailgunFailed mailgunBounceExpected (by decide)
      h3).mpr (by decide)

/-! ## Outlook HTML compatibility transformer (outlook.go) -/

/-- outlook.go `outlookNamespaces` (transcribed byte for byte). -/
def outlookNamespaces : List Byte :=
  strBytes " xmlns:v=\"urn:schemas-microsoft-com:vml\" xmlns:o=\"urn:schemas-microsoft-com:office:office\" xmlns:w=\"urn:schemas-microsoft-com:office:word\" xmlns:m=\"http://schemas.microsoft.com/office/2004/12/omml\""

/-- The lines of outlook.go `outlookHeadTags`; the literal is a leading line
feed, these lines separated by line feeds, and a trailing line feed. -/
def outlookHeadTagsLines : List String :=
  ["    <!--[if gte mso 9]>",
   "    <xml>",
   "        <o:OfficeDocumentSettings>",
   "            <o:AllowPNG/>",
   "            <o:PixelsPerInch>96</o:PixelsPerInch>",
   "        </o:OfficeDocumentSettings>",
   "    </xml>",
   "    <![endif]-->",
   "    <meta http-equiv=\"X-UA-Compatible\" content=\"IE=edge\">",
   "    <meta name=\"viewport\" content=\"width=device-width, initial-scale=1\">",
   "    <meta name=\"format-detection\" content=\"telephone=no, date=no, address=no, email=no\">",
   "    <meta name=\"x-apple-disable-message-reformatting\">",
   "    <meta name=\"color-scheme\" content=\"light dark\">",
   "    <meta name=\"supported-color-schemes\" content=\"light dark\">",
   "    <style type=\"text/css\">",
   "        :root \x7b",
   "            color-scheme: light dark;",
   "            supported-color-schemes: light dark;",
   "        \x7d",
   "        body, table, td, p, a \x7b -ms-text-size-adjust: 100%; -webkit-text-size-adjust: 100%; \x7d",
   "        table, td \x7b mso-table-lspace: 0pt; mso-table-rspace: 0pt; \x7d",
   "        img \x7b -ms-interpolation-mode: bicubic; \x7d",
   "        img \x7b border: 0; height: auto; line-height: 100%; outline: none; text-decoration: none; \x7d",
   "        table \x7b border-collapse: collapse !important; \x7d",
   "        body \x7b height: 100% !important; margin: 0 !important; padding: 0 !important; width: 100% !important; \x7d",
   "        p \x7b margin: 1em 0; \x7d",
   "        td, p \x7b mso-line-height-rule: exactly; \x7d",
   "        h1, h2, h3, h4, h5, h6 \x7b display: block; margin: 0; padding: 0; \x7d",
   "        .ExternalClass \x7b width: 100%; \x7d",
   "        .ExternalClass, .ExternalClass p, .ExternalClass span, .ExternalClass font, .ExternalClass td, .ExternalClass div \x7b line-height: 100%; \x7d",
   "        #OutlookHolder \x7b padding: 0; \x7d",
   "        ",
   "        /* Link fixes */",
   "        a[x-apple-data-detectors] \x7b",
   "            color: inherit !important;",
   "            text-decoration: none !important;",
   "            font-size: inherit !important;",
   "            font-family: inherit !important;",
   "            font-weight: inherit !important;",
   "            line-height: inherit !important;",
   "        \x7d",
   "        span.MsoHyperlink \x7b mso-style-priority: 99; color: inherit; \x7d",
   "        span.MsoHyperlinkFollowed \x7b mso-style-priority: 99; color: inherit; \x7d",
   "",
   "        /* Font scaling fix */",
   "        @media only screen and (min-width: 600px) \x7b",
   "            .templateContainer \x7b width: 600px !important; \x7d",
   "        \x7d",
   "        /* Dark Mode */",
   "        @media (prefers-color-scheme: dark) \x7b",
   "            .dark-mode-bg \x7b background-color: #2d2d2d !important; \x7d",
   "            .dark-mode-text \x7b color: #ffffff !important; \x7d",
   "        \x7d",
   "        [data-ogsc] .dark-mode-bg \x7b background-color: #2d2d2d !important; \x7d",
   "        [data-ogsc] .dark-mode-text \x7b color: #ffffff !important; \x7d",
   "    </style>",
   "    <!--[if gte mso 9]>",
   "    <style type=\"text/css\">",
   "        li \x7b text-indent: -1em; \x7d /* Fix list indentation in Outlook */",
   "        table \x7b border-collapse: collapse; \x7d",
   "    </style>",
   "    <![endif]-->"]

/-- outlook.go `outlookHeadTags`. -/
def outlookHeadTags : List Byte :=
  (outlookHeadTagsLines.map (fun l => 10 :: strBytes l)).flatten ++ [10]

/-- outlook.go `IsOutlookCompatible`: one of the four Outlook markers occurs
in the HTML (empty input has none). -/
def IsOutlookCompatible (html : List Byte) : Bool :=
  if html.isEmpty then false
  else
    bytesContains html (strBytes "urn:schemas-microsoft-com:vml") ||
    bytesContains html (strBytes "urn:schemas-microsoft-com:office:office") ||
    bytesContains html (strBytes "mso-line-height-rule: exactly") ||
    bytesContains html (strBytes "<!--[if gte mso 9]>")

/-- outlook.go `findTag`: first occurrence of the lower-case opener, else of
the upper-case one. -/
def findTag (html lower upper : List Byte) : Option Nat :=
  match bytesIndex html lower with
  | some i => some i
  | none => bytesIndex html upper

/-- outlook.go `isTableTag`. -/
def isTableTag (tag : List Byte) : Bool :=
  if tag.length < 7 then false
  else
    (tag.getD 1 0 == 116 || tag.getD 1 0 == 84) &&
    (tag.getD 2 0 == 97 || tag.getD 2 0 == 65) &&
    (tag.getD 3 0 == 98 || tag.getD 3 0 == 66) &&
    (tag.getD 4 0 == 108 || tag.getD 4 0 == 76) &&
    (tag.getD 5 0 == 101 || tag.getD 5 0 == 69) &&
    (tag.getD 6 0 == 32 || tag.getD 6 0 == 62)

/-- outlook.go `isImgTag`. -/
def isImgTag (tag : List Byte) : Bool :=
  if tag.length < 5 then false
  else
    (tag.getD 1 0 == 105 || tag.getD 1 0 == 73) &&
    (tag.getD 2 0 == 109 || tag.getD 2 0 == 77) &&
    (tag.getD 3 0 == 103 || tag.getD 3 0 == 71) &&
    (tag.getD 4 0 == 32 || tag.getD 4 0 == 62)

/-- The attribute block appendNormalized injects into a role-less table tag. -/
def tableRoleAttrs : List Byte :=
  strBytes " role=\"presentation\" cellspacing=\"0\" cellpadding=\"0\" border=\"0\""

/-- The attribute appendNormalized injects into a border-less img tag. -/
def imgBorderAttr : List Byte := strBytes " border=\"0\""

/-- The loop of outlook.go `appendNormalized`, as the suffix the loop appends
to the destination from cursor `curr` on (the loop never reads the
destination, so what it appends is a function of the source alone): copy
text, copy comments verbatim, inject presentation attributes into role-less
tables and border into border-less images.  Each iteration advances the
cursor, so fuel `src.length + 1` covers every run. -/
def appendNormalizedAux (src : List Byte) : Nat → Nat → List Byte
  | 0, _ => []
  | fuel + 1, curr =>
    if src.length ≤ curr then []
    else
      match bytesIndexByte (src.drop curr) 60 with
      | none => src.drop curr
      | some rel =>
        let idx := curr + rel
        let pre := (src.drop curr).take rel
        let commentEnd :=
          if hasPrefixB (src.drop idx) (strBytes "<!--") then
            bytesIndex (src.drop idx) (strBytes "-->")
          else none
        match commentEnd with
        | some e =>
          pre ++ (src.drop idx).take (e + 3) ++ appendNormalizedAux src fuel (idx + e + 3)
        | none =>
          match bytesIndexByte (src.drop idx) 62 with
          | none => pre ++ src.drop idx
          | some erel =>
            let endA := idx + erel
            let tag := (src.drop idx).take (erel + 1)
            let chunk :=
              if isTableTag tag && !bytesContains tag (strBytes "role=") then
                let closing := if src.getD (endA - 1) 0 == 47 then endA - 1 else endA
                (src.drop idx).take (closing - idx) ++ tableRoleAttrs ++
                  (src.drop closing).take (endA + 1 - closing)
              else if isImgTag tag && !bytesContains tag (strBytes "border=") then
                let closing := if src.getD (endA - 1) 0 == 47 then endA - 1 else endA
                (src.drop idx).take (closing - idx) ++ imgBorderAttr ++
                  (src.drop closing).take (endA + 1 - closing)
              else tag
            pre ++ chunk ++ appendNormalizedAux src fuel (endA + 1)

/-- outlook.go `appendNormalized`. -/
def appendNormalized (dest src : List Byte) : List Byte :=
  dest ++ appendNormalizedAux src (src.length + 1) 0

/-- The presentation-table opener ToOutlookHTML wraps body content in. -/
def presentationTableOpen : List Byte :=
  strBytes "<table role=\"presentation\" width=\"100%\" cellspacing=\"0\" cellpadding=\"0\" border=\"0\"><tr><td>"

/-- Namespace-injection step of `ToOutlookHTML`: splice the Outlook namespaces
before the closing angle of an existing html tag.  Result: buffer so far and
cursor. -/
def outlookS1 (html : List Byte) (htmlIdx : Option Nat) : List Byte × Nat :=
  match htmlIdx with
  | some hi =>
    match bytesIndexByte (html.drop hi) 62 with
    | some e => (html.take (hi + e) ++ outlookNamespaces ++ [62], hi + e + 1)
    | none => ([], 0)
  | none => ([], 0)

/-- Head-injection step of `ToOutlookHTML`: splice the head block after an
existing head tag, or insert a whole head element after the html tag. -/
def outlookS2 (html : List Byte) (htmlIdx headIdx : Option Nat)
    (s1 : List Byte × Nat) : List Byte × Nat :=
  match headIdx with
  | some di =>
    match bytesIndexByte (html.drop di) 62 with
    | some e =>
      (s1.1 ++ (html.drop s1.2).take (di + e + 1 - s1.2) ++ outlookHeadTags,
       di + e + 1)
    | none => s1
  | none =>
    if htmlIdx ≠ none then
      (s1.1 ++ strBytes "\n<head>" ++ outlookHeadTags ++ strBytes "</head>", s1.2)
    else s1

/-- Body-wrapping step of `ToOutlookHTML`: wrap the body content in a
presentation table, normalizing it. -/
def outlookS3 (html : List Byte) (bodyIdx : Option Nat)
    (s2 : List Byte × Nat) : List Byte × Nat :=
  match bodyIdx with
  | some bi =>
    if s2.2 ≤ bi then
      match bytesIndexByte (html.drop bi) 62 with
      | some e =>
        let bodyEnd := bi + e
        let buf := s2.1 ++ (html.drop s2.2).take (bodyEnd + 1 - s2.2) ++
          presentationTableOpen
        let c := bodyEnd + 1
        let close :=
          match bytesIndex (html.drop c) (strBytes "</body>") with
          | some x => some x
          | none => bytesIndex (html.drop c) (strBytes "</BODY>")
        match close with
        | some x =>
          (appendNormalized buf ((html.drop c).take x) ++ strBytes "</td></tr></table>",
           c + x)
        | none => (buf, c)
      | none => s2
    else s2
  | none => s2

/-- outlook.go `ToOutlookHTML`.  One divergence from Go, outside every theorem
below: when a head tag closes before the '>' of the html tag the original
panics on a reversed slice; this model clamps that slice (the `outlookSafe`
hypothesis of the C7 theorem excludes the case). -/
def ToOutlookHTML (html : List Byte) : List Byte :=
  if html.isEmpty then html
  else if findTag html (strBytes "<html") (strBytes "<HTML") = none ∧
      findTag html (strBytes "<head") (strBytes "<HEAD") = none then
    appendNormalized
      (strBytes "<!DOCTYPE html><html><head>" ++ outlookHeadTags ++
        strBytes "</head><body id=\"OutlookHolder\">" ++ presentationTableOpen)
      html ++ strBytes "</td></tr></table></body></html>"
  else
    appendNormalized
      (outlookS3 html (findTag html (strBytes "<body") (strBytes "<BODY"))
        (outlookS2 html (findTag html (strBytes "<html") (strBytes "<HTML"))
          (findTag html (strBytes "<head") (strBytes "<HEAD"))
          (outlookS1 html (findTag html (strBytes "<html") (strBytes "<HTML"))))).1
      (html.drop
        (outlookS3 html (findTag html (strBytes "<body") (strBytes "<BODY"))
          (outlookS2 html (findTag html (strBytes "<html") (strBytes "<HTML"))
            (findTag html (strBytes "<head") (strBytes "<HEAD"))
            (outlookS1 html (findTag html (strBytes "<html") (strBytes "<HTML"))))).2)

/-- No reversed slice arises (the case where the Go original panics): whenever
both the html and the head tag openers exist with closing angles, the head
one does not close strictly before the html one. -/
def outlookSafe (html : List Byte) : Bool :=
  match findTag html (strBytes "<html") (strBytes "<HTML"),
      findTag html (strBytes "<head") (strBytes "<HEAD") with
  | some hi, some di =>
    match bytesIndexByte (html.drop hi) 62, bytesIndexByte (html.drop di) 62 with
    | some he, some de => decide (hi + he ≤ di + de)
    | _, _ => true
  | _, _ => true

/-- The inputs on which the transformer injects one of its marker blocks:
no head opener at all, or an html opener with a closing angle, or a head
opener with a closing angle. -/
def outlookInjected (html : List Byte) : Bool :=
  (findTag html (strBytes "<head") (strBytes "<HEAD")) == none ||
  (match findTag html (strBytes "<html") (strBytes "<HTML") with
   | some hi => (bytesIndexByte (html.drop hi) 62).isSome
   | none => false) ||
  (match findTag html (strBytes "<head") (strBytes "<HEAD") with
   | some di => (bytesIndexByte (html.drop di) 62).isSome
   | none => false)

/-! ## Lemmas for the Outlook transformer -/

theorem containsSubAux_parts (pat : List Byte) (hne : pat ≠ []) :
    ∀ l, containsSubAux pat l = true ↔ ∃ u w, l = u ++ (pat ++ w) := by
  intro l
  induction l with
  | nil =>
    simp only [containsSubAux]
    constructor
    · intro h; exact absurd h (by simp)
    · rintro ⟨u, w, h⟩
      rw [eq_comm, List.append_eq_nil, List.append_eq_nil] at h
      exact absurd h.2.1 hne
  | cons b bs ih =>
    simp only [containsSubAux, Bool.or_eq_true]
    constructor
    · rintro (h | h)
      · obtain ⟨t, ht⟩ := List.isPrefixOf_iff_prefix.mp h
        exact ⟨[], t, by simpa using ht.symm⟩
      · obtain ⟨u, w, rfl⟩ := ih.mp h
        exact ⟨b :: u, w, rfl⟩
    · rintro ⟨u, w, h⟩
      cases u with
      | nil =>
        left
        rw [List.isPrefixOf_iff_prefix]
        exact ⟨w, by simpa using h.symm⟩
      | cons x u' =>
        right
        rw [List.cons_append, List.cons.injEq] at h
        exact ih.mpr ⟨u', w, h.2⟩

theorem bytesContains_parts (pat : List Byte) (hne : pat ≠ []) (l : List Byte) :
    bytesContains l pat = true ↔ ∃ u w, l = u ++ (pat ++ w) := by
  unfold bytesContains
  rw [if_neg (by simpa [List.isEmpty_iff] using hne)]
  exact containsSubAux_parts pat hne l

theorem bytesContains_mono (pat inner : List Byte) (hne : pat ≠ [])
    (h : bytesContains inner pat = true) (x y : List Byte) :
    bytesContains (x ++ (inner ++ y)) pat = true := by
  obtain ⟨u, w, rfl⟩ := (bytesContains_parts pat hne inner).mp h
  exact (bytesContains_parts pat hne _).mpr ⟨x ++ u, w ++ y, by simp⟩

theorem detector_of_headTags (x y : List Byte) :
    IsOutlookCompatible (x ++ (outlookHeadTags ++ y)) = true := by
  unfold IsOutlookCompatible
  rw [if_neg]
  · simp only [Bool.or_eq_true]
    exact Or.inr (bytesContains_mono _ outlookHeadTags (by decide) (by decide) x y)
  · have hht : outlookHeadTags ≠ [] := by decide
    simp [List.isEmpty_iff, hht]

theorem detector_of_namespaces (x y : List Byte) :
    IsOutlookCompatible (x ++ (outlookNamespaces ++ y)) = true := by
  unfold IsOutlookCompatible
  rw [if_neg]
  · simp only [Bool.or_eq_true]
    exact Or.inl (Or.inl (Or.inl
      (bytesContains_mono _ outlookNamespaces (by decide) (by decide) x y)))
  · have hns : outlookNamespaces ≠ [] := by decide
    simp [List.isEmpty_iff, hns]

theorem ex_suffix2 (d a b : List Byte) : ∃ t, d ++ a ++ b = d ++ t :=
  ⟨a ++ b, by simp⟩

theorem ex_suffix3 (d a b c : List Byte) : ∃ t, d ++ a ++ b ++ c = d ++ t :=
  ⟨a ++ (b ++ c), by simp⟩

theorem ex_suffix4 (d a b c e : List Byte) : ∃ t, d ++ a ++ b ++ c ++ e = d ++ t :=
  ⟨a ++ (b ++ (c ++ e)), by simp⟩

theorem outlookS2_extends (html : List Byte) (htmlIdx headIdx : Option Nat)
    (s1 : List Byte × Nat) :
    ∃ t, (outlookS2 html htmlIdx headIdx s1).1 = s1.1 ++ t := by
  unfold outlookS2
  split
  · split
    · exact ex_suffix2 _ _ _
    · exact ⟨[], by simp⟩
  · split
    · exact ex_suffix3 _ _ _ _
    · exact ⟨[], by simp⟩

theorem outlookS3_extends (html : List Byte) (bodyIdx : Option Nat)
    (s2 : List Byte × Nat) :
    ∃ t, (outlookS3 html bodyIdx s2).1 = s2.1 ++ t := by
  unfold outlookS3 appendNormalized
  split
  · split
    · split
      · dsimp only
        split
        · exact ex_suffix4 _ _ _ _ _
        · exact ex_suffix2 _ _ _
      · exact ⟨[], by simp⟩
    · exact ⟨[], by simp⟩
  · exact ⟨[], by simp⟩

theorem detectorFragShape (t : List Byte) :
    IsOutlookCompatible
      ((strBytes "<!DOCTYPE html><html><head>" ++ outlookHeadTags ++
          strBytes "</head><body id=\"OutlookHolder\">" ++ presentationTableOpen ++ t) ++
        strBytes "</td></tr></table></body></html>") = true := by
  have := detector_of_headTags (strBytes "<!DOCTYPE html><html><head>")
    (strBytes "</head><body id=\"OutlookHolder\">" ++ (presentationTableOpen ++
      (t ++ strBytes "</td></tr></table></body></html>")))
  simpa [List.append_assoc] using this

theorem detectorInsertHeadShape (a t3 tail : List Byte) :
    IsOutlookCompatible
      (((a ++ strBytes "\n<head>" ++ outlookHeadTags ++ strBytes "</head>") ++ t3) ++ tail) =
      true := by
  have := detector_of_headTags (a ++ strBytes "\n<head>")
    (strBytes "</head>" ++ (t3 ++ tail))
  simpa [List.append_assoc] using this

theorem detectorNamespacesShape (a t2 t3 tail : List Byte) :
    IsOutlookCompatible ((((a ++ outlookNamespaces ++ [62]) ++ t2) ++ t3) ++ tail) =
      true := by
  have := detector_of_namespaces a ([62] ++ (t2 ++ (t3 ++ tail)))
  simpa [List.append_assoc] using this

theorem detectorSpliceHeadShape (a s t3 tail : List Byte) :
    IsOutlookCompatible (((a ++ s ++ outlookHeadTags) ++ t3) ++ tail) = true := by
  have := detector_of_headTags (a ++ s) (t3 ++ tail)
  simpa [List.append_assoc] using this

/-- C7, counterexample.  The transformer returns empty input unchanged, and
injects nothing into a head opener that never closes; the detector rejects
both outputs, refuting the for-every-input claim. -/
theorem C7_outlook_counterexample :
    IsOutlookCompatible (ToOutlookHTML []) = false ∧
    IsOutlookCompatible (ToOutlookHTML (strBytes "<head")) = false := by
  constructor
  · decide
  · decide

/-- C7, amended.  IsOutlookCompatible (ToOutlookHTML x) holds for every
non-empty x on which the transformer injects one of its marker blocks: x has
no head opener at all (which covers every bare fragment), or its html opener
has a closing angle, or its head opener has a closing angle — excluding the
reversed-slice inputs on which the Go original panics (outlookSafe). -/
theorem C7_outlook_marker_injection (html : List Byte) (hne : html ≠ [])
    (_hsafe : outlookSafe html = true) (hinj : outlookInjected html = true) :
    IsOutlookCompatible (ToOutlookHTML html) = true := by
  unfold ToOutlookHTML
  rw [if_neg (by simpa [List.isEmpty_iff] using hne)]
  by_cases hfrag : findTag html (strBytes "<html") (strBytes "<HTML") = none ∧
      findTag html (strBytes "<head") (strBytes "<HEAD") = none
  · rw [if_pos hfrag]
    unfold appendNormalized
    exact detectorFragShape _
  · rw [if_neg hfrag]
    unfold appendNormalized
    obtain ⟨t3, h3⟩ := outlookS3_extends html
      (findTag html (strBytes "<body") (strBytes "<BODY"))
      (outlookS2 html (findTag html (strBytes "<html") (strBytes "<HTML"))
        (findTag html (strBytes "<head") (strBytes "<HEAD"))
        (outlookS1 html (findTag html (strBytes "<html") (strBytes "<HTML"))))
    rw [h3]
    simp only [outlookInjected, Bool.or_eq_true, beq_iff_eq] at hinj
    rcases hinj with (hd | hh) | hdg
    · have hhi : findTag html (strBytes "<html") (strBytes "<HTML") ≠ none := by
        intro h; exact hfrag ⟨h, hd⟩
      rw [hd]
      simp only [outlookS2]
      rw [if_pos hhi]
      exact detectorInsertHeadShape _ _ _
    · rcases hHI : findTag html (strBytes "<html") (strBytes "<HTML") with _ | hi
      · rw [hHI] at hh
        exact absurd hh (by simp)
      · rw [hHI] at hh
        simp only at hh
        obtain ⟨e, he⟩ := Option.isSome_iff_exists.mp hh
        obtain ⟨t2, h2⟩ := outlookS2_extends html (some hi)
          (findTag html (strBytes "<head") (strBytes "<HEAD"))
          (outlookS1 html (some hi))
        rw [h2]
        simp only [outlookS1, he]
        exact detectorNamespacesShape _ _ _ _
    · rcases hD : findTag html (strBytes "<head") (strBytes "<HEAD") with _ | di
      · rw [hD] at hdg
        exact absurd hdg (by simp)
      · rw [hD] at hdg
        simp only at hdg
        obtain ⟨e, he⟩ := Option.isSome_iff_exists.mp hdg
        simp only [outlookS2, he]
        exact detectorSpliceHeadShape _ _ _ _

theorem C7_outlook_marker_injection_witness :
    strBytes "<p>Hi</p>" ≠ [] ∧
    IsOutlookCompatible (ToOutlookHTML (strBytes "<p>Hi</p>")) = true :=
  ⟨by decide,
   C7_outlook_marker_injection (strBytes "<p>Hi</p>") (by decide) (by decide) (by decide)⟩

/-! ## Message builder (utils.go BuildMessage) and its stdlib models -/

/-- Go net/mail `isVchar` at byte level (multibyte runes appear as their
bytes, all above 127). -/
def isVcharB (c : Byte) : Bool := (33 ≤ c && c ≤ 126) || 127 < c

/-- Space or tab (net/mail isWSP). -/
def isWSPB (c : Byte) : Bool := c == 32 || c == 9

/-- Go net/mail `isAtext` at byte level. -/
def isAtextB (c : Byte) (dot : Bool) : Bool :=
  if c == 46 then dot
  else if c == 40 || c == 41 || c == 91 || c == 93 || c == 59 || c == 64 ||
      c == 92 || c == 44 then false
  else if c == 60 || c == 62 || c == 34 || c == 58 then false
  else isVcharB c

/-- Go net/mail `isQtext` at byte level: printable but not quote or
backslash. -/
def isQtextB (c : Byte) : Bool := isVcharB c && c != 34 && c != 92

/-- net/mail skipSpace: drop leading spaces and tabs. -/
def skipSpaceST (l : List Byte) : List Byte := l.dropWhile isWSPB

/-- A parsed RFC 5322 mailbox (net/mail Address). -/
structure MailAddress where
  Name : List Byte := []
  Address : List Byte := []
deriving DecidableEq

/-- net/mail consumeAtom: the longest atext run (dots as directed), with the
non-permissive dot sanity checks.  (The rune-level invalid-UTF-8 check of the
original is not modelled; it only affects inputs that fail either way.) -/
def consumeAtom (dot permissive : Bool) (s : List Byte) :
    Option (List Byte × List Byte) :=
  let atom := s.takeWhile (fun c => isAtextB c dot)
  if atom.isEmpty then none
  else if !permissive &&
      (hasPrefixB atom [46] || bytesContains atom [46, 46] ||
        atom.getLast? == some 46) then none
  else some (atom, s.drop atom.length)

/-- The scan loop of net/mail consumeQuotedString (after the opening quote):
collected content and the rest after the closing quote. -/
def consumeQuotedAux : Nat → List Byte → Bool → List Byte → Option (List Byte × List Byte)
  | 0, _, _, _ => none
  | _, [], _, _ => none
  | fuel + 1, c :: rest, escaped, acc =>
    if escaped then
      if isVcharB c || isWSPB c then consumeQuotedAux fuel rest false (acc ++ [c])
      else none
    else if isQtextB c || isWSPB c then consumeQuotedAux fuel rest false (acc ++ [c])
    else if c == 34 then some (acc, rest)
    else if c == 92 then consumeQuotedAux fuel rest true acc
    else none

/-- net/mail consumeQuotedString. -/
def consumeQuotedString (s : List Byte) : Option (List Byte × List Byte) :=
  match s with
  | 34 :: rest => consumeQuotedAux (rest.length + 1) rest false []
  | _ => none

/-- net/mail consumeAddrSpec: local part (quoted or dot-atom), at sign, domain
as a dot-atom.  Domain literals in brackets are not modelled (they make the
model fail where Go would succeed; no such address occurs in this
development). -/
def consumeAddrSpec (s : List Byte) : Option (List Byte × List Byte) :=
  let localPart? :=
    if s.head? == some 34 then consumeQuotedString s
    else consumeAtom true false s
  match localPart? with
  | none => none
  | some (localPart, rest) =>
    match rest with
    | 64 :: rest2 =>
      let rest2 := skipSpaceST rest2
      if rest2.isEmpty then none
      else
        match consumeAtom true false rest2 with
        | some (domain, rest3) => some (localPart ++ [64] ++ domain, rest3)
        | none => none
    | _ => none

/-- The word loop of net/mail consumePhrase: space-separated quoted strings or
permissive atoms, joined by single spaces.  (RFC 2047 decoding of
encoded-word display names is not modelled; it only rewrites names this
development never builds.) -/
def consumePhraseAux : Nat → List Byte → List (List Byte) →
    Option (List Byte × List Byte)
  | 0, _, _ => none
  | fuel + 1, s, words =>
    let s1 := skipSpaceST s
    let word? :=
      if s1.head? == some 34 then consumeQuotedString s1
      else consumeAtom true true s1
    match word? with
    | some (w, rest) => consumePhraseAux fuel rest (words ++ [w])
    | none =>
      if words.isEmpty then none
      else some (joinSep [32] words, s1)

/-- net/mail consumePhrase. -/
def consumePhrase (s : List Byte) : Option (List Byte × List Byte) :=
  consumePhraseAux (s.length + 1) s []

/-- net/mail ParseAddress (parseSingleAddress): one mailbox, then nothing but
white space.  Groups, comments and domain literals are not modelled (the
model fails there, and BuildMessage then passes the raw string through). -/
def parseAddress (s0 : List Byte) : Option MailAddress :=
  let s := skipSpaceST s0
  if s.isEmpty then none
  else
    match consumeAddrSpec s with
    | some (spec, rest) =>
      let rest := skipSpaceST rest
      if rest.isEmpty then some { Name := [], Address := spec } else none
    | none =>
      let nameStep? :=
        if s.head? == some 60 then some (([] : List Byte), s)
        else consumePhrase s
      match nameStep? with
      | none => none
      | some (displayName, s1) =>
        let s1 := skipSpaceST s1
        match s1 with
        | 60 :: s2 =>
          match consumeAddrSpec s2 with
          | some (spec, s3) =>
            match s3 with
            | 62 :: s4 =>
              if (skipSpaceST s4).isEmpty then
                some { Name := displayName, Address := spec }
              else none
            | _ => none
          | none => none
        | _ => none

/-- net/mail quoteString: always quoted, escaping non-qtext printables and
dropping anything unrepresentable. -/
def quoteStringGo (s : List Byte) : List Byte :=
  [34] ++ (s.flatMap fun c =>
    if isQtextB c || isWSPB c then [c]
    else if isVcharB c then [92, c]
    else []) ++ [34]

/-- The local-part scan of net/mail Address.String: quoting is needed unless
every byte is atext, with interior dots allowed. -/
def localNeedsQuote (loc : List Byte) : Bool :=
  (List.range loc.length).any fun i =>
    let c := loc.getD i 0
    !(isAtextB c false) && !(c == 46 && decide (0 < i) && decide (i < loc.length - 1))

/-- Go strings.LastIndexByte. -/
def lastIndexByte (l : List Byte) (c : Byte) : Option Nat :=
  match bytesIndexByte l.reverse c with
  | some i => some (l.length - 1 - i)
  | none => none

/-- UTF-8 length of the first rune, as Go utf8.DecodeRune reports it (1 for
every invalid head or continuation). -/
def utf8RuneLen (s : List Byte) : Nat :=
  let cont := fun (x : Byte) => 128 ≤ x && x ≤ 191
  match s with
  | [] => 1
  | b :: rest =>
    if b < 128 then 1
    else if 194 ≤ b && b ≤ 223 then
      match rest with
      | b1 :: _ => if cont b1 then 2 else 1
      | [] => 1
    else if b == 224 then
      match rest with
      | b1 :: b2 :: _ => if (160 ≤ b1 && b1 ≤ 191) && cont b2 then 3 else 1
      | _ => 1
    else if (225 ≤ b && b ≤ 236) || b == 238 || b == 239 then
      match rest with
      | b1 :: b2 :: _ => if cont b1 && cont b2 then 3 else 1
      | _ => 1
    else if b == 237 then
      match rest with
      | b1 :: b2 :: _ => if (128 ≤ b1 && b1 ≤ 159) && cont b2 then 3 else 1
      | _ => 1
    else if b == 240 then
      match rest with
      | b1 :: b2 :: b3 :: _ => if (144 ≤ b1 && b1 ≤ 191) && cont b2 && cont b3 then 4 else 1
      | _ => 1
    else if 241 ≤ b && b ≤ 243 then
      match rest with
      | b1 :: b2 :: b3 :: _ => if cont b1 && cont b2 && cont b3 then 4 else 1
      | _ => 1
    else if b == 244 then
      match rest with
      | b1 :: b2 :: b3 :: _ => if (128 ≤ b1 && b1 ≤ 143) && cont b2 && cont b3 then 4 else 1
      | _ => 1
    else 1

/-- Upper-case hex digit. -/
def hexUpperDigit (n : Nat) : Byte := if n < 10 then 48 + n else 55 + n

/-- Lower-case hex digit. -/
def hexLowerDigit (n : Nat) : Byte := if n < 10 then 48 + n else 87 + n

/-- mime writeQString: one byte of Q-encoded content. -/
def qEncodeByte (b : Byte) : List Byte :=
  if b == 32 then [95]
  else if (33 ≤ b && b ≤ 126) && b != 61 && b != 63 && b != 95 then [b]
  else [61, hexUpperDigit (b / 16), hexUpperDigit (b % 16)]

/-- The rune loop of mime WordEncoder.qEncode for a UTF-8 charset: encode
rune by rune, splitting the encoded word when its content would exceed
maxContent. -/
def qEncodeLoop (charset : List Byte) (maxContent : Nat) :
    Nat → List Byte → Nat → List Byte
  | 0, _, _ => []
  | _, [], _ => []
  | fuel + 1, b :: rest, currentLen =>
    let rl :=
      if (32 ≤ b && b ≤ 126) && b != 61 && b != 63 && b != 95 then 1
      else utf8RuneLen (b :: rest)
    let encLen := if (32 ≤ b && b ≤ 126) && b != 61 && b != 63 && b != 95 then 1 else 3 * rl
    let split := currentLen + encLen > maxContent
    let pref := if split then strBytes "?= =?" ++ charset ++ strBytes "?q?" else []
    let newLen := if split then encLen else currentLen + encLen
    pref ++ ((b :: rest).take rl).flatMap qEncodeByte ++
      qEncodeLoop charset maxContent fuel ((b :: rest).drop rl) newLen

/-- mime WordEncoder.encodeWord for the Q encoding. -/
def encodeWordQ (charset s : List Byte) : List Byte :=
  strBytes "=?" ++ charset ++ strBytes "?q?" ++
    qEncodeLoop charset (75 - 7 - charset.length) s.length s 0 ++ strBytes "?="

/-- mime needsEncoding: anything outside printable ASCII except tab. -/
def needsEncoding (s : List Byte) : Bool :=
  s.any fun b => (b < 32 || 126 < b) && b != 9

/-- mime QEncoding.Encode. -/
def mimeQEncode (charset s : List Byte) : List Byte :=
  if needsEncoding s then encodeWordQ charset s else s

/-- RFC 4648 base64 alphabet. -/
def b64Char (n : Nat) : Byte :=
  if n < 26 then 65 + n
  else if n < 52 then 71 + n
  else if n < 62 then n - 4
  else if n == 62 then 43
  else 47

/-- Go encoding/base64 StdEncoding encode (the stream encoder the builder
uses emits no line breaks). -/
def base64Encode : List Byte → List Byte
  | [] => []
  | [a] => [b64Char (a / 4 % 64), b64Char (a % 4 * 16), 61, 61]
  | [a, b] => [b64Char (a / 4 % 64), b64Char ((a % 4) * 16 + b / 16), b64Char (b % 16 * 4), 61]
  | a :: b :: c :: rest =>
    [b64Char (a / 4 % 64), b64Char ((a % 4) * 16 + b / 16),
     b64Char ((b % 16) * 4 + c / 64), b64Char (c % 64)] ++ base64Encode rest

/-- mime BEncoding.Encode as the one encoded word net/mail uses for
hard-to-quote display names (the length-splitting of very long names is not
modelled; no such name occurs in this development). -/
def mimeBEncode (charset s : List Byte) : List Byte :=
  if needsEncoding s then
    strBytes "=?" ++ charset ++ strBytes "?b?" ++ base64Encode s ++ strBytes "?="
  else s

/-- The special characters that make net/mail Address.String fall back to the
B encoding for a non-ASCII display name. -/
def nameSpecials : List Byte :=
  strBytes "\"#$%&'(),.:;<>@[]^`" ++ [123, 124, 125] ++ strBytes "~"

/-- net/mail Address.String. -/
def addrString (a : MailAddress) : List Byte :=
  let atIdx := lastIndexByte a.Address 64
  let loc := match atIdx with | none => a.Address | some i => a.Address.take i
  let domain := match atIdx with | none => [] | some i => a.Address.drop (i + 1)
  let localR := if localNeedsQuote loc then quoteStringGo loc else loc
  let s := [60] ++ localR ++ [64] ++ domain ++ [62]
  if a.Name.isEmpty then s
  else if a.Name.all (fun c => (isVcharB c && c ≤ 126) || isWSPB c) then
    quoteStringGo a.Name ++ [32] ++ s
  else if a.Name.any (fun c => nameSpecials.contains c) then
    mimeBEncode (strBytes "utf-8") a.Name ++ [32] ++ s
  else
    mimeQEncode (strBytes "utf-8") a.Name ++ [32] ++ s

/-- utils.go `formatAddresses`: canonical rendering when parseable, raw
passthrough otherwise, joined with comma-space. -/
def formatAddresses (addresses : List (List Byte)) : List Byte :=
  joinSep (strBytes ", ")
    (addresses.map fun addr =>
      match parseAddress addr with
      | some a => addrString a
      | none => addr)

/-- utils.go `encodeHeader`: Q-encode only when some byte exceeds 127. -/
def encodeHeader (s : List Byte) : List Byte :=
  if s.any (fun b => 127 < b) then mimeQEncode (strBytes "UTF-8") s else s

/-- utils.go `generateMessageID`, with the 16 random bytes explicit. -/
def generateMessageID (fromA rand16 : List Byte) : List Byte :=
  let domain :=
    match parseAddress fromA with
    | some a =>
      match List.splitOn 64 a.Address with
      | _ :: d :: _ => d
      | _ => strBytes "gsmail.local"
    | none => strBytes "gsmail.local"
  [60] ++ rand16.flatMap (fun b => [hexLowerDigit (b / 16), hexLowerDigit (b % 16)]) ++
    [64] ++ domain ++ [62]

/-- One part opener of mime/multipart Writer.CreatePart: dash-boundary (with
a leading CRLF except for the first part), the given header lines (already in
the sorted canonical-key order the Go writer produces), and a blank line. -/
def mwPartHeader (first : Bool) (boundary : List Byte)
    (headerLines : List (List Byte × List Byte)) : List Byte :=
  (if first then [] else CRLF) ++ strBytes "--" ++ boundary ++ CRLF ++
    (headerLines.map (fun p => p.1 ++ strBytes ": " ++ p.2 ++ CRLF)).flatten ++ CRLF

/-- The two base64 sub-parts (text/plain then text/html) the builder writes
for a dual-body message, under the given boundary. -/
def altBodySection (bd body htmlBody : List Byte) : List Byte :=
  mwPartHeader true bd
    [(strBytes "Content-Transfer-Encoding", strBytes "base64"),
     (strBytes "Content-Type", strBytes "text/plain; charset=\"UTF-8\"")] ++
  base64Encode body ++
  mwPartHeader false bd
    [(strBytes "Content-Transfer-Encoding", strBytes "base64"),
     (strBytes "Content-Type", strBytes "text/html; charset=\"UTF-8\"")] ++
  base64Encode htmlBody

/-- One attachment part as the builder writes it. -/
def attachmentPart (bd : List Byte) (att : Attachment) : List Byte :=
  let ct := if att.ContentType.isEmpty then strBytes "application/octet-stream"
    else att.ContentType
  let disp :=
    if att.ContentID.isEmpty then
      strBytes "attachment; filename=\"" ++ att.Filename ++ [34]
    else strBytes "inline; filename=\"" ++ att.Filename ++ [34]
  let hdrs :=
    (strBytes "Content-Disposition", disp) ::
    (if att.ContentID.isEmpty then []
     else [(strBytes "Content-Id", [60] ++ att.ContentID ++ [62])]) ++
    [(strBytes "Content-Transfer-Encoding", strBytes "base64"),
     (strBytes "Content-Type", ct)]
  mwPartHeader false bd hdrs ++ base64Encode att.Data

/-- utils.go writeHeader (the closure in BuildMessage): write key, colon
space, value, CRLF — but only for a non-empty value whose key is not already
a header of the buffer. -/
def writeHeaderIf (buf key value : List Byte) : List Byte :=
  if !value.isEmpty && !HasHeader buf key then
    buf ++ key ++ strBytes ": " ++ value ++ CRLF
  else buf

/-- The canonical From string of utils.go BuildMessage: the re-rendered
address when mail.ParseAddress succeeds, the raw string otherwise. -/
def fromAddrOf (email : Email) : List Byte :=
  match parseAddress email.From with
  | some a => addrString a
  | none => email.From

/-- The To write of utils.go BuildMessage, with its extra guard. -/
def bhTo (email : Email) (buf : List Byte) : List Byte :=
  if !HasHeader buf (strBytes "To") && !email.To.isEmpty then
    writeHeaderIf buf (strBytes "To") (formatAddresses email.To)
  else buf

/-- The Cc write of utils.go BuildMessage. -/
def bhCc (email : Email) (buf : List Byte) : List Byte :=
  if !email.Cc.isEmpty then
    writeHeaderIf buf (strBytes "Cc") (formatAddresses email.Cc)
  else buf

/-- The Reply-To write of utils.go BuildMessage. -/
def bhReplyTo (email : Email) (buf : List Byte) : List Byte :=
  if !email.ReplyTo.isEmpty then
    writeHeaderIf buf (strBytes "Reply-To") (formatAddresses [email.ReplyTo])
  else buf

/-- The Date write of utils.go BuildMessage, guarded by HasHeader. -/
def bhDate (now : List Byte) (buf : List Byte) : List Byte :=
  if !HasHeader buf (strBytes "Date") then
    writeHeaderIf buf (strBytes "Date") now
  else buf

/-- The Message-ID write of utils.go BuildMessage, guarded by HasHeader. -/
def bhMessageID (email : Email) (rand16 : List Byte) (buf : List Byte) : List Byte :=
  if !HasHeader buf (strBytes "Message-ID") then
    writeHeaderIf buf (strBytes "Message-ID") (generateMessageID email.From rand16)
  else buf

/-- The first four writes of utils.go BuildMessage (those before the Subject
line): From, guarded To, Cc, Reply-To. -/
def bhToReplyTo (email : Email) (buf0 : List Byte) : List Byte :=
  bhReplyTo email (bhCc email (bhTo email
    (writeHeaderIf buf0 (strBytes "From") (fromAddrOf email))))

/-- The header-writing sequence of utils.go BuildMessage (the writeHeader
calls before the body shape is chosen), in source order: From, To, Cc,
Reply-To, Subject, MIME-Version, Date, Message-ID. -/
def buildHeaderBlock (now rand16 : List Byte) (buf0 : List Byte)
    (email : Email) : List Byte :=
  bhMessageID email rand16 (bhDate now
    (writeHeaderIf
      (writeHeaderIf (bhToReplyTo email buf0)
        (strBytes "Subject") (encodeHeader email.Subject))
      (strBytes "MIME-Version") (strBytes "1.0")))

/-- The body-shape part of utils.go BuildMessage: everything written after
the header sequence, as a function of the buffer the headers produced. -/
def buildBodyPart (b1 b2 : List Byte) (email : Email) (buf : List Byte) :
    List Byte :=
  let hasAttachments := !email.Attachments.isEmpty
  let hasBothBodies := !email.Body.isEmpty && !email.HTMLBody.isEmpty
  let mainBody :=
    if email.Body.isEmpty && !email.HTMLBody.isEmpty then email.HTMLBody
    else email.Body
  let isHTMLb :=
    if email.Body.isEmpty && !email.HTMLBody.isEmpty then true
    else IsHTML email.Body
  if !hasAttachments && !hasBothBodies then
    let buf :=
      if !HasHeader buf (strBytes "Content-Type") then
        buf ++ (if isHTMLb then strBytes "Content-Type: text/html; charset=\"UTF-8\""
                else strBytes "Content-Type: text/plain; charset=\"UTF-8\"") ++ CRLF
      else buf
    buf ++ CRLF ++ mainBody ++ CRLF
  else
    let buf := writeHeaderIf buf (strBytes "Content-Type")
      (if hasAttachments then strBytes "multipart/mixed; boundary=" ++ b1
       else strBytes "multipart/alternative; boundary=" ++ b1)
    let buf := buf ++ CRLF
    let bodySection :=
      if hasBothBodies then
        if hasAttachments then
          mwPartHeader true b1
            [(strBytes "Content-Type", strBytes "multipart/alternative; boundary=" ++ b2)] ++
          altBodySection b2 email.Body email.HTMLBody ++
          CRLF ++ strBytes "--" ++ b2 ++ strBytes "--" ++ CRLF
        else altBodySection b1 email.Body email.HTMLBody
      else
        mwPartHeader true b1
          [(strBytes "Content-Transfer-Encoding", strBytes "base64"),
           (strBytes "Content-Type",
            if isHTMLb then strBytes "text/html; charset=\"UTF-8\""
            else strBytes "text/plain; charset=\"UTF-8\"")] ++
        base64Encode mainBody
    let attSection := (email.Attachments.map (attachmentPart b1)).flatten
    buf ++ bodySection ++ attSection ++ CRLF ++ strBytes "--" ++ b1 ++
      strBytes "--" ++ CRLF ++ CRLF

/-- utils.go `BuildMessage`.  The ambient effects are explicit parameters:
`now` is time.Now() already formatted in RFC 1123Z, `rand16` the random bytes
of a generated Message-ID, `b1` the boundary of the outer multipart writer
and `b2` the boundary generated for a nested multipart/alternative part.
Part headers appear in the sorted canonical-key order Go's
multipart.Writer.CreatePart emits. -/
def BuildMessage (now rand16 b1 b2 : List Byte) (buf0 : List Byte)
    (email : Email) : List Byte :=
  buildBodyPart b1 b2 email (buildHeaderBlock now rand16 buf0 email)


/-- One rendered header line, key colon space value CRLF. -/
def renderLine (k v : List Byte) : List Byte := k ++ strBytes ": " ++ v ++ CRLF

/-- A block of rendered header lines. -/
def renderLines (ps : List (List Byte × List Byte)) : List Byte :=
  (ps.map fun p => renderLine p.1 p.2).flatten

/-- C5: BuildMessage never writes a Bcc header into the produced message: two
emails that differ only in their Bcc field, with the nondeterministic inputs
(time, random bytes, boundaries) held fixed, build to identical output bytes,
so Bcc addresses never appear in the built message. -/
theorem C5_bcc_blind (now rand16 b1 b2 buf0 : List Byte) (email : Email)
    (bcc : List (List Byte)) :
    BuildMessage now rand16 b1 b2 buf0 { email with Bcc := bcc } =
      BuildMessage now rand16 b1 b2 buf0 email := rfl

/-! ## Header-scan machinery: when a rendered header block has no given key -/

theorem hasHeaderScan_sound (b h : List Byte) :
    ∀ n, hasHeaderScan b h n = true →
      ∃ i, i < n ∧ b.getD i 0 = 10 ∧ isHeaderAt b (i + 1) h = true := by
  intro n
  induction n with
  | zero => intro hfalse; simp [hasHeaderScan] at hfalse
  | succ m ih =>
    intro hs
    rw [hasHeaderScan, Bool.or_eq_true] at hs
    rcases hs with hs | hs
    · obtain ⟨i, hi, hlf, hat⟩ := ih hs
      exact ⟨i, Nat.lt_succ_of_lt hi, hlf, hat⟩
    · rw [Bool.and_eq_true, beq_iff_eq] at hs
      exact ⟨m, Nat.lt_succ_self m, hs.1, hs.2⟩

theorem lf_only_at_end {a : List Byte} (ha : (10 : Byte) ∉ a) {i : Nat}
    (h : (a ++ [13, 10]).getD i 0 = 10) : i = a.length + 1 := by
  rcases Nat.lt_or_ge i a.length with hi | hi
  · exfalso
    rw [List.getD_append _ _ _ _ hi] at h
    have hmem : a.getD i 0 ∈ a := by
      rw [List.getD_eq_getElem _ _ hi]
      exact List.getElem_mem _
    exact ha (h ▸ hmem)
  · rcases Nat.lt_or_ge i (a.length + 2) with hi2 | hi2
    · have hr := List.getD_append_right a [13, 10] 0 i hi
      rw [hr] at h
      have hj : i - a.length = 0 ∨ i - a.length = 1 := by omega
      rcases hj with hj | hj
      · rw [hj] at h; simp at h
      · omega
    · exfalso
      have hlen : (a ++ [13, 10]).length ≤ i := by
        simp only [List.length_append, List.length_cons, List.length_nil]
        omega
      rw [List.getD_eq_default _ _ hlen] at h
      simp at h

theorem renderLine_eq (k v : List Byte) :
    renderLine k v = (k ++ [58, 32] ++ v) ++ [13, 10] := rfl

theorem renderLines_cons (p : List Byte × List Byte)
    (rest : List (List Byte × List Byte)) :
    renderLines (p :: rest) = renderLine p.1 p.2 ++ renderLines rest := rfl

theorem renderLines_append (a b : List (List Byte × List Byte)) :
    renderLines (a ++ b) = renderLines a ++ renderLines b := by
  simp [renderLines]

theorem renderLines_lf_drop (tail : List Byte) :
    ∀ (ps : List (List Byte × List Byte)),
      (∀ p ∈ ps, (10 : Byte) ∉ p.1 ∧ (10 : Byte) ∉ p.2) →
      ∀ i, i < (renderLines ps).length →
        (renderLines ps ++ tail).getD i 0 = 10 →
        ∃ qs, (∀ p ∈ qs, p ∈ ps) ∧
          (renderLines ps ++ tail).drop (i + 1) = renderLines qs ++ tail := by
  intro ps
  induction ps with
  | nil =>
    intro _ i hi
    simp [renderLines] at hi
  | cons p rest ih =>
    intro hps i hi hlf
    rw [renderLines_cons, List.append_assoc] at hlf ⊢
    rw [renderLines_cons, List.length_append] at hi
    rcases Nat.lt_or_ge i (renderLine p.1 p.2).length with hilt | hige
    · rw [List.getD_append _ _ _ _ hilt] at hlf
      rw [renderLine_eq] at hilt hlf
      have hnot : (10 : Byte) ∉ p.1 ++ [58, 32] ++ p.2 := by
        have h1 := (hps p (by simp)).1
        have h2 := (hps p (by simp)).2
        intro hmem
        rcases List.mem_append.1 hmem with hmem | hmem
        · rcases List.mem_append.1 hmem with hmem | hmem
          · exact h1 hmem
          · exact absurd hmem (by decide)
        · exact h2 hmem
      have hieq := lf_only_at_end hnot hlf
      have hL : (renderLine p.1 p.2).length = (p.1 ++ [58, 32] ++ p.2).length + 2 := by
        rw [renderLine_eq, List.length_append]; rfl
      refine ⟨rest, fun q hq => by simp [hq], ?_⟩
      have hiL : i + 1 = (renderLine p.1 p.2).length := by omega
      rw [hiL, List.drop_left]
    · obtain ⟨k, hk⟩ := Nat.exists_eq_add_of_le hige
      have hklt : k < (renderLines rest).length := by omega
      have hlf2 : (renderLines rest ++ tail).getD k 0 = 10 := by
        rw [hk, List.getD_append_right _ _ _ _ (by omega)] at hlf
        have : (renderLine p.1 p.2).length + k - (renderLine p.1 p.2).length = k := by omega
        rw [this] at hlf
        exact hlf
      obtain ⟨qs, hqs, hdrop⟩ := ih (fun q hq => hps q (by simp [hq])) k hklt hlf2
      refine ⟨qs, fun q hq => by simp [hqs q hq], ?_⟩
      have : i + 1 = (renderLine p.1 p.2).length + (k + 1) := by omega
      rw [this, List.drop_append, hdrop]

theorem ciPref_append_false (z : List Byte) :
    ∀ (kc key : List Byte), ciPref (key.take kc.length) kc = false →
      ciPref key (kc ++ z) = false := by
  intro kc
  induction kc with
  | nil => intro key h; simp [ciPref] at h
  | cons c cs ih =>
    intro key h
    cases key with
    | nil => simp [ciPref] at h
    | cons a as =>
      rw [List.length_cons, List.take_succ_cons, ciPref, Bool.and_eq_false_iff] at h
      rw [List.cons_append, ciPref, Bool.and_eq_false_iff]
      rcases h with h | h
      · exact Or.inl h
      · exact Or.inr (ih as h)

theorem ciPref_block_false (key : List Byte) (hkey : key ≠ [])
    (hk0 : ciEqB (key.getD 0 0) 13 = false)
    (qs : List (List Byte × List Byte)) (tail : List Byte)
    (htail : tail = [] ∨ ∃ t2, tail = 13 :: 10 :: t2)
    (hqs : ∀ p ∈ qs, ciPref (key.take (p.1 ++ [58, 32]).length) (p.1 ++ [58, 32]) = false) :
    ciPref key (renderLines qs ++ tail) = false := by
  cases qs with
  | nil =>
    have hrl : renderLines [] ++ tail = tail := by simp [renderLines]
    rw [hrl]
    cases key with
    | nil => exact absurd rfl hkey
    | cons a as =>
      rcases htail with rfl | ⟨t2, rfl⟩
      · rfl
      · rw [ciPref]
        have : ciEqB a 13 = false := hk0
        rw [this, Bool.false_and]
  | cons p rest =>
    have h1 : renderLines (p :: rest) ++ tail =
        (p.1 ++ [58, 32]) ++ (p.2 ++ [13, 10] ++ (renderLines rest ++ tail)) := by
      rw [renderLines_cons, renderLine_eq]
      simp [List.append_assoc]
    rw [h1]
    exact ciPref_append_false _ _ _ (hqs p (by simp))

theorem bytesIndexAux_some_le (pat : List Byte) :
    ∀ (l : List Byte) (j i : Nat), bytesIndexAux pat l j = some i → i ≤ j + l.length := by
  intro l
  induction l with
  | nil => intro j i h; simp [bytesIndexAux] at h
  | cons b bs ih =>
    intro j i h
    rw [bytesIndexAux] at h
    split at h
    · cases h; omega
    · have := ih (j + 1) i h
      simp only [List.length_cons]
      omega

theorem bytesIndexAux_le_of_at (pat : List Byte) (hp : pat ≠ []) :
    ∀ (u l w : List Byte) (j : Nat), l = u ++ (pat ++ w) →
      ∃ i, bytesIndexAux pat l j = some i ∧ i ≤ j + u.length := by
  intro u
  induction u with
  | nil =>
    intro l w j hl
    subst hl
    rw [List.nil_append]
    cases pat with
    | nil => exact absurd rfl hp
    | cons q qs =>
      refine ⟨j, ?_, by omega⟩
      rw [List.cons_append, bytesIndexAux, if_pos]
      rw [← List.cons_append, List.isPrefixOf_iff_prefix]
      exact List.prefix_append _ _
  | cons a u2 ih =>
    intro l w j hl
    subst hl
    rw [List.cons_append, bytesIndexAux]
    split
    · exact ⟨j, rfl, by omega⟩
    · obtain ⟨i, hi, hle⟩ := ih (u2 ++ (pat ++ w)) w (j + 1) rfl
      refine ⟨i, hi, ?_⟩
      simp only [List.length_cons]
      omega

theorem bytesIndex_le_of_at (b pat u w : List Byte) (hp : pat ≠ [])
    (hb : b = u ++ pat ++ w) : ∃ i, bytesIndex b pat = some i ∧ i ≤ u.length := by
  have hb2 : b = u ++ (pat ++ w) := by rw [hb, List.append_assoc]
  obtain ⟨i, hi, hle⟩ := bytesIndexAux_le_of_at pat hp u b w 0 hb2
  rw [bytesIndex, if_neg (by simp [hp])]
  exact ⟨i, hi, by omega⟩

theorem headerEndOf_le (b : List Byte) : headerEndOf b ≤ b.length := by
  unfold headerEndOf
  split
  · rename_i i hi
    rw [bytesIndex] at hi
    rw [if_neg (by decide)] at hi
    have := bytesIndexAux_some_le _ _ _ _ hi
    omega
  · split
    · rename_i i hi
      rw [bytesIndex] at hi
      rw [if_neg (by decide)] at hi
      have := bytesIndexAux_some_le _ _ _ _ hi
      omega
    · exact le_refl _

theorem headerEndOf_append_blank (u w : List Byte) :
    headerEndOf (u ++ [13, 10, 13, 10] ++ w) ≤ u.length := by
  obtain ⟨i, hi, hle⟩ := bytesIndex_le_of_at _ [13, 10, 13, 10] u w (by decide) rfl
  have h2 : headerEndOf (u ++ [13, 10, 13, 10] ++ w) = i := by
    unfold headerEndOf
    rw [hi]
  omega

theorem hasHeader_block_parts (key : List Byte) (ps : List (List Byte × List Byte))
    (tail : List Byte) (hkey : key ≠ [])
    (hk0 : ciEqB (key.getD 0 0) 13 = false)
    (htail : tail = [] ∨ ∃ t2, tail = 13 :: 10 :: t2)
    (hps : ∀ p ∈ ps, ((10 : Byte) ∉ p.1 ∧ (10 : Byte) ∉ p.2) ∧
      ciPref (key.take (p.1 ++ [58, 32]).length) (p.1 ++ [58, 32]) = false)
    (n : Nat) (hn : n ≤ (renderLines ps).length + 1) :
    isHeaderAt (renderLines ps ++ tail) 0 key = false ∧
      hasHeaderScan (renderLines ps ++ tail) key n = false := by
  constructor
  · have hm : matchAt (renderLines ps ++ tail) 0 key = false := by
      rw [matchAt, List.drop_zero]
      exact ciPref_block_false key hkey hk0 ps tail htail (fun p hp => (hps p hp).2)
    unfold isHeaderAt
    split
    · rfl
    · rw [hm, Bool.false_and]
  · by_contra hcon
    rw [Bool.not_eq_false] at hcon
    obtain ⟨i, hi, hlf, hat⟩ := hasHeaderScan_sound _ _ n hcon
    rcases Nat.lt_or_ge i (renderLines ps).length with hilt | hige
    · obtain ⟨qs, hqs, hdrop⟩ :=
        renderLines_lf_drop tail ps (fun p hp => (hps p hp).1) i hilt hlf
      have hm : matchAt (renderLines ps ++ tail) (i + 1) key = false := by
        rw [matchAt, hdrop]
        exact ciPref_block_false key hkey hk0 qs tail htail
          (fun p hp => (hps p (hqs p hp)).2)
      unfold isHeaderAt at hat
      split at hat
      · exact Bool.false_ne_true hat
      · rw [hm, Bool.false_and] at hat
        exact Bool.false_ne_true hat
    · have hieq : i = (renderLines ps).length := by omega
      subst hieq
      rw [List.getD_append_right _ _ _ _ (le_refl _), Nat.sub_self] at hlf
      rcases htail with rfl | ⟨t2, rfl⟩
      · simp at hlf
      · simp at hlf

theorem HasHeader_false_of_block (key : List Byte) (ps : List (List Byte × List Byte))
    (tail : List Byte) (hkey : key ≠ [])
    (hk0 : ciEqB (key.getD 0 0) 13 = false)
    (htail : tail = [] ∨ ∃ t2, tail = 13 :: 10 :: t2)
    (hps : ∀ p ∈ ps, ((10 : Byte) ∉ p.1 ∧ (10 : Byte) ∉ p.2) ∧
      ciPref (key.take (p.1 ++ [58, 32]).length) (p.1 ++ [58, 32]) = false)
    (hhe : headerEndOf (renderLines ps ++ tail) ≤ (renderLines ps).length + 1 + key.length) :
    HasHeader (renderLines ps ++ tail) key = false := by
  rw [HasHeader, if_neg (by simp [hkey])]
  have hn : headerEndOf (renderLines ps ++ tail) - key.length ≤ (renderLines ps).length + 1 := by
    omega
  obtain ⟨h1, h2⟩ := hasHeader_block_parts key ps tail hkey hk0 htail hps _ hn
  rw [h1, h2, Bool.or_self]

theorem writeHeaderIf_renders (buf k v : List Byte)
    (ps : List (List Byte × List Byte)) (h : buf = renderLines ps) :
    ∃ qs, writeHeaderIf buf k v = renderLines qs ∧
      ∀ p ∈ qs, p ∈ ps ∨ p = (k, v) := by
  unfold writeHeaderIf
  split
  · refine ⟨ps ++ [(k, v)], ?_, ?_⟩
    · rw [renderLines_append, h]
      show renderLines ps ++ k ++ strBytes ": " ++ v ++ CRLF =
        renderLines ps ++ renderLines [(k, v)]
      have hone : renderLines [(k, v)] = renderLine k v := by
        simp [renderLines]
      rw [hone]
      simp [renderLine, List.append_assoc]
    · intro p hp
      rcases List.mem_append.1 hp with hp | hp
      · exact Or.inl hp
      · simp at hp
        exact Or.inr hp
  · exact ⟨ps, h, fun p hp => Or.inl hp⟩

theorem ite_renders {c : Prop} [Decidable c] (buf k v : List Byte)
    (ps : List (List Byte × List Byte)) (h : buf = renderLines ps) :
    ∃ qs, (if c then writeHeaderIf buf k v else buf) = renderLines qs ∧
      ∀ p ∈ qs, p ∈ ps ∨ p = (k, v) := by
  split
  · exact writeHeaderIf_renders buf k v ps h
  · exact ⟨ps, h, fun p hp => Or.inl hp⟩

theorem writeHeaderIf_ext (buf k v : List Byte) :
    ∃ d, writeHeaderIf buf k v = buf ++ d := by
  unfold writeHeaderIf
  split
  · simp only [List.append_assoc]
    exact ⟨_, rfl⟩
  · exact ⟨[], (List.append_nil buf).symm⟩

theorem bhDate_ext (now buf : List Byte) : ∃ d, bhDate now buf = buf ++ d := by
  unfold bhDate
  split
  · exact writeHeaderIf_ext buf _ now
  · exact ⟨[], (List.append_nil buf).symm⟩

theorem bhMessageID_ext (email : Email) (rand16 buf : List Byte) :
    ∃ d, bhMessageID email rand16 buf = buf ++ d := by
  unfold bhMessageID
  split
  · exact writeHeaderIf_ext buf _ _
  · exact ⟨[], (List.append_nil buf).symm⟩

theorem buildBodyPart_ext (b1 b2 : List Byte) (email : Email) (buf : List Byte) :
    ∃ d, buildBodyPart b1 b2 email buf = buf ++ d := by
  unfold buildBodyPart
  dsimp only
  split
  · split
    · simp only [List.append_assoc]
      exact ⟨_, rfl⟩
    · simp only [List.append_assoc]
      exact ⟨_, rfl⟩
  · obtain ⟨d0, hd0⟩ := writeHeaderIf_ext buf (strBytes "Content-Type")
      (if !email.Attachments.isEmpty then strBytes "multipart/mixed; boundary=" ++ b1
       else strBytes "multipart/alternative; boundary=" ++ b1)
    rw [hd0]
    simp only [List.append_assoc]
    exact ⟨_, rfl⟩

theorem bhToReplyTo_renders (email : Email) :
    ∃ qs, bhToReplyTo email [] = renderLines qs ∧
      ∀ p ∈ qs,
        p = (strBytes "From", fromAddrOf email) ∨
        p = (strBytes "To", formatAddresses email.To) ∨
        p = (strBytes "Cc", formatAddresses email.Cc) ∨
        p = (strBytes "Reply-To", formatAddresses [email.ReplyTo]) := by
  have h0 : ([] : List Byte) = renderLines [] := by simp [renderLines]
  obtain ⟨ps1, h1, m1⟩ :=
    writeHeaderIf_renders [] (strBytes "From") (fromAddrOf email) [] h0
  unfold bhToReplyTo
  rw [h1]
  obtain ⟨ps2, h2, m2⟩ :
      ∃ qs, bhTo email (renderLines ps1) = renderLines qs ∧
        ∀ p ∈ qs, p ∈ ps1 ∨ p = (strBytes "To", formatAddresses email.To) := by
    unfold bhTo
    exact ite_renders _ _ _ ps1 rfl
  rw [h2]
  obtain ⟨ps3, h3, m3⟩ :
      ∃ qs, bhCc email (renderLines ps2) = renderLines qs ∧
        ∀ p ∈ qs, p ∈ ps2 ∨ p = (strBytes "Cc", formatAddresses email.Cc) := by
    unfold bhCc
    exact ite_renders _ _ _ ps2 rfl
  rw [h3]
  obtain ⟨ps4, h4, m4⟩ :
      ∃ qs, bhReplyTo email (renderLines ps3) = renderLines qs ∧
        ∀ p ∈ qs, p ∈ ps3 ∨ p = (strBytes "Reply-To", formatAddresses [email.ReplyTo]) := by
    unfold bhReplyTo
    exact ite_renders _ _ _ ps3 rfl
  refine ⟨ps4, h4, ?_⟩
  intro p hp
  rcases m4 p hp with hp | hp
  · rcases m3 p hp with hp | hp
    · rcases m2 p hp with hp | hp
      · rcases m1 p hp with hp | hp
        · exact absurd hp (List.not_mem_nil p)
        · exact Or.inl hp
      · exact Or.inr (Or.inl hp)
    · exact Or.inr (Or.inr (Or.inl hp))
  · exact Or.inr (Or.inr (Or.inr hp))


theorem buildHeaderBlock_renders (now rand16 : List Byte) (email : Email) :
    ∃ qs, buildHeaderBlock now rand16 [] email = renderLines qs ∧
      ∀ p ∈ qs,
        p = (strBytes "From", fromAddrOf email) ∨
        p = (strBytes "To", formatAddresses email.To) ∨
        p = (strBytes "Cc", formatAddresses email.Cc) ∨
        p = (strBytes "Reply-To", formatAddresses [email.ReplyTo]) ∨
        p = (strBytes "Subject", encodeHeader email.Subject) ∨
        p = (strBytes "MIME-Version", strBytes "1.0") ∨
        p = (strBytes "Date", now) ∨
        p = (strBytes "Message-ID", generateMessageID email.From rand16) := by
  obtain ⟨ps4, h4, m4⟩ := bhToReplyTo_renders email
  unfold buildHeaderBlock
  rw [h4]
  obtain ⟨ps5, h5, m5⟩ :=
    writeHeaderIf_renders _ (strBytes "Subject") (encodeHeader email.Subject) ps4 rfl
  rw [h5]
  obtain ⟨ps6, h6, m6⟩ :=
    writeHeaderIf_renders _ (strBytes "MIME-Version") (strBytes "1.0") ps5 rfl
  rw [h6]
  obtain ⟨ps7, h7, m7⟩ :
      ∃ qs, bhDate now (renderLines ps6) = renderLines qs ∧
        ∀ p ∈ qs, p ∈ ps6 ∨ p = (strBytes "Date", now) := by
    unfold bhDate
    exact ite_renders _ _ _ ps6 rfl
  rw [h7]
  obtain ⟨ps8, h8, m8⟩ :
      ∃ qs, bhMessageID email rand16 (renderLines ps7) = renderLines qs ∧
        ∀ p ∈ qs, p ∈ ps7 ∨
          p = (strBytes "Message-ID", generateMessageID email.From rand16) := by
    unfold bhMessageID
    exact ite_renders _ _ _ ps7 rfl
  refine ⟨ps8, h8, ?_⟩
  intro p hp
  rcases m8 p hp with hp | hp
  · rcases m7 p hp with hp | hp
    · rcases m6 p hp with hp | hp
      · rcases m5 p hp with hp | hp
        · rcases m4 p hp with hp | hp | hp | hp
          · exact Or.inl hp
          · exact Or.inr (Or.inl hp)
          · exact Or.inr (Or.inr (Or.inl hp))
          · exact Or.inr (Or.inr (Or.inr (Or.inl hp)))
        · exact Or.inr (Or.inr (Or.inr (Or.inr (Or.inl hp))))
      · exact Or.inr (Or.inr (Or.inr (Or.inr (Or.inr (Or.inl hp)))))
    · exact Or.inr (Or.inr (Or.inr (Or.inr (Or.inr (Or.inr (Or.inl hp))))))
  · exact Or.inr (Or.inr (Or.inr (Or.inr (Or.inr (Or.inr (Or.inr hp))))))

theorem buildHeaderBlock_subject_split (now rand16 : List Byte) (email : Email)
    (hf : (10 : Byte) ∉ fromAddrOf email)
    (ht : (10 : Byte) ∉ formatAddresses email.To)
    (hc : (10 : Byte) ∉ formatAddresses email.Cc)
    (hr : (10 : Byte) ∉ formatAddresses [email.ReplyTo])
    (hsub : encodeHeader email.Subject ≠ []) :
    ∃ u d, buildHeaderBlock now rand16 [] email =
      u ++ (renderLine (strBytes "Subject") (encodeHeader email.Subject) ++ d) := by
  obtain ⟨ps4, h4, m4⟩ := bhToReplyTo_renders email
  have hnosub : HasHeader (bhToReplyTo email []) (strBytes "Subject") = false := by
    rw [h4]
    have happ : renderLines ps4 = renderLines ps4 ++ [] := (List.append_nil _).symm
    rw [happ]
    apply HasHeader_false_of_block
    · decide
    · decide
    · exact Or.inl rfl
    · intro p hp
      rcases m4 p hp with hp | hp | hp | hp
      · subst hp
        exact ⟨⟨(by decide : (10 : Byte) ∉ strBytes "From"), hf⟩,
          (by decide : ciPref (List.take (strBytes "From" ++ [58, 32]).length
            (strBytes "Subject")) (strBytes "From" ++ [58, 32]) = false)⟩
      · subst hp
        exact ⟨⟨(by decide : (10 : Byte) ∉ strBytes "To"), ht⟩,
          (by decide : ciPref (List.take (strBytes "To" ++ [58, 32]).length
            (strBytes "Subject")) (strBytes "To" ++ [58, 32]) = false)⟩
      · subst hp
        exact ⟨⟨(by decide : (10 : Byte) ∉ strBytes "Cc"), hc⟩,
          (by decide : ciPref (List.take (strBytes "Cc" ++ [58, 32]).length
            (strBytes "Subject")) (strBytes "Cc" ++ [58, 32]) = false)⟩
      · subst hp
        exact ⟨⟨(by decide : (10 : Byte) ∉ strBytes "Reply-To"), hr⟩,
          (by decide : ciPref (List.take (strBytes "Reply-To" ++ [58, 32]).length
            (strBytes "Subject")) (strBytes "Reply-To" ++ [58, 32]) = false)⟩
    · have hb := headerEndOf_le (renderLines ps4 ++ [])
      simp only [List.length_append, List.length_nil] at hb
      have hsl : (strBytes "Subject").length = 7 := by decide
      omega
  have hw : writeHeaderIf (bhToReplyTo email []) (strBytes "Subject")
        (encodeHeader email.Subject) =
      bhToReplyTo email [] ++
        renderLine (strBytes "Subject") (encodeHeader email.Subject) := by
    unfold writeHeaderIf
    rw [if_pos]
    · simp [renderLine, List.append_assoc]
    · have hie : (encodeHeader email.Subject).isEmpty = false := by
        cases hsubl : encodeHeader email.Subject
        · exact absurd hsubl hsub
        · rfl
      rw [hie, hnosub]
      rfl
  obtain ⟨d1, hd1⟩ := writeHeaderIf_ext
    (writeHeaderIf (bhToReplyTo email []) (strBytes "Subject") (encodeHeader email.Subject))
    (strBytes "MIME-Version") (strBytes "1.0")
  obtain ⟨d2, hd2⟩ := bhDate_ext now
    (writeHeaderIf (bhToReplyTo email []) (strBytes "Subject") (encodeHeader email.Subject) ++ d1)
  obtain ⟨d3, hd3⟩ := bhMessageID_ext email rand16
    (writeHeaderIf (bhToReplyTo email []) (strBytes "Subject") (encodeHeader email.Subject) ++ d1 ++ d2)
  unfold buildHeaderBlock
  rw [hd1, hd2, hd3, hw]
  simp only [List.append_assoc]
  exact ⟨_, _, rfl⟩

/-- The Hello-world email of the Go subject-encoding test: Subject
"Hello 世界" in UTF-8 bytes. -/
def helloWorldEmail : Email :=
  { From := strBytes "s@example.com", To := [strBytes "r@example.com"],
    Subject := strBytes "Hello " ++ [228, 184, 150, 231, 149, 140],
    Body := strBytes "Hi" }

set_option maxRecDepth 20000 in
/-- C6: BuildMessage emits the Subject header RFC 2047 Q-encoded in UTF-8
exactly when the subject has a byte above 127: an all-ASCII subject passes
through encodeHeader verbatim, a subject with a byte above 127 becomes one
UTF-8 Q-encoded word, the built message contains the Subject line with the
encodeHeader value (for any email whose rendered address headers are LF-free
and whose encoded subject is non-empty, into an empty buffer), and the
subject "Hello 世界" produces exactly the literal
"Subject: =?UTF-8?q?Hello_=E4=B8=96=E7=95=8C?=" line. -/
theorem C6_subject_encoding :
    (∀ s : List Byte, (∀ b ∈ s, b ≤ 127) → encodeHeader s = s) ∧
    (∀ s : List Byte, (∃ b ∈ s, 127 < b) →
      encodeHeader s = encodeWordQ (strBytes "UTF-8") s) ∧
    (∀ now rand16 b1 b2 : List Byte, ∀ email : Email,
      (10 : Byte) ∉ fromAddrOf email →
      (10 : Byte) ∉ formatAddresses email.To →
      (10 : Byte) ∉ formatAddresses email.Cc →
      (10 : Byte) ∉ formatAddresses [email.ReplyTo] →
      encodeHeader email.Subject ≠ [] →
      bytesContains (BuildMessage now rand16 b1 b2 [] email)
        (renderLine (strBytes "Subject") (encodeHeader email.Subject)) = true) ∧
    bytesContains
      (BuildMessage (strBytes "Mon, 02 Jan 2006 15:04:05 -0700") [1, 2, 3, 4]
        (strBytes "B1") (strBytes "B2") [] helloWorldEmail)
      (strBytes "Subject: =?UTF-8?q?Hello_=E4=B8=96=E7=95=8C?=" ++ CRLF) = true := by
  refine ⟨?_, ?_, ?_, ?_⟩
  · intro s h
    unfold encodeHeader
    rw [if_neg]
    intro hany
    rw [List.any_eq_true] at hany
    obtain ⟨b, hb, hlt⟩ := hany
    rw [decide_eq_true_iff] at hlt
    exact absurd (h b hb) (Nat.not_le.mpr hlt)
  · intro s hex
    obtain ⟨b, hb, hlt⟩ := hex
    unfold encodeHeader mimeQEncode
    rw [if_pos, if_pos]
    · unfold needsEncoding
      rw [List.any_eq_true]
      refine ⟨b, hb, ?_⟩
      simp only [Bool.and_eq_true, Bool.or_eq_true, decide_eq_true_iff]
      constructor
      · exact Or.inr (Nat.lt_trans (by decide) hlt)
      · simp only [bne_iff_ne, ne_eq]
        intro heq
        rw [heq] at hlt
        exact absurd hlt (by decide)
    · rw [List.any_eq_true]
      exact ⟨b, hb, by simpa using hlt⟩
  · intro now rand16 b1 b2 email hf ht hc hr hsub
    obtain ⟨u, d, hsplit⟩ :=
      buildHeaderBlock_subject_split now rand16 email hf ht hc hr hsub
    obtain ⟨d4, hd4⟩ := buildBodyPart_ext b1 b2 email (buildHeaderBlock now rand16 [] email)
    have hout : BuildMessage now rand16 b1 b2 [] email =
        u ++ (renderLine (strBytes "Subject") (encodeHeader email.Subject) ++ (d ++ d4)) := by
      show buildBodyPart b1 b2 email (buildHeaderBlock now rand16 [] email) = _
      rw [hd4, hsplit]
      simp [List.append_assoc]
    rw [hout]
    apply (bytesContains_parts _ ?_ _).mpr
    · exact ⟨u, d ++ d4, rfl⟩
    · exact List.cons_ne_nil _ _
  · decide

set_option maxRecDepth 20000 in
theorem C6_subject_encoding_witness :
    encodeHeader (strBytes "Plain subject") = strBytes "Plain subject" ∧
    encodeHeader (strBytes "Hi " ++ [226, 130, 172]) =
      encodeWordQ (strBytes "UTF-8") (strBytes "Hi " ++ [226, 130, 172]) ∧
    bytesContains
      (BuildMessage (strBytes "D") [1] (strBytes "X") (strBytes "Y") []
        helloWorldEmail)
      (renderLine (strBytes "Subject") (encodeHeader helloWorldEmail.Subject)) = true :=
  ⟨C6_subject_encoding.1 _ (by decide),
   C6_subject_encoding.2.1 _ ⟨172, by decide, by decide⟩,
   C6_subject_encoding.2.2.1 _ _ _ _ helloWorldEmail (by decide) (by decide)
     (by decide) (by decide) (by decide)⟩


theorem renderLines_ends_crlf (qs : List (List Byte × List Byte)) (h : qs ≠ []) :
    ∃ A, renderLines qs = A ++ [13, 10] ∧
      (renderLines qs).length = A.length + 2 := by
  induction qs with
  | nil => exact absurd rfl h
  | cons p rest ih =>
    rcases rest with _ | ⟨q, qrest⟩
    · refine ⟨p.1 ++ [58, 32] ++ p.2, ?_, ?_⟩
      · show renderLine p.1 p.2 ++ renderLines [] = _
        rw [show renderLines ([] : List (List Byte × List Byte)) = [] from rfl,
          List.append_nil, renderLine_eq]
      · show (renderLine p.1 p.2 ++ renderLines []).length = _
        rw [show renderLines ([] : List (List Byte × List Byte)) = [] from rfl,
          List.append_nil, renderLine_eq, List.length_append]
        rfl
    · obtain ⟨A, hA, hlen⟩ := ih (List.cons_ne_nil _ _)
      refine ⟨renderLine p.1 p.2 ++ A, ?_, ?_⟩
      · rw [renderLines_cons, hA, List.append_assoc]
      · rw [renderLines_cons, List.length_append, hlen, List.length_append]
        omega

/-- The email of the C2 counterexample: empty plain Body, HTMLBody "x". -/
def c2Email : Email :=
  { From := strBytes "s@e.com", To := [strBytes "r@e.com"],
    HTMLBody := strBytes "x" }

set_option maxRecDepth 20000 in
/-- C2 counterexample: with Body empty and HTMLBody "x", the chosen body is
"x", which the HTML sniffer rejects, yet the single-part message carries a
text/html Content-Type and no text/plain one — refuting the claim that the
single-part Content-Type is text/html exactly when the chosen body is
HTML-detected. -/
theorem C2_body_shape_counterexample :
    IsHTML (strBytes "x") = false ∧
    c2Email.Body = [] ∧ c2Email.Attachments = [] ∧
    bytesContains
      (BuildMessage (strBytes "D") [1] (strBytes "X") (strBytes "Y") [] c2Email)
      (strBytes "Content-Type: text/html; charset=\"UTF-8\"" ++ CRLF) = true ∧
    bytesContains
      (BuildMessage (strBytes "D") [1] (strBytes "X") (strBytes "Y") [] c2Email)
      (strBytes "Content-Type: text/plain") = false := by
  refine ⟨by decide, rfl, rfl, by decide, by decide⟩

theorem buildMessage_single_shape (now rand16 b1 b2 : List Byte) (email : Email)
    (hatt : email.Attachments = [])
    (hsingle : email.Body = [] ∨ email.HTMLBody = []) :
    BuildMessage now rand16 b1 b2 [] email =
      buildHeaderBlock now rand16 [] email ++
        (if HasHeader (buildHeaderBlock now rand16 [] email) (strBytes "Content-Type")
         then ([] : List Byte)
         else
           (if (email.Body.isEmpty && !email.HTMLBody.isEmpty) || IsHTML email.Body
            then strBytes "Content-Type: text/html; charset=\"UTF-8\""
            else strBytes "Content-Type: text/plain; charset=\"UTF-8\"") ++ CRLF) ++
        CRLF ++
        (if email.Body.isEmpty && !email.HTMLBody.isEmpty then email.HTMLBody
         else email.Body) ++ CRLF := by
  show buildBodyPart b1 b2 email (buildHeaderBlock now rand16 [] email) = _
  generalize buildHeaderBlock now rand16 [] email = B
  unfold buildBodyPart
  dsimp only
  have hA : email.Attachments.isEmpty = true := by rw [hatt]; rfl
  have hB : (!email.Body.isEmpty && !email.HTMLBody.isEmpty) = false := by
    rcases hsingle with h | h <;> simp [h]
  rw [if_pos (by rw [hA, hB]; rfl)]
  have hH : (if email.Body.isEmpty && !email.HTMLBody.isEmpty then true
        else IsHTML email.Body) =
      ((email.Body.isEmpty && !email.HTMLBody.isEmpty) || IsHTML email.Body) := by
    cases hc : (email.Body.isEmpty && !email.HTMLBody.isEmpty) <;> simp [hc]
  rw [hH]
  cases hCT : HasHeader B (strBytes "Content-Type")
  · rw [if_pos (by decide : (!false) = true), if_neg (by decide : ¬(false = true))]
    simp [List.append_assoc]
  · rw [if_neg (by decide : ¬((!true) = true)), if_pos (by decide : true = true)]
    simp [List.append_assoc]

theorem hasHeader_false_message (key : List Byte)
    (qs : List (List Byte × List Byte)) (mb : List Byte)
    (hkey : key ≠ []) (hk0 : ciEqB (key.getD 0 0) 13 = false)
    (hqs : ∀ p ∈ qs, ((10 : Byte) ∉ p.1 ∧ (10 : Byte) ∉ p.2) ∧
      ciPref (key.take (p.1 ++ [58, 32]).length) (p.1 ++ [58, 32]) = false)
    (hne : qs ≠ []) :
    HasHeader (renderLines qs ++ (CRLF ++ (mb ++ CRLF))) key = false := by
  obtain ⟨A, hA, hlen⟩ := renderLines_ends_crlf qs hne
  apply HasHeader_false_of_block key qs _ hkey hk0
    (Or.inr ⟨mb ++ CRLF, rfl⟩) hqs
  have hjb : renderLines qs ++ 13 :: 10 :: (mb ++ CRLF) =
      A ++ [13, 10, 13, 10] ++ (mb ++ CRLF) := by
    rw [hA]
    simp only [CRLF, List.append_assoc, List.cons_append, List.nil_append]
  have hb2 := headerEndOf_append_blank A (mb ++ CRLF)
  rw [← hjb] at hb2
  omega

theorem buildMessage_single_no_cte (now rand16 b1 b2 : List Byte) (email : Email)
    (hatt : email.Attachments = [])
    (hsingle : email.Body = [] ∨ email.HTMLBody = [])
    (hf : (10 : Byte) ∉ fromAddrOf email)
    (ht : (10 : Byte) ∉ formatAddresses email.To)
    (hc : (10 : Byte) ∉ formatAddresses email.Cc)
    (hr : (10 : Byte) ∉ formatAddresses [email.ReplyTo])
    (hs : (10 : Byte) ∉ encodeHeader email.Subject)
    (hn : (10 : Byte) ∉ now)
    (hm : (10 : Byte) ∉ generateMessageID email.From rand16) :
    HasHeader (BuildMessage now rand16 b1 b2 [] email)
      (strBytes "Content-Transfer-Encoding") = false := by
  rw [buildMessage_single_shape now rand16 b1 b2 email hatt hsingle]
  obtain ⟨qs, hq, mq⟩ := buildHeaderBlock_renders now rand16 email
  have hmemqs : ∀ p ∈ qs, ((10 : Byte) ∉ p.1 ∧ (10 : Byte) ∉ p.2) ∧
      ciPref ((strBytes "Content-Transfer-Encoding").take (p.1 ++ [58, 32]).length)
        (p.1 ++ [58, 32]) = false := by
    intro p hp
    rcases mq p hp with hp | hp | hp | hp | hp | hp | hp | hp
    · subst hp
      exact ⟨⟨(by decide : (10 : Byte) ∉ strBytes "From"), hf⟩,
        (by decide : ciPref (List.take (strBytes "From" ++ [58, 32]).length
          (strBytes "Content-Transfer-Encoding")) (strBytes "From" ++ [58, 32]) = false)⟩
    · subst hp
      exact ⟨⟨(by decide : (10 : Byte) ∉ strBytes "To"), ht⟩,
        (by decide : ciPref (List.take (strBytes "To" ++ [58, 32]).length
          (strBytes "Content-Transfer-Encoding")) (strBytes "To" ++ [58, 32]) = false)⟩
    · subst hp
      exact ⟨⟨(by decide : (10 : Byte) ∉ strBytes "Cc"), hc⟩,
        (by decide : ciPref (List.take (strBytes "Cc" ++ [58, 32]).length
          (strBytes "Content-Transfer-Encoding")) (strBytes "Cc" ++ [58, 32]) = false)⟩
    · subst hp
      exact ⟨⟨(by decide : (10 : Byte) ∉ strBytes "Reply-To"), hr⟩,
        (by decide : ciPref (List.take (strBytes "Reply-To" ++ [58, 32]).length
          (strBytes "Content-Transfer-Encoding")) (strBytes "Reply-To" ++ [58, 32]) = false)⟩
    · subst hp
      exact ⟨⟨(by decide : (10 : Byte) ∉ strBytes "Subject"), hs⟩,
        (by decide : ciPref (List.take (strBytes "Subject" ++ [58, 32]).length
          (strBytes "Content-Transfer-Encoding")) (strBytes "Subject" ++ [58, 32]) = false)⟩
    · subst hp
      exact ⟨⟨(by decide : (10 : Byte) ∉ strBytes "MIME-Version"),
          (by decide : (10 : Byte) ∉ strBytes "1.0")⟩,
        (by decide : ciPref (List.take (strBytes "MIME-Version" ++ [58, 32]).length
          (strBytes "Content-Transfer-Encoding")) (strBytes "MIME-Version" ++ [58, 32]) = false)⟩
    · subst hp
      exact ⟨⟨(by decide : (10 : Byte) ∉ strBytes "Date"), hn⟩,
        (by decide : ciPref (List.take (strBytes "Date" ++ [58, 32]).length
          (strBytes "Content-Transfer-Encoding")) (strBytes "Date" ++ [58, 32]) = false)⟩
    · subst hp
      exact ⟨⟨(by decide : (10 : Byte) ∉ strBytes "Message-ID"), hm⟩,
        (by decide : ciPref (List.take (strBytes "Message-ID" ++ [58, 32]).length
          (strBytes "Content-Transfer-Encoding")) (strBytes "Message-ID" ++ [58, 32]) = false)⟩
  rw [hq]
  cases hCT : HasHeader (renderLines qs) (strBytes "Content-Type")
  · rw [if_neg (Bool.false_ne_true)]
    cases hHtml : ((email.Body.isEmpty && !email.HTMLBody.isEmpty) || IsHTML email.Body)
    · rw [if_neg (by decide : ¬(false = true))]
      have hline : strBytes "Content-Type: text/plain; charset=\"UTF-8\"" ++ CRLF =
          renderLine (strBytes "Content-Type")
            (strBytes "text/plain; charset=\"UTF-8\"") := by decide
      have hshape : renderLines qs ++
            (strBytes "Content-Type: text/plain; charset=\"UTF-8\"" ++ CRLF) ++ CRLF ++
            (if email.Body.isEmpty && !email.HTMLBody.isEmpty then email.HTMLBody
             else email.Body) ++ CRLF =
          renderLines (qs ++ [(strBytes "Content-Type",
              strBytes "text/plain; charset=\"UTF-8\"")]) ++
            (CRLF ++ ((if email.Body.isEmpty && !email.HTMLBody.isEmpty
              then email.HTMLBody else email.Body) ++ CRLF)) := by
        rw [renderLines_append, hline]
        have hone : renderLines [(strBytes "Content-Type",
            strBytes "text/plain; charset=\"UTF-8\"")] =
            renderLine (strBytes "Content-Type")
              (strBytes "text/plain; charset=\"UTF-8\"") := by
          simp [renderLines]
        rw [hone]
        simp [List.append_assoc]
      rw [hshape]
      apply hasHeader_false_message _ _ _ (by decide) (by decide)
      · intro p hp
        rcases List.mem_append.1 hp with hp | hp
        · exact hmemqs p hp
        · simp only [List.mem_singleton] at hp
          subst hp
          exact ⟨⟨(by decide : (10 : Byte) ∉ strBytes "Content-Type"),
              (by decide : (10 : Byte) ∉ strBytes "text/plain; charset=\"UTF-8\"")⟩,
            (by decide : ciPref (List.take (strBytes "Content-Type" ++ [58, 32]).length
              (strBytes "Content-Transfer-Encoding"))
              (strBytes "Content-Type" ++ [58, 32]) = false)⟩
      · simp
    · rw [if_pos (by decide : true = true)]
      have hline : strBytes "Content-Type: text/html; charset=\"UTF-8\"" ++ CRLF =
          renderLine (strBytes "Content-Type")
            (strBytes "text/html; charset=\"UTF-8\"") := by decide
      have hshape : renderLines qs ++
            (strBytes "Content-Type: text/html; charset=\"UTF-8\"" ++ CRLF) ++ CRLF ++
            (if email.Body.isEmpty && !email.HTMLBody.isEmpty then email.HTMLBody
             else email.Body) ++ CRLF =
          renderLines (qs ++ [(strBytes "Content-Type",
              strBytes "text/html; charset=\"UTF-8\"")]) ++
            (CRLF ++ ((if email.Body.isEmpty && !email.HTMLBody.isEmpty
              then email.HTMLBody else email.Body) ++ CRLF)) := by
        rw [renderLines_append, hline]
        have hone : renderLines [(strBytes "Content-Type",
            strBytes "text/html; charset=\"UTF-8\"")] =
            renderLine (strBytes "Content-Type")
              (strBytes "text/html; charset=\"UTF-8\"") := by
          simp [renderLines]
        rw [hone]
        simp [List.append_assoc]
      rw [hshape]
      apply hasHeader_false_message _ _ _ (by decide) (by decide)
      · intro p hp
        rcases List.mem_append.1 hp with hp | hp
        · exact hmemqs p hp
        · simp only [List.mem_singleton] at hp
          subst hp
          exact ⟨⟨(by decide : (10 : Byte) ∉ strBytes "Content-Type"),
              (by decide : (10 : Byte) ∉ strBytes "text/html; charset=\"UTF-8\"")⟩,
            (by decide : ciPref (List.take (strBytes "Content-Type" ++ [58, 32]).length
              (strBytes "Content-Transfer-Encoding"))
              (strBytes "Content-Type" ++ [58, 32]) = false)⟩
      · simp
  · rw [if_pos rfl]
    have hne : qs ≠ [] := by
      intro hnil
      rw [hnil] at hCT
      exact absurd hCT (by decide)
    have hshape : renderLines qs ++ [] ++ CRLF ++
          (if email.Body.isEmpty && !email.HTMLBody.isEmpty then email.HTMLBody
           else email.Body) ++ CRLF =
        renderLines qs ++ (CRLF ++ ((if email.Body.isEmpty && !email.HTMLBody.isEmpty
          then email.HTMLBody else email.Body) ++ CRLF)) := by
      simp [List.append_assoc]
    rw [hshape]
    exact hasHeader_false_message _ qs _ (by decide) (by decide) hmemqs hne

theorem buildMessage_dual_shape (now rand16 b1 b2 : List Byte) (email : Email)
    (hatt : email.Attachments = [])
    (hb : email.Body ≠ []) (hh : email.HTMLBody ≠ []) :
    BuildMessage now rand16 b1 b2 [] email =
      writeHeaderIf (buildHeaderBlock now rand16 [] email) (strBytes "Content-Type")
          (strBytes "multipart/alternative; boundary=" ++ b1) ++
        CRLF ++
        (strBytes "--" ++ b1 ++ CRLF ++
          (strBytes "Content-Transfer-Encoding" ++ strBytes ": " ++
            strBytes "base64" ++ CRLF) ++
          (strBytes "Content-Type" ++ strBytes ": " ++
            strBytes "text/plain; charset=\"UTF-8\"" ++ CRLF) ++ CRLF ++
          base64Encode email.Body) ++
        (CRLF ++ strBytes "--" ++ b1 ++ CRLF ++
          (strBytes "Content-Transfer-Encoding" ++ strBytes ": " ++
            strBytes "base64" ++ CRLF) ++
          (strBytes "Content-Type" ++ strBytes ": " ++
            strBytes "text/html; charset=\"UTF-8\"" ++ CRLF) ++ CRLF ++
          base64Encode email.HTMLBody) ++
        CRLF ++ strBytes "--" ++ b1 ++ strBytes "--" ++ CRLF ++ CRLF := by
  show buildBodyPart b1 b2 email (buildHeaderBlock now rand16 [] email) = _
  generalize buildHeaderBlock now rand16 [] email = B
  unfold buildBodyPart
  dsimp only
  have hA : email.Attachments.isEmpty = true := by rw [hatt]; rfl
  have hB : email.Body.isEmpty = false := by
    cases hx : email.Body
    · exact absurd hx hb
    · rfl
  have hH : email.HTMLBody.isEmpty = false := by
    cases hx : email.HTMLBody
    · exact absurd hx hh
    · rfl
  rw [if_neg (by rw [hA, hB, hH]; simp)]
  rw [hA, hB, hH, hatt]
  simp only [Bool.not_true, Bool.not_false, Bool.and_self, Bool.false_and,
    if_true, if_false, List.map_nil, List.flatten_nil]
  simp [altBodySection, mwPartHeader, List.append_assoc]

/-- C2 (amended): for every Email with no attachments, BuildMessage chooses
the body shape as follows.  If not both Body and HTMLBody are non-empty, it
emits a single-part message: the Content-Type header line (written only when
the header buffer has no Content-Type yet) is text/html exactly when Body is
empty with a non-empty HTMLBody or when Body is HTML-detected — not when the
chosen body is HTML-detected — and the chosen body bytes follow two CRLFs
verbatim, without base64; the message carries no Content-Transfer-Encoding
header (given LF-free rendered header values).  If both bodies are
non-empty, the message is multipart/alternative with exactly two sub-parts,
text/plain first then text/html, each with a Content-Transfer-Encoding:
base64 header and base64-encoded content. -/
theorem C2_body_shape :
    (∀ now rand16 b1 b2 : List Byte, ∀ email : Email,
      email.Attachments = [] → (email.Body = [] ∨ email.HTMLBody = []) →
      BuildMessage now rand16 b1 b2 [] email =
        buildHeaderBlock now rand16 [] email ++
          (if HasHeader (buildHeaderBlock now rand16 [] email)
              (strBytes "Content-Type") then ([] : List Byte)
           else
             (if (email.Body.isEmpty && !email.HTMLBody.isEmpty) || IsHTML email.Body
              then strBytes "Content-Type: text/html; charset=\"UTF-8\""
              else strBytes "Content-Type: text/plain; charset=\"UTF-8\"") ++ CRLF) ++
          CRLF ++
          (if email.Body.isEmpty && !email.HTMLBody.isEmpty then email.HTMLBody
           else email.Body) ++ CRLF) ∧
    (∀ now rand16 b1 b2 : List Byte, ∀ email : Email,
      email.Attachments = [] → (email.Body = [] ∨ email.HTMLBody = []) →
      (10 : Byte) ∉ fromAddrOf email →
      (10 : Byte) ∉ formatAddresses email.To →
      (10 : Byte) ∉ formatAddresses email.Cc →
      (10 : Byte) ∉ formatAddresses [email.ReplyTo] →
      (10 : Byte) ∉ encodeHeader email.Subject →
      (10 : Byte) ∉ now →
      (10 : Byte) ∉ generateMessageID email.From rand16 →
      HasHeader (BuildMessage now rand16 b1 b2 [] email)
        (strBytes "Content-Transfer-Encoding") = false) ∧
    (∀ now rand16 b1 b2 : List Byte, ∀ email : Email,
      email.Attachments = [] → email.Body ≠ [] → email.HTMLBody ≠ [] →
      BuildMessage now rand16 b1 b2 [] email =
        writeHeaderIf (buildHeaderBlock now rand16 [] email) (strBytes "Content-Type")
            (strBytes "multipart/alternative; boundary=" ++ b1) ++
          CRLF ++
          (strBytes "--" ++ b1 ++ CRLF ++
            (strBytes "Content-Transfer-Encoding" ++ strBytes ": " ++
              strBytes "base64" ++ CRLF) ++
            (strBytes "Content-Type" ++ strBytes ": " ++
              strBytes "text/plain; charset=\"UTF-8\"" ++ CRLF) ++ CRLF ++
            base64Encode email.Body) ++
          (CRLF ++ strBytes "--" ++ b1 ++ CRLF ++
            (strBytes "Content-Transfer-Encoding" ++ strBytes ": " ++
              strBytes "base64" ++ CRLF) ++
            (strBytes "Content-Type" ++ strBytes ": " ++
              strBytes "text/html; charset=\"UTF-8\"" ++ CRLF) ++ CRLF ++
            base64Encode email.HTMLBody) ++
          CRLF ++ strBytes "--" ++ b1 ++ strBytes "--" ++ CRLF ++ CRLF) :=
  ⟨fun now rand16 b1 b2 email hatt hs =>
      buildMessage_single_shape now rand16 b1 b2 email hatt hs,
   fun now rand16 b1 b2 email hatt hs hf ht hc hr hsj hn hm =>
      buildMessage_single_no_cte now rand16 b1 b2 email hatt hs hf ht hc hr hsj hn hm,
   fun now rand16 b1 b2 email hatt hb hh =>
      buildMessage_dual_shape now rand16 b1 b2 email hatt hb hh⟩

/-- A plain-text-only email for the C2 witness. -/
def c2SingleEmail : Email :=
  { From := strBytes "a@b.co", To := [strBytes "r@b.co"],
    Subject := strBytes "S", Body := strBytes "hello" }

/-- A dual-body email for the C2 witness. -/
def c2DualEmail : Email :=
  { From := strBytes "a@b.co", Body := strBytes "t",
    HTMLBody := strBytes "<p>h</p>" }

set_option maxRecDepth 20000 in
theorem C2_body_shape_witness :
    (BuildMessage (strBytes "D") [1] (strBytes "X") (strBytes "Y") [] c2SingleEmail =
      buildHeaderBlock (strBytes "D") [1] [] c2SingleEmail ++
        (if HasHeader (buildHeaderBlock (strBytes "D") [1] [] c2SingleEmail)
            (strBytes "Content-Type") then ([] : List Byte)
         else
           (if (c2SingleEmail.Body.isEmpty && !c2SingleEmail.HTMLBody.isEmpty) ||
                IsHTML c2SingleEmail.Body
            then strBytes "Content-Type: text/html; charset=\"UTF-8\""
            else strBytes "Content-Type: text/plain; charset=\"UTF-8\"") ++ CRLF) ++
        CRLF ++
        (if c2SingleEmail.Body.isEmpty && !c2SingleEmail.HTMLBody.isEmpty
         then c2SingleEmail.HTMLBody else c2SingleEmail.Body) ++ CRLF) ∧
    HasHeader (BuildMessage (strBytes "D") [1] (strBytes "X") (strBytes "Y") [] c2SingleEmail)
      (strBytes "Content-Transfer-Encoding") = false ∧
    BuildMessage (strBytes "D") [1] (strBytes "X") (strBytes "Y") [] c2DualEmail =
      writeHeaderIf (buildHeaderBlock (strBytes "D") [1] [] c2DualEmail)
          (strBytes "Content-Type")
          (strBytes "multipart/alternative; boundary=" ++ strBytes "X") ++
        CRLF ++
        (strBytes "--" ++ strBytes "X" ++ CRLF ++
          (strBytes "Content-Transfer-Encoding" ++ strBytes ": " ++
            strBytes "base64" ++ CRLF) ++
          (strBytes "Content-Type" ++ strBytes ": " ++
            strBytes "text/plain; charset=\"UTF-8\"" ++ CRLF) ++ CRLF ++
          base64Encode c2DualEmail.Body) ++
        (CRLF ++ strBytes "--" ++ strBytes "X" ++ CRLF ++
          (strBytes "Content-Transfer-Encoding" ++ strBytes ": " ++
            strBytes "base64" ++ CRLF) ++
          (strBytes "Content-Type" ++ strBytes ": " ++
            strBytes "text/html; charset=\"UTF-8\"" ++ CRLF) ++ CRLF ++
          base64Encode c2DualEmail.HTMLBody) ++
        CRLF ++ strBytes "--" ++ strBytes "X" ++ strBytes "--" ++ CRLF ++ CRLF :=
  ⟨C2_body_shape.1 (strBytes "D") [1] (strBytes "X") (strBytes "Y") c2SingleEmail
      rfl (Or.inr rfl),
   C2_body_shape.2.1 (strBytes "D") [1] (strBytes "X") (strBytes "Y") c2SingleEmail
      rfl (Or.inr rfl) (by decide) (by decide) (by decide) (by decide) (by decide)
      (by decide) (by decide),
   C2_body_shape.2.2 (strBytes "D") [1] (strBytes "X") (strBytes "Y") c2DualEmail
      rfl (by decide) (by decide)⟩

/-! ## The raw-email parser (utils.go ParseRawEmail) and its stdlib models -/

/-- net/mail ReadMessage on top of the textproto header reader: the parsed
header block and the body.  `none` is a read error.  (net/mail's own header
loop agrees with textproto's on every input whose keys are valid header
tokens with a colon; an end of input with at least one parsed header is
tolerated the way ReadMessage tolerates io.EOF there.) -/
def readMessage (raw : List Byte) :
    Option (List (List Byte × List Byte) × List Byte) :=
  match readMIMEHeader raw with
  | (hs, rest, .clean) => some (hs, rest)
  | (hs, rest, .eof) => if hs.isEmpty then none else some (hs, rest)
  | (_, _, .proto) => none

/-- utils.go `parseAddressList`: split on commas, trim each piece. -/
def parseAddressList (s : List Byte) : List (List Byte) :=
  (List.splitOn 44 s).map trimSpace

/-- Hex digit value, upper or lower (mime readHexByte). -/
def hexVal (c : Byte) : Option Nat :=
  if 48 ≤ c && c ≤ 57 then some (c - 48)
  else if 65 ≤ c && c ≤ 70 then some (c - 55)
  else if 97 ≤ c && c ≤ 102 then some (c - 87)
  else none

/-- mime qDecode: underscore to space, =XX hex pairs, everything else
verbatim; `none` on a malformed hex escape. -/
def qDecodeAux : Nat → List Byte → Option (List Byte)
  | 0, _ => none
  | _, [] => some []
  | fuel + 1, c :: rest =>
    if c == 95 then (qDecodeAux fuel rest).map (32 :: ·)
    else if c == 61 then
      match rest with
      | h1 :: h2 :: rest2 =>
        match hexVal h1, hexVal h2 with
        | some a, some b => (qDecodeAux fuel rest2).map ((16 * a + b) :: ·)
        | _, _ => none
      | _ => none
    else (qDecodeAux fuel rest).map (c :: ·)

/-- mime qDecode entry point. -/
def qDecode (s : List Byte) : Option (List Byte) := qDecodeAux (s.length + 1) s

/-- Value of one base64 alphabet symbol. -/
def b64Val (c : Byte) : Option Nat :=
  if 65 ≤ c && c ≤ 90 then some (c - 65)
  else if 97 ≤ c && c ≤ 122 then some (c - 71)
  else if 48 ≤ c && c ≤ 57 then some (c + 4)
  else if c == 43 then some 62
  else if c == 47 then some 63
  else none

/-- Go base64 StdEncoding DecodeString on whole groups of four symbols, with
padding only in a final group (trailing-bit checks of the strict encoder are
not performed, as in the std encoding). -/
def b64DecodeAux : List Byte → Option (List Byte)
  | [] => some []
  | a :: b :: c :: d :: rest =>
    match b64Val a, b64Val b with
    | some va, some vb =>
      if c == 61 && d == 61 && rest.isEmpty then some [va * 4 + vb / 16]
      else if d == 61 && rest.isEmpty then
        match b64Val c with
        | some vc => some [va * 4 + vb / 16, vb % 16 * 16 + vc / 4]
        | none => none
      else
        match b64Val c, b64Val d with
        | some vc, some vd =>
          (b64DecodeAux rest).map
            (fun tl => (va * 4 + vb / 16) :: (vb % 16 * 16 + vc / 4) ::
              (vc % 4 * 64 + vd) :: tl)
        | _, _ => none
    | _, _ => none
  | _ => none

/-- Go base64 NewDecoder + io.ReadAll as decodePart uses them: newline bytes
are skipped, then whole groups are decoded; the flag is false on corrupt or
truncated input (Go then returns the error with the bytes decoded so far;
that partial prefix is not observed by any caller in this development). -/
def base64DecodeStream (s : List Byte) : List Byte × Bool :=
  match b64DecodeAux (s.filter fun c => c != 13 && c != 10) with
  | some out => (out, true)
  | none => ([], false)

/-- quotedprintable Reader + io.ReadAll: =XX escapes, soft line breaks =CRLF
and =LF, other bytes verbatim; false on a malformed escape.  (The reader's
trailing-white-space trimming and strictness checks beyond escapes are not
modelled; no quoted-printable body occurs in this development.) -/
def qpDecodeAux : Nat → List Byte → Option (List Byte)
  | 0, _ => none
  | _, [] => some []
  | fuel + 1, c :: rest =>
    if c == 61 then
      match rest with
      | 13 :: 10 :: rest2 => qpDecodeAux fuel rest2
      | 10 :: rest2 => qpDecodeAux fuel rest2
      | h1 :: h2 :: rest2 =>
        match hexVal h1, hexVal h2 with
        | some a, some b => (qpDecodeAux fuel rest2).map ((16 * a + b) :: ·)
        | _, _ => none
      | _ => none
    else (qpDecodeAux fuel rest).map (c :: ·)

/-- utils.go `decodePart`: base64 or quoted-printable decoding selected by
the lowered transfer-encoding value, identity otherwise; the flag mirrors the
error result. -/
def decodePart (body : List Byte) (encoding : List Byte) : List Byte × Bool :=
  let e := toLowerB encoding
  if e == strBytes "base64" then base64DecodeStream body
  else if e == strBytes "quoted-printable" then
    match qpDecodeAux (body.length + 1) body with
    | some out => (out, true)
    | none => ([], false)
  else (body, true)

/-- mime WordDecoder charset conversion: UTF-8 verbatim, ISO-8859-1 widened
to UTF-8, US-ASCII with high bytes replaced by the replacement character;
any other charset is an error (no CharsetReader is installed). -/
def convertCharset (cs content : List Byte) : Option (List Byte) :=
  let l := toLowerB cs
  if l == strBytes "utf-8" then some content
  else if l == strBytes "iso-8859-1" then
    some (content.flatMap fun b =>
      if b < 128 then [b] else [192 + b / 64, 128 + b % 64])
  else if l == strBytes "us-ascii" then
    some (content.flatMap fun b =>
      if b < 128 then [b] else [239, 191, 189])
  else none

/-- mime decode: one encoded word's text by its B or Q encoding letter. -/
def decodeWord (enc : Byte) (text : List Byte) : Option (List Byte) :=
  if enc == 66 || enc == 98 then b64DecodeAux text
  else if enc == 81 || enc == 113 then qDecode text
  else none

/-- The scan loop of mime WordDecoder.DecodeHeader: find "=?", parse
charset, encoding letter and text up to "?=", decode; a word that fails to
decode is kept literally, white space between adjacent encoded words is
dropped, and a charset-conversion failure aborts with an error (`none`). -/
def decodeHeaderAux : Nat → List Byte → Bool → List Byte → Option (List Byte)
  | 0, _, _, _ => none
  | fuel + 1, header, betweenWords, buf =>
    match bytesIndex header (strBytes "=?") with
    | none => some (buf ++ header)
    | some start =>
      let cur := start + 2
      match bytesIndex (header.drop cur) [63] with
      | none => some (buf ++ header)
      | some i =>
        let charset := (header.drop cur).take i
        let cur := cur + i + 1
        if header.length < cur + 4 then some (buf ++ header)
        else
          let encoding := header.getD cur 0
          let cur := cur + 1
          if header.getD cur 0 != 63 then some (buf ++ header)
          else
            let cur := cur + 1
            match bytesIndex (header.drop cur) (strBytes "?=") with
            | none => some (buf ++ header)
            | some j =>
              let text := (header.drop cur).take j
              let endPos := cur + j + 2
              match decodeWord encoding text with
              | none =>
                decodeHeaderAux fuel (header.drop (start + 2)) false
                  (buf ++ header.take (start + 2))
              | some content =>
                match convertCharset charset content with
                | none => none
                | some conv =>
                  let pre :=
                    if 0 < start &&
                        (!betweenWords ||
                          (header.take start).any fun c =>
                            !(c == 32 || c == 9 || c == 10 || c == 13)) then
                      header.take start
                    else []
                  decodeHeaderAux fuel (header.drop endPos) true
                    (buf ++ pre ++ conv)

/-- mime WordDecoder.DecodeHeader as ParseRawEmail uses it (the error result
is discarded there, leaving the empty string). -/
def decodeHeader (header : List Byte) : List Byte :=
  match bytesIndex header (strBytes "=?") with
  | none => header
  | some _ => (decodeHeaderAux (header.length + 1) header false []).getD []

/-- mime tspecials. -/
def isTSpecial (c : Byte) : Bool :=
  c == 40 || c == 41 || c == 60 || c == 62 || c == 64 || c == 44 || c == 59 ||
  c == 58 || c == 92 || c == 34 || c == 47 || c == 91 || c == 93 || c == 63 ||
  c == 61

/-- mime isTokenChar. -/
def isTokenCharB (c : Byte) : Bool := 32 < c && c < 127 && !isTSpecial c

/-- mime consumeToken: longest token run and the rest. -/
def consumeToken (s : List Byte) : List Byte × List Byte :=
  (s.takeWhile isTokenCharB, s.dropWhile isTokenCharB)

/-- The quoted-string loop of mime consumeValue: backslash escapes only
tspecials, bare CR or LF fails, a missing close quote fails. -/
def consumeQuotedValueAux : Nat → List Byte → List Byte →
    Option (List Byte × List Byte)
  | 0, _, _ => none
  | _, [], _ => none
  | fuel + 1, c :: rest, acc =>
    if c == 34 then some (acc, rest)
    else if c == 92 then
      match rest with
      | d :: rest2 =>
        if isTSpecial d then consumeQuotedValueAux fuel rest2 (acc ++ [d])
        else consumeQuotedValueAux fuel rest (acc ++ [c])
      | [] => consumeQuotedValueAux fuel [] (acc ++ [c])
    else if c == 13 || c == 10 then none
    else consumeQuotedValueAux fuel rest (acc ++ [c])

/-- mime consumeValue: a token, or a double-quoted string. -/
def consumeValue (s : List Byte) : Option (List Byte × List Byte) :=
  match s with
  | 34 :: rest => consumeQuotedValueAux (rest.length + 1) rest []
  | _ =>
    let r := consumeToken s
    if r.1.isEmpty then none else some r

/-- mime consumeMediaParam: semicolon, token key (lowered), equals sign,
value; `none` models the ("", "", v) failure return. -/
def consumeMediaParam (v : List Byte) : Option (List Byte × List Byte × List Byte) :=
  let rest := v.dropWhile isSpaceB
  match rest with
  | 59 :: rest1 =>
    let rest2 := rest1.dropWhile isSpaceB
    let r := consumeToken rest2
    if r.1.isEmpty then none
    else
      let param := toLowerB r.1
      let rest3 := r.2.dropWhile isSpaceB
      match rest3 with
      | 61 :: rest4 =>
        let rest5 := rest4.dropWhile isSpaceB
        match consumeValue rest5 with
        | some (value, rest6) => some (param, value, rest6)
        | none => none
      | _ => none
  | _ => none

/-- mime checkMediaTypeDisposition: a bare token, or token slash token. -/
def checkMediaTypeDisposition (s : List Byte) : Bool :=
  let r := consumeToken s
  if r.1.isEmpty then false
  else
    match r.2 with
    | [] => true
    | 47 :: rest2 =>
      let r2 := consumeToken rest2
      !r2.1.isEmpty && r2.2.isEmpty
    | _ => false

/-- The parameter loop of mime ParseMediaType; `none` models the parameter
and duplicate-name errors (RFC 2231 continuation keys are not modelled; no
starred parameter occurs in this development). -/
def parseParamsAux : Nat → List Byte → List (List Byte × List Byte) →
    Option (List (List Byte × List Byte))
  | 0, _, _ => none
  | fuel + 1, v, acc =>
    let v1 := v.dropWhile isSpaceB
    if v1.isEmpty then some acc
    else
      match consumeMediaParam v1 with
      | none => if trimSpace v1 == [59] then some acc else none
      | some (key, value, rest) =>
        match acc.find? (fun p => p.1 == key) with
        | some p => if p.2 == value then parseParamsAux fuel rest acc else none
        | none => parseParamsAux fuel rest (acc ++ [(key, value)])

/-- mime ParseMediaType: lowered trimmed type up to the first semicolon,
then parameters; the flag is the absence of an error (an invalid type yields
an empty type, an invalid parameter keeps the type, both with the flag
false, mirroring what the callers observe). -/
def parseMediaType (v : List Byte) :
    (List Byte × List (List Byte × List Byte)) × Bool :=
  let base := v.takeWhile (fun c => c != 59)
  let mediatype := toLowerB (trimSpace base)
  if !checkMediaTypeDisposition mediatype then (([], []), false)
  else
    match parseParamsAux (v.length + 1) (v.drop base.length) [] with
    | some params => ((mediatype, params), true)
    | none => ((mediatype, []), false)

/-- Parameter lookup (Go map indexing with the zero value as default). -/
def paramGet (params : List (List Byte × List Byte)) (key : List Byte) : List Byte :=
  match params.find? (fun p => p.1 == key) with
  | some p => p.2
  | none => []

/-- Go strings.Trim(s, "<>"): strip angle brackets from both ends. -/
def trimAngles (s : List Byte) : List Byte :=
  let isAngle := fun (c : Byte) => c == 60 || c == 62
  ((s.dropWhile isAngle).reverse.dropWhile isAngle).reverse

/-- A multipart boundary line (mime/multipart isBoundaryDelimiterLine, on a
line without its LF): dash dash boundary, then transport padding. -/
def mpIsBoundary (bd line : List Byte) : Bool :=
  ((dropTrailCR line).reverse.dropWhile isST).reverse == strBytes "--" ++ bd

/-- The final boundary line (isFinalBoundary): dash dash boundary dash dash
and padding. -/
def mpIsClose (bd line : List Byte) : Bool :=
  ((dropTrailCR line).reverse.dropWhile isST).reverse ==
    strBytes "--" ++ bd ++ strBytes "--"

/-- Strip the line terminator that belongs to the following boundary
delimiter. -/
def dropTrailNL (l : List Byte) : List Byte :=
  if l.getLast? == some 10 then dropTrailCR l.dropLast else l

/-- Collect one part's raw bytes up to the next boundary line: the body, the
rest after the boundary, and whether that boundary was the final one.
`none` is an unexpected end of input. -/
def mpCollect (bd : List Byte) : Nat → List Byte → List Byte →
    Option (List Byte × List Byte × Bool)
  | 0, _, _ => none
  | fuel + 1, b, acc =>
    if b.isEmpty then none
    else
      let r := takeLine b
      if mpIsClose bd r.1 then some (dropTrailNL acc, r.2.1, true)
      else if mpIsBoundary bd r.1 then some (dropTrailNL acc, r.2.1, false)
      else mpCollect bd fuel r.2.1 (acc ++ r.1 ++ if r.2.2 then [10] else [])

/-- Skip the multipart preamble up to the first boundary line: `some (some
rest)` positions after it, `some none` is a final boundary (no parts),
`none` an unexpected end. -/
def mpSkipPreamble (bd : List Byte) : Nat → List Byte → Option (Option (List Byte))
  | 0, _ => none
  | fuel + 1, b =>
    if b.isEmpty then none
    else
      let r := takeLine b
      if mpIsClose bd r.1 then some none
      else if mpIsBoundary bd r.1 then some (some r.2.1)
      else if r.2.2 then mpSkipPreamble bd fuel r.2.1 else none

/-- The part loop of mime/multipart Reader.NextPart after a boundary: part
headers through the textproto reader, then the body up to the next
boundary. -/
def mpPartsAux (bd : List Byte) : Nat → List Byte →
    List (List (List Byte × List Byte) × List Byte) →
    Option (List (List (List Byte × List Byte) × List Byte))
  | 0, _, _ => none
  | fuel + 1, b, acc =>
    match readMIMEHeader b with
    | (hs, rest, .clean) =>
      match mpCollect bd (rest.length + 1) rest [] with
      | some (body, rest2, closed) =>
        if closed then some (acc ++ [(hs, body)])
        else mpPartsAux bd fuel rest2 (acc ++ [(hs, body)])
      | none => none
    | _ => none

/-- mime/multipart Reader over a whole body: the parts as header-list and
raw-body pairs; `none` on the reader errors (empty boundary, unexpected end
of input, malformed part headers). -/
def multipartParts (bd : List Byte) (b : List Byte) :
    Option (List (List (List Byte × List Byte) × List Byte)) :=
  if bd.isEmpty then none
  else
    match mpSkipPreamble bd (b.length + 1) b with
    | some none => some []
    | some (some rest) => mpPartsAux bd (rest.length + 1) rest []
    | none => none

/-- utils.go `processPart` on one parsed part (its multipart recursion is
handled by the caller through `parseMultipartRec`). -/
def processPartFlat (email : Email) (hs : List (List Byte × List Byte))
    (rawBody : List Byte) : Option Email :=
  let contentType := headerGet hs (strBytes "Content-Type")
  let mp := parseMediaType contentType
  let mediaType := mp.1.1
  let dispP := parseMediaType (headerGet hs (strBytes "Content-Disposition"))
  let disposition := dispP.1.1
  let dispParams := dispP.1.2
  let contentID := trimAngles (headerGet hs (strBytes "Content-ID"))
  let dp := decodePart rawBody (headerGet hs (strBytes "Content-Transfer-Encoding"))
  if !dp.2 then none
  else
    let data := dp.1
    let filename := paramGet dispParams (strBytes "filename")
    let isAttachment := disposition == strBytes "attachment" ||
      disposition == strBytes "inline" || !filename.isEmpty
    if isAttachment then
      let fn := if filename.isEmpty then strBytes "attachment" else filename
      some { email with Attachments := email.Attachments ++
        [{ Filename := fn, ContentType := contentType,
           ContentID := contentID, Data := data }] }
    else if mediaType == strBytes "text/plain" then
      some { email with Body := data }
    else if mediaType == strBytes "text/html" then
      some { email with HTMLBody := data }
    else
      some { email with Attachments := email.Attachments ++
        [{ Filename := filename, ContentType := contentType,
           ContentID := contentID, Data := data }] }

/-- utils.go `parseMultipart`/`processPart` recursion, on a nesting-depth
fuel: parse the parts under the boundary and fold them into the email,
recursing into nested multipart parts.  `none` is any reader, decode or
depth error (utils.go then returns the error; the partially updated email it
leaves behind is not observed by this development). -/
def parseMultipartRec : Nat → Email → List Byte → List Byte → Option Email
  | 0, _, _, _ => none
  | depth + 1, email, bd, b =>
    match multipartParts bd b with
    | none => none
    | some parts =>
      parts.foldlM
        (fun e part =>
          let mp := parseMediaType (headerGet part.1 (strBytes "Content-Type"))
          if hasPrefixB mp.1.1 (strBytes "multipart/") then
            parseMultipartRec depth e (paramGet mp.1.2 (strBytes "boundary")) part.2
          else processPartFlat e part.1 part.2)
        email

/-- utils.go `ParseRawEmail`: read the message, decode the subject, collect
the address headers, then fall back to the raw body on a media-type error,
walk the parts of a multipart body, or decode a single-part body by its
transfer encoding.  The Bool is the absence of an error. -/
def ParseRawEmail (raw : List Byte) : Email × Bool :=
  match readMessage raw with
  | none => ({}, false)
  | some (hs, body) =>
    let subject := decodeHeader (headerGet hs (strBytes "Subject"))
    let email0 : Email :=
      { From := headerGet hs (strBytes "From"), Subject := subject,
        ReplyTo := headerGet hs (strBytes "Reply-To") }
    let toV := headerGet hs (strBytes "To")
    let email1 := if !toV.isEmpty then
        { email0 with To := parseAddressList toV } else email0
    let ccV := headerGet hs (strBytes "Cc")
    let email2 := if !ccV.isEmpty then
        { email1 with Cc := parseAddressList ccV } else email1
    let ct0 := headerGet hs (strBytes "Content-Type")
    let contentType := if ct0.isEmpty then strBytes "text/plain" else ct0
    let pm := parseMediaType contentType
    if !pm.2 then ({ email2 with Body := body }, true)
    else if hasPrefixB pm.1.1 (strBytes "multipart/") then
      match parseMultipartRec 64 email2 (paramGet pm.1.2 (strBytes "boundary")) body with
      | some e => (e, true)
      | none => (email2, false)
    else
      let dp := decodePart body (headerGet hs (strBytes "Content-Transfer-Encoding"))
      ({ email2 with Body := dp.1 }, dp.2)


/-- The email of the C1 counterexample: exactly the claim's restricted class
(a From, one To, a Subject, a plain-text Body, nothing else). -/
def c1Email : Email :=
  { From := strBytes "sender@example.com", To := [strBytes "receiver@example.com"],
    Subject := strBytes "Test", Body := strBytes "Hello" }

/-- The counterexample's built message. -/
def c1Raw : List Byte :=
  BuildMessage (strBytes "Mon, 02 Jan 2006 15:04:05 -0700") [1, 2, 3]
    (strBytes "BND1") (strBytes "BND2") [] c1Email

set_option maxRecDepth 40000 in
/-- C1 counterexample: for the in-class email with From
"sender@example.com", one To, Subject "Test" and Body "Hello", the round
trip succeeds but returns From "<sender@example.com>" (the re-rendered
address, not the original string), a To entry "<receiver@example.com>"
likewise, and Body "Hello\r\n" (the builder's trailing CRLF), refuting the
claimed equalities; further, a subject that looks like an encoded word is
rewritten by the decoder, and a quoted display name holding a comma makes
the parsed To list split in two. -/
theorem C1_roundtrip_counterexample :
    (ParseRawEmail c1Raw).2 = true ∧
    (ParseRawEmail c1Raw).1.From = strBytes "<sender@example.com>" ∧
    (ParseRawEmail c1Raw).1.From ≠ c1Email.From ∧
    (ParseRawEmail c1Raw).1.To = [strBytes "<receiver@example.com>"] ∧
    (ParseRawEmail c1Raw).1.To ≠ c1Email.To ∧
    (ParseRawEmail c1Raw).1.Body = c1Email.Body ++ CRLF ∧
    (ParseRawEmail c1Raw).1.Body ≠ c1Email.Body ∧
    (ParseRawEmail c1Raw).1.Subject = c1Email.Subject ∧
    decodeHeader (strBytes "=?UTF-8?q?Hi?=") = strBytes "Hi" ∧
    (parseAddressList (formatAddresses [strBytes "\"Doe, John\" <j@d.com>"])).length = 2 := by
  refine ⟨by decide, by decide, by decide, by decide, by decide, by decide,
    by decide, by decide, by decide, by decide⟩

theorem HasHeader_false_of_pairs (key : List Byte)
    (ps : List (List Byte × List Byte)) (hkey : key ≠ [])
    (hk0 : ciEqB (key.getD 0 0) 13 = false)
    (hps : ∀ p ∈ ps, ((10 : Byte) ∉ p.1 ∧ (10 : Byte) ∉ p.2) ∧
      ciPref (key.take (p.1 ++ [58, 32]).length) (p.1 ++ [58, 32]) = false) :
    HasHeader (renderLines ps) key = false := by
  have happ : renderLines ps = renderLines ps ++ [] := (List.append_nil _).symm
  rw [happ]
  apply HasHeader_false_of_block key ps [] hkey hk0 (Or.inl rfl) hps
  have hb := headerEndOf_le (renderLines ps ++ [])
  simp only [List.length_append, List.length_nil] at hb
  omega

theorem writeHeaderIf_appends (buf k v : List Byte) (hv : v ≠ [])
    (hnh : HasHeader buf k = false) :
    writeHeaderIf buf k v = buf ++ renderLine k v := by
  unfold writeHeaderIf
  rw [if_pos]
  · simp [renderLine, List.append_assoc]
  · have hie : v.isEmpty = false := by
      cases hx : v
      · exact absurd hx hv
      · rfl
    rw [hie, hnh]
    rfl

theorem renderLines_one (p : List Byte × List Byte) :
    renderLines [p] = renderLine p.1 p.2 := by
  show renderLine p.1 p.2 ++ renderLines [] = _
  rw [show renderLines ([] : List (List Byte × List Byte)) = [] from rfl,
    List.append_nil]

/-- The exact header block BuildMessage writes into an empty buffer for the
round-trip class: one To, no Cc, no Reply-To, non-empty rendered From, To,
Subject and Date values. -/
theorem buildHeaderBlock_exact (now rand16 : List Byte) (email : Email)
    (t : List Byte) (hTo : email.To = [t]) (hCc : email.Cc = [])
    (hRT : email.ReplyTo = [])
    (hF10 : (10 : Byte) ∉ fromAddrOf email) (hFne : fromAddrOf email ≠ [])
    (hT10 : (10 : Byte) ∉ formatAddresses email.To)
    (hTne : formatAddresses email.To ≠ [])
    (hS10 : (10 : Byte) ∉ encodeHeader email.Subject)
    (hSne : encodeHeader email.Subject ≠ [])
    (hN10 : (10 : Byte) ∉ now) (hNne : now ≠ [])
    (_hM10 : (10 : Byte) ∉ generateMessageID email.From rand16) :
    buildHeaderBlock now rand16 [] email = renderLines
      [(strBytes "From", fromAddrOf email),
        (strBytes "To", formatAddresses email.To),
        (strBytes "Subject", encodeHeader email.Subject),
        (strBytes "MIME-Version", strBytes "1.0"),
        (strBytes "Date", now),
        (strBytes "Message-ID", generateMessageID email.From rand16)] := by
  have hMne : generateMessageID email.From rand16 ≠ [] := by
    unfold generateMessageID
    intro h
    exact absurd h (by simp)
  have hh1 : HasHeader (renderLines
      [(strBytes "From", fromAddrOf email)]) (strBytes "To") = false := by
    apply HasHeader_false_of_pairs _ _ (by decide) (by decide)
    intro p hp
    simp only [List.mem_cons, List.not_mem_nil, or_false] at hp
    subst hp
    exact ⟨⟨(by decide : (10 : Byte) ∉ strBytes "From"), hF10⟩,
      (by decide : ciPref (List.take (strBytes "From" ++ [58, 32]).length
        (strBytes "To")) (strBytes "From" ++ [58, 32]) = false)⟩
  have l1 : writeHeaderIf [] (strBytes "From") (fromAddrOf email) =
      renderLines [(strBytes "From", fromAddrOf email)] := by
    rw [writeHeaderIf_appends [] _ _ hFne (by decide), List.nil_append,
      renderLines_one]
  have l2 : bhTo email (renderLines [(strBytes "From", fromAddrOf email)]) =
      renderLines [(strBytes "From", fromAddrOf email),
        (strBytes "To", formatAddresses email.To)] := by
    unfold bhTo
    rw [if_pos]
    · rw [writeHeaderIf_appends _ _ _ hTne hh1,
        ← renderLines_one (strBytes "To", formatAddresses email.To),
        ← renderLines_append]
      rfl
    · rw [hh1, hTo]
      rfl
  have l3 : bhCc email (renderLines [(strBytes "From", fromAddrOf email),
        (strBytes "To", formatAddresses email.To)]) = renderLines [(strBytes "From", fromAddrOf email),
        (strBytes "To", formatAddresses email.To)] := by
    unfold bhCc
    rw [hCc]
    rfl
  have l4 : bhReplyTo email (renderLines [(strBytes "From", fromAddrOf email),
        (strBytes "To", formatAddresses email.To)]) = renderLines [(strBytes "From", fromAddrOf email),
        (strBytes "To", formatAddresses email.To)] := by
    unfold bhReplyTo
    rw [hRT]
    rfl
  have hh2 : HasHeader (renderLines
      [(strBytes "From", fromAddrOf email),
        (strBytes "To", formatAddresses email.To)]) (strBytes "Subject") = false := by
    apply HasHeader_false_of_pairs _ _ (by decide) (by decide)
    intro p hp
    simp only [List.mem_cons, List.not_mem_nil, or_false] at hp
    rcases hp with hp | hp
    · subst hp
      exact ⟨⟨(by decide : (10 : Byte) ∉ strBytes "From"), hF10⟩,
        (by decide : ciPref (List.take (strBytes "From" ++ [58, 32]).length
          (strBytes "Subject")) (strBytes "From" ++ [58, 32]) = false)⟩
    · subst hp
      exact ⟨⟨(by decide : (10 : Byte) ∉ strBytes "To"), hT10⟩,
        (by decide : ciPref (List.take (strBytes "To" ++ [58, 32]).length
          (strBytes "Subject")) (strBytes "To" ++ [58, 32]) = false)⟩
  have l5 : writeHeaderIf (renderLines [(strBytes "From", fromAddrOf email),
        (strBytes "To", formatAddresses email.To)])
        (strBytes "Subject") (encodeHeader email.Subject) =
      renderLines [(strBytes "From", fromAddrOf email),
        (strBytes "To", formatAddresses email.To),
        (strBytes "Subject", encodeHeader email.Subject)] := by
    rw [writeHeaderIf_appends _ _ _ hSne hh2,
      ← renderLines_one (strBytes "Subject", encodeHeader email.Subject),
      ← renderLines_append]
    rfl
  have hh3 : HasHeader (renderLines
      [(strBytes "From", fromAddrOf email),
        (strBytes "To", formatAddresses email.To),
        (strBytes "Subject", encodeHeader email.Subject)]) (strBytes "MIME-Version") = false := by
    apply HasHeader_false_of_pairs _ _ (by decide) (by decide)
    intro p hp
    simp only [List.mem_cons, List.not_mem_nil, or_false] at hp
    rcases hp with hp | hp | hp
    · subst hp
      exact ⟨⟨(by decide : (10 : Byte) ∉ strBytes "From"), hF10⟩,
        (by decide : ciPref (List.take (strBytes "From" ++ [58, 32]).length
          (strBytes "MIME-Version")) (strBytes "From" ++ [58, 32]) = false)⟩
    · subst hp
      exact ⟨⟨(by decide : (10 : Byte) ∉ strBytes "To"), hT10⟩,
        (by decide : ciPref (List.take (strBytes "To" ++ [58, 32]).length
          (strBytes "MIME-Version")) (strBytes "To" ++ [58, 32]) = false)⟩
    · subst hp
      exact ⟨⟨(by decide : (10 : Byte) ∉ strBytes "Subject"), hS10⟩,
        (by decide : ciPref (List.take (strBytes "Subject" ++ [58, 32]).length
          (strBytes "MIME-Version")) (strBytes "Subject" ++ [58, 32]) = false)⟩
  have l6 : writeHeaderIf (renderLines [(strBytes "From", fromAddrOf email),
        (strBytes "To", formatAddresses email.To),
        (strBytes "Subject", encodeHeader email.Subject)])
        (strBytes "MIME-Version") (strBytes "1.0") =
      renderLines [(strBytes "From", fromAddrOf email),
        (strBytes "To", formatAddresses email.To),
        (strBytes "Subject", encodeHeader email.Subject),
        (strBytes "MIME-Version", strBytes "1.0")] := by
    rw [writeHeaderIf_appends _ _ _ (by decide) hh3,
      ← renderLines_one (strBytes "MIME-Version", strBytes "1.0"),
      ← renderLines_append]
    rfl
  have hh4 : HasHeader (renderLines
      [(strBytes "From", fromAddrOf email),
        (strBytes "To", formatAddresses email.To),
        (strBytes "Subject", encodeHeader email.Subject),
        (strBytes "MIME-Version", strBytes "1.0")]) (strBytes "Date") = false := by
    apply HasHeader_false_of_pairs _ _ (by decide) (by decide)
    intro p hp
    simp only [List.mem_cons, List.not_mem_nil, or_false] at hp
    rcases hp with hp | hp | hp | hp
    · subst hp
      exact ⟨⟨(by decide : (10 : Byte) ∉ strBytes "From"), hF10⟩,
        (by decide : ciPref (List.take (strBytes "From" ++ [58, 32]).length
          (strBytes "Date")) (strBytes "From" ++ [58, 32]) = false)⟩
    · subst hp
      exact ⟨⟨(by decide : (10 : Byte) ∉ strBytes "To"), hT10⟩,
        (by decide : ciPref (List.take (strBytes "To" ++ [58, 32]).length
          (strBytes "Date")) (strBytes "To" ++ [58, 32]) = false)⟩
    · subst hp
      exact ⟨⟨(by decide : (10 : Byte) ∉ strBytes "Subject"), hS10⟩,
        (by decide : ciPref (List.take (strBytes "Subject" ++ [58, 32]).length
          (strBytes "Date")) (strBytes "Subject" ++ [58, 32]) = false)⟩
    · subst hp
      exact ⟨⟨(by decide : (10 : Byte) ∉ strBytes "MIME-Version"), (by decide : (10 : Byte) ∉ strBytes "1.0")⟩,
        (by decide : ciPref (List.take (strBytes "MIME-Version" ++ [58, 32]).length
          (strBytes "Date")) (strBytes "MIME-Version" ++ [58, 32]) = false)⟩
  have l7 : bhDate now (renderLines [(strBytes "From", fromAddrOf email),
        (strBytes "To", formatAddresses email.To),
        (strBytes "Subject", encodeHeader email.Subject),
        (strBytes "MIME-Version", strBytes "1.0")]) = renderLines [(strBytes "From", fromAddrOf email),
        (strBytes "To", formatAddresses email.To),
        (strBytes "Subject", encodeHeader email.Subject),
        (strBytes "MIME-Version", strBytes "1.0"),
        (strBytes "Date", now)] := by
    unfold bhDate
    rw [hh4]
    rw [if_pos (by decide : (!false) = true)]
    rw [writeHeaderIf_appends _ _ _ hNne hh4,
      ← renderLines_one (strBytes "Date", now),
      ← renderLines_append]
    rfl
  have hh5 : HasHeader (renderLines
      [(strBytes "From", fromAddrOf email),
        (strBytes "To", formatAddresses email.To),
        (strBytes "Subject", encodeHeader email.Subject),
        (strBytes "MIME-Version", strBytes "1.0"),
        (strBytes "Date", now)]) (strBytes "Message-ID") = false := by
    apply HasHeader_false_of_pairs _ _ (by decide) (by decide)
    intro p hp
    simp only [List.mem_cons, List.not_mem_nil, or_false] at hp
    rcases hp with hp | hp | hp | hp | hp
    · subst hp
      exact ⟨⟨(by decide : (10 : Byte) ∉ strBytes "From"), hF10⟩,
        (by decide : ciPref (List.take (strBytes "From" ++ [58, 32]).length
          (strBytes "Message-ID")) (strBytes "From" ++ [58, 32]) = false)⟩
    · subst hp
      exact ⟨⟨(by decide : (10 : Byte) ∉ strBytes "To"), hT10⟩,
        (by decide : ciPref (List.take (strBytes "To" ++ [58, 32]).length
          (strBytes "Message-ID")) (strBytes "To" ++ [58, 32]) = false)⟩
    · subst hp
      exact ⟨⟨(by decide : (10 : Byte) ∉ strBytes "Subject"), hS10⟩,
        (by decide : ciPref (List.take (strBytes "Subject" ++ [58, 32]).length
          (strBytes "Message-ID")) (strBytes "Subject" ++ [58, 32]) = false)⟩
    · subst hp
      exact ⟨⟨(by decide : (10 : Byte) ∉ strBytes "MIME-Version"), (by decide : (10 : Byte) ∉ strBytes "1.0")⟩,
        (by decide : ciPref (List.take (strBytes "MIME-Version" ++ [58, 32]).length
          (strBytes "Message-ID")) (strBytes "MIME-Version" ++ [58, 32]) = false)⟩
    · subst hp
      exact ⟨⟨(by decide : (10 : Byte) ∉ strBytes "Date"), hN10⟩,
        (by decide : ciPref (List.take (strBytes "Date" ++ [58, 32]).length
          (strBytes "Message-ID")) (strBytes "Date" ++ [58, 32]) = false)⟩
  have l8 : bhMessageID email rand16 (renderLines [(strBytes "From", fromAddrOf email),
        (strBytes "To", formatAddresses email.To),
        (strBytes "Subject", encodeHeader email.Subject),
        (strBytes "MIME-Version", strBytes "1.0"),
        (strBytes "Date", now)]) = renderLines [(strBytes "From", fromAddrOf email),
        (strBytes "To", formatAddresses email.To),
        (strBytes "Subject", encodeHeader email.Subject),
        (strBytes "MIME-Version", strBytes "1.0"),
        (strBytes "Date", now),
        (strBytes "Message-ID", generateMessageID email.From rand16)] := by
    unfold bhMessageID
    rw [hh5]
    rw [if_pos (by decide : (!false) = true)]
    rw [writeHeaderIf_appends _ _ _ hMne hh5,
      ← renderLines_one (strBytes "Message-ID", generateMessageID email.From rand16),
      ← renderLines_append]
    rfl
  unfold buildHeaderBlock bhToReplyTo
  rw [l1, l2, l3, l4, l5, l6, l7, l8]

/-- A well-formed rendered header line: a non-empty token key and a
non-empty value with no LF and no space or tab at either end. -/
abbrev headerLineOK (p : List Byte × List Byte) : Prop :=
  p.1 ≠ [] ∧ (∀ c ∈ p.1, validHeaderFieldByte c = true) ∧
  p.2 ≠ [] ∧ (10 : Byte) ∉ p.2 ∧
  ((p.2.head?.map isST).getD false = false) ∧
  ((p.2.getLast?.map isST).getD false = false)

theorem valid_not_st (c : Byte) (h : validHeaderFieldByte c = true) :
    isST c = false := by
  by_cases h32 : c = 32
  · subst h32; exact absurd h (by decide)
  · by_cases h9 : c = 9
    · subst h9; exact absurd h (by decide)
    · unfold isST
      simp [h32, h9]

theorem valid_ne (c : Byte) (h : validHeaderFieldByte c = true) :
    c ≠ 10 ∧ c ≠ 58 ∧ c ≠ 13 := by
  refine ⟨?_, ?_, ?_⟩ <;> intro he <;> subst he <;> exact absurd h (by decide)

theorem takeLine_append (a z : List Byte) (ha : (10 : Byte) ∉ a) :
    takeLine (a ++ 10 :: z) = (a, z, true) := by
  induction a with
  | nil => rfl
  | cons c cs ih =>
    have hc : c ≠ 10 := fun he => ha (he ▸ List.mem_cons_self c cs)
    rw [List.cons_append, takeLine]
    rw [if_neg hc, ih (fun hm => ha (List.mem_cons_of_mem c hm))]

theorem bytesIndexByte_first (k w : List Byte) (hk : (58 : Byte) ∉ k) :
    bytesIndexByte (k ++ 58 :: w) 58 = some k.length := by
  induction k with
  | nil => rfl
  | cons c cs ih =>
    have hc : ¬((c == 58) = true) := by
      simp only [beq_iff_eq]
      exact fun he => hk (he ▸ List.mem_cons_self c cs)
    rw [List.cons_append, bytesIndexByte, if_neg hc,
      ih (fun hm => hk (List.mem_cons_of_mem c hm))]
    rfl

theorem dropWhileST_id (l : List Byte)
    (h : (l.head?.map isST).getD false = false) : l.dropWhile isST = l := by
  cases l with
  | nil => rfl
  | cons c cs =>
    have hc : isST c = false := by simpa using h
    rw [List.dropWhile_cons, if_neg (by rw [hc]; exact Bool.false_ne_true)]

theorem trimST_id (l : List Byte)
    (h1 : (l.head?.map isST).getD false = false)
    (h2 : (l.getLast?.map isST).getD false = false) : trimST l = l := by
  unfold trimST
  rw [dropWhileST_id l h1]
  rw [dropWhileST_id l.reverse (by rw [List.head?_reverse]; exact h2)]
  exact List.reverse_reverse l

theorem readContinuedAux_stop (fuel : Nat) (acc rest : List Byte)
    (h : (rest.head?.map isST).getD false = false) :
    readContinuedAux fuel acc rest = (acc, rest) := by
  cases fuel with
  | zero => rfl
  | succ f =>
    rw [readContinuedAux, if_neg (by rw [h]; exact Bool.false_ne_true)]

theorem readLine_line (a z : List Byte) (ha : (10 : Byte) ∉ a) :
    readLine (a ++ 13 :: 10 :: z) = (a, z, true) := by
  have h1 : a ++ 13 :: 10 :: z = (a ++ [13]) ++ 10 :: z := by
    simp [List.append_assoc]
  have h2 : (10 : Byte) ∉ a ++ [13] := by
    intro hm
    rcases List.mem_append.1 hm with hm | hm
    · exact ha hm
    · simp at hm
  rw [readLine, h1, takeLine_append _ _ h2]
  have h3 : dropTrailCR (a ++ [13]) = a := by
    unfold dropTrailCR
    rw [List.getLast?_concat, if_pos (by decide), List.dropLast_concat]
  simp [h3]

theorem readContinued_line (k v z : List Byte)
    (hOK : headerLineOK (k, v))
    (hz : (z.head?.map isST).getD false = false) :
    readContinued ((k ++ [58, 32] ++ v) ++ 13 :: 10 :: z) =
      (k ++ [58, 32] ++ v, z) := by
  obtain ⟨hk, hkv, hv, hv10, hvh, hvl⟩ := hOK
  have ha10 : (10 : Byte) ∉ k ++ [58, 32] ++ v := by
    intro hm
    rcases List.mem_append.1 hm with hm | hm
    · rcases List.mem_append.1 hm with hm | hm
      · exact absurd (hkv 10 hm) (by decide)
      · simp at hm
    · exact hv10 hm
  unfold readContinued
  rw [readLine_line _ _ ha10]
  have hane : (k ++ [58, 32] ++ v).isEmpty = false := by
    cases hk2 : k with
    | nil => exact absurd hk2 hk
    | cons c cs => rfl
  rw [if_neg (by rw [hane]; exact Bool.false_ne_true)]
  have htrim : trimST (k ++ [58, 32] ++ v) = k ++ [58, 32] ++ v := by
    apply trimST_id
    · cases hk2 : k with
      | nil => exact absurd hk2 hk
      | cons c cs =>
        have := valid_not_st c (hkv c (by rw [hk2]; exact List.mem_cons_self c cs))
        simp [hk2, this]
    · have hvs : ∃ x, v.getLast? = some x := by
        cases hvv : v.getLast? with
        | none => exact absurd (List.getLast?_eq_none_iff.mp hvv) hv
        | some x => exact ⟨x, rfl⟩
      obtain ⟨x, hx⟩ := hvs
      rw [List.getLast?_append, List.getLast?_append, hx]
      rw [show (some x).or ([58, 32].getLast?.or k.getLast?) = some x from rfl, ← hx]
      exact hvl
  rw [htrim, readContinuedAux_stop _ _ _ hz]

theorem blockHead_not_st (qs : List (List Byte × List Byte)) (mb : List Byte)
    (hqs : ∀ p ∈ qs, headerLineOK p) :
    (((renderLines qs ++ 13 :: 10 :: mb).head?).map isST).getD false = false := by
  cases qs with
  | nil => rfl
  | cons p rest =>
    obtain ⟨hk, hkv, _⟩ := hqs p (List.mem_cons_self p rest)
    cases hk2 : p.1 with
    | nil => exact absurd hk2 hk
    | cons c cs =>
      have hc := valid_not_st c (hkv c (by rw [hk2]; exact List.mem_cons_self c cs))
      rw [renderLines_cons, renderLine_eq, hk2]
      simp [hc]

theorem readMIMEHeaderAux_blank (f : Nat) (acc : List (List Byte × List Byte))
    (mb : List Byte) :
    readMIMEHeaderAux (f + 1) (13 :: 10 :: mb) acc = (acc, mb, .clean) := rfl

theorem readMIMEHeaderAux_step (f : Nat) (k v z : List Byte)
    (acc : List (List Byte × List Byte))
    (hOK : headerLineOK (k, v))
    (hz : ((z.head?).map isST).getD false = false) :
    readMIMEHeaderAux (f + 1) ((k ++ [58, 32] ++ v) ++ 13 :: 10 :: z) acc =
      readMIMEHeaderAux f z (acc ++ [(canonKeyAux true k, v)]) := by
  obtain ⟨hk, hkv, hv, hv10, hvh, hvl⟩ := hOK
  have hbne : (((k ++ [58, 32] ++ v) ++ 13 :: 10 :: z)).isEmpty = false := by
    simp [List.isEmpty_iff]
  rw [readMIMEHeaderAux, if_neg (by rw [hbne]; exact Bool.false_ne_true)]
  have hrc := readContinued_line k v z ⟨hk, hkv, hv, hv10, hvh, hvl⟩ hz
  rw [hrc]
  have hkvne : (k ++ [58, 32] ++ v).isEmpty = false := by
    cases hk2 : k with
    | nil => exact absurd hk2 hk
    | cons c cs => rfl
  rw [if_neg (by rw [hkvne]; exact Bool.false_ne_true)]
  have hassoc : k ++ [58, 32] ++ v = k ++ 58 :: 32 :: v := by
    simp [List.append_assoc]
  have h58 : (58 : Byte) ∉ k := fun hm => absurd (hkv 58 hm) (by decide)
  rw [hassoc, bytesIndexByte_first k (32 :: v) h58]
  dsimp only
  have htake : (k ++ 58 :: 32 :: v).take k.length = k := List.take_left k _
  rw [htake]
  have hcanon : canonicalMIMEHeaderKey k = some (canonKeyAux true k) := by
    unfold canonicalMIMEHeaderKey
    rw [if_neg]
    intro hany
    rw [List.any_eq_true] at hany
    obtain ⟨c, hc, hcc⟩ := hany
    rw [hkv c hc] at hcc
    exact absurd hcc (by decide)
  rw [hcanon]
  have hdrop : (k ++ 58 :: 32 :: v).drop (k.length + 1) = 32 :: v := by
    have : k.length + 1 = k.length + 1 := rfl
    rw [show (58 : Byte) :: 32 :: v = [58] ++ 32 :: v from rfl, ← List.append_assoc]
    rw [show k.length + 1 = (k ++ [58]).length from by simp]
    exact List.drop_left (k ++ [58]) (32 :: v)
  rw [hdrop]
  have hdw : (32 :: v).dropWhile isST = v := by
    rw [List.dropWhile_cons, if_pos (by decide)]
    exact dropWhileST_id v hvh
  rw [hdw]

theorem readMIMEHeaderAux_renderLines (mb : List Byte) :
    ∀ (ps : List (List Byte × List Byte)) (fuel : Nat)
      (acc : List (List Byte × List Byte)),
      (∀ p ∈ ps, headerLineOK p) → ps.length < fuel →
      readMIMEHeaderAux fuel (renderLines ps ++ 13 :: 10 :: mb) acc =
        (acc ++ ps.map (fun p => (canonKeyAux true p.1, p.2)), mb, .clean) := by
  intro ps
  induction ps with
  | nil =>
    intro fuel acc _ hf
    cases fuel with
    | zero => omega
    | succ f =>
      show readMIMEHeaderAux (f + 1) (13 :: 10 :: mb) acc = _
      rw [readMIMEHeaderAux_blank]
      simp [List.map_nil, List.append_nil]
  | cons p rest ih =>
    intro fuel acc hOK hf
    cases fuel with
    | zero => omega
    | succ f =>
      have hb : renderLines (p :: rest) ++ 13 :: 10 :: mb =
          (p.1 ++ [58, 32] ++ p.2) ++
            13 :: 10 :: (renderLines rest ++ 13 :: 10 :: mb) := by
        rw [renderLines_cons, renderLine_eq]
        simp [List.append_assoc]
      rw [hb]
      rw [readMIMEHeaderAux_step f p.1 p.2 _ acc
        (by have := hOK p (List.mem_cons_self p rest); exact this)
        (blockHead_not_st rest mb (fun q hq => hOK q (List.mem_cons_of_mem p hq)))]
      rw [ih f (acc ++ [(canonKeyAux true p.1, p.2)])
        (fun q hq => hOK q (List.mem_cons_of_mem p hq))
        (by simp only [List.length_cons] at hf; omega)]
      simp [List.append_assoc]

theorem renderLines_length_ge (ps : List (List Byte × List Byte)) :
    ps.length ≤ (renderLines ps).length := by
  induction ps with
  | nil => exact Nat.le_refl 0
  | cons p rest ih =>
    rw [renderLines_cons, List.length_append, List.length_cons]
    have h2 : (renderLine p.1 p.2).length = (p.1 ++ [58, 32] ++ p.2).length + 2 := by
      rw [renderLine_eq, List.length_append]
      rfl
    omega

/-- textproto ReadMIMEHeader on a rendered header block followed by a blank
line: the canonicalized header pairs in order, the body, a clean end. -/
theorem readMIMEHeader_renderLines (ps : List (List Byte × List Byte))
    (mb : List Byte) (hps : ∀ p ∈ ps, headerLineOK p) :
    readMIMEHeader (renderLines ps ++ 13 :: 10 :: mb) =
      (ps.map (fun p => (canonKeyAux true p.1, p.2)), mb, .clean) := by
  unfold readMIMEHeader
  rw [if_neg]
  · rw [readMIMEHeaderAux_renderLines mb ps _ [] hps
      (by
        have hge := renderLines_length_ge ps
        simp only [List.length_append]
        omega)]
    rw [List.nil_append]
  · rw [blockHead_not_st ps mb hps]
    exact Bool.false_ne_true

/-- net/mail ReadMessage on the same shape. -/
theorem readMessage_renderLines (ps : List (List Byte × List Byte))
    (mb : List Byte) (hps : ∀ p ∈ ps, headerLineOK p) :
    readMessage (renderLines ps ++ 13 :: 10 :: mb) =
      some (ps.map (fun p => (canonKeyAux true p.1, p.2)), mb) := by
  unfold readMessage
  rw [readMIMEHeader_renderLines ps mb hps]

theorem headerGet_nil (key : List Byte) : headerGet [] key = [] := rfl

theorem headerGet_cons_hit (k v key : List Byte)
    (hs : List (List Byte × List Byte))
    (h : (k == (canonicalMIMEHeaderKey key).getD key) = true) :
    headerGet ((k, v) :: hs) key = v := by
  unfold headerGet
  dsimp only
  rw [List.find?_cons_of_pos _ (by exact h)]

theorem headerGet_cons_miss (k v key : List Byte)
    (hs : List (List Byte × List Byte))
    (h : (k == (canonicalMIMEHeaderKey key).getD key) = false) :
    headerGet ((k, v) :: hs) key = headerGet hs key := by
  unfold headerGet
  dsimp only
  rw [List.find?_cons_of_neg _ (by rw [show ((k, v).1 ==
    (canonicalMIMEHeaderKey key).getD key) = (k ==
    (canonicalMIMEHeaderKey key).getD key) from rfl, h]; exact Bool.false_ne_true)]

theorem bytesIndexAux_none (pat : List Byte) :
    ∀ (l : List Byte) (j : Nat), containsSubAux pat l = false →
      bytesIndexAux pat l j = none := by
  intro l
  induction l with
  | nil => intro j _; rfl
  | cons c cs ih =>
    intro j h
    rw [containsSubAux, Bool.or_eq_false_iff] at h
    rw [bytesIndexAux, if_neg (by rw [h.1]; exact Bool.false_ne_true)]
    exact ih (j + 1) h.2

theorem decodeHeader_id (v : List Byte)
    (h : bytesContains v (strBytes "=?") = false) : decodeHeader v = v := by
  unfold bytesContains at h
  rw [if_neg (by decide)] at h
  unfold decodeHeader
  rw [show bytesIndex v (strBytes "=?") =
    bytesIndexAux (strBytes "=?") v 0 from by unfold bytesIndex; rw [if_neg (by decide)]]
  rw [bytesIndexAux_none _ v 0 h]

theorem parseAddressList_single (s : List Byte) (hc : (44 : Byte) ∉ s)
    (ht : trimSpace s = s) : parseAddressList s = [s] := by
  unfold parseAddressList
  rw [List.splitOn, List.splitOnP_eq_single]
  · rw [List.map_cons, List.map_nil, ht]
  · intro x hx
    simp only [beq_iff_eq]
    exact fun he => hc (he ▸ hx)

/-- ParseRawEmail on a message whose header block is exactly From, To,
Subject, MIME-Version, Date, Message-ID and a single-part Content-Type, in
canonical key form, followed by the body. -/
theorem ParseRawEmail_sevenHeaders (F T S now mid ctv mb : List Byte)
    (mt : List Byte) (params : List (List Byte × List Byte))
    (hTok : T ≠ []) (hCok : ctv ≠ [])
    (hSnw : bytesContains S (strBytes "=?") = false)
    (hTc : (44 : Byte) ∉ T) (hTt : trimSpace T = T)
    (hpm : parseMediaType ctv = ((mt, params), true))
    (hmt : hasPrefixB mt (strBytes "multipart/") = false)
    (hrm : readMessage ((renderLines
      [(strBytes "From", F), (strBytes "To", T), (strBytes "Subject", S),
       (strBytes "MIME-Version", strBytes "1.0"), (strBytes "Date", now),
       (strBytes "Message-ID", mid), (strBytes "Content-Type", ctv)]) ++
        13 :: 10 :: mb) = some
      ([(strBytes "From", F),
       (strBytes "To", T),
       (strBytes "Subject", S),
       (strBytes "Mime-Version", strBytes "1.0"),
       (strBytes "Date", now),
       (strBytes "Message-Id", mid),
       (strBytes "Content-Type", ctv)], mb)) :
    ParseRawEmail ((renderLines
      [(strBytes "From", F), (strBytes "To", T), (strBytes "Subject", S),
       (strBytes "MIME-Version", strBytes "1.0"), (strBytes "Date", now),
       (strBytes "Message-ID", mid), (strBytes "Content-Type", ctv)]) ++
        13 :: 10 :: mb) =
      ({ From := F, To := [T], Subject := S, Body := mb }, true) := by
  have hgSub : headerGet
      [(strBytes "From", F),
       (strBytes "To", T),
       (strBytes "Subject", S),
       (strBytes "Mime-Version", strBytes "1.0"),
       (strBytes "Date", now),
       (strBytes "Message-Id", mid),
       (strBytes "Content-Type", ctv)] (strBytes "Subject") = S := by
    rw [headerGet_cons_miss _ _ _ _ (by decide)]
    rw [headerGet_cons_miss _ _ _ _ (by decide)]
    rw [headerGet_cons_hit _ _ _ _ (by decide)]
  have hgFrom : headerGet
      [(strBytes "From", F),
       (strBytes "To", T),
       (strBytes "Subject", S),
       (strBytes "Mime-Version", strBytes "1.0"),
       (strBytes "Date", now),
       (strBytes "Message-Id", mid),
       (strBytes "Content-Type", ctv)] (strBytes "From") = F := by
    rw [headerGet_cons_hit _ _ _ _ (by decide)]
  have hgRT : headerGet
      [(strBytes "From", F),
       (strBytes "To", T),
       (strBytes "Subject", S),
       (strBytes "Mime-Version", strBytes "1.0"),
       (strBytes "Date", now),
       (strBytes "Message-Id", mid),
       (strBytes "Content-Type", ctv)] (strBytes "Reply-To") = [] := by
    rw [headerGet_cons_miss _ _ _ _ (by decide)]
    rw [headerGet_cons_miss _ _ _ _ (by decide)]
    rw [headerGet_cons_miss _ _ _ _ (by decide)]
    rw [headerGet_cons_miss _ _ _ _ (by decide)]
    rw [headerGet_cons_miss _ _ _ _ (by decide)]
    rw [headerGet_cons_miss _ _ _ _ (by decide)]
    rw [headerGet_cons_miss _ _ _ _ (by decide)]
    rfl
  have hgTo : headerGet
      [(strBytes "From", F),
       (strBytes "To", T),
       (strBytes "Subject", S),
       (strBytes "Mime-Version", strBytes "1.0"),
       (strBytes "Date", now),
       (strBytes "Message-Id", mid),
       (strBytes "Content-Type", ctv)] (strBytes "To") = T := by
    rw [headerGet_cons_miss _ _ _ _ (by decide)]
    rw [headerGet_cons_hit _ _ _ _ (by decide)]
  have hgCc : headerGet
      [(strBytes "From", F),
       (strBytes "To", T),
       (strBytes "Subject", S),
       (strBytes "Mime-Version", strBytes "1.0"),
       (strBytes "Date", now),
       (strBytes "Message-Id", mid),
       (strBytes "Content-Type", ctv)] (strBytes "Cc") = [] := by
    rw [headerGet_cons_miss _ _ _ _ (by decide)]
    rw [headerGet_cons_miss _ _ _ _ (by decide)]
    rw [headerGet_cons_miss _ _ _ _ (by decide)]
    rw [headerGet_cons_miss _ _ _ _ (by decide)]
    rw [headerGet_cons_miss _ _ _ _ (by decide)]
    rw [headerGet_cons_miss _ _ _ _ (by decide)]
    rw [headerGet_cons_miss _ _ _ _ (by decide)]
    rfl
  have hgCT : headerGet
      [(strBytes "From", F),
       (strBytes "To", T),
       (strBytes "Subject", S),
       (strBytes "Mime-Version", strBytes "1.0"),
       (strBytes "Date", now),
       (strBytes "Message-Id", mid),
       (strBytes "Content-Type", ctv)] (strBytes "Content-Type") = ctv := by
    rw [headerGet_cons_miss _ _ _ _ (by decide)]
    rw [headerGet_cons_miss _ _ _ _ (by decide)]
    rw [headerGet_cons_miss _ _ _ _ (by decide)]
    rw [headerGet_cons_miss _ _ _ _ (by decide)]
    rw [headerGet_cons_miss _ _ _ _ (by decide)]
    rw [headerGet_cons_miss _ _ _ _ (by decide)]
    rw [headerGet_cons_hit _ _ _ _ (by decide)]
  have hgCTE : headerGet
      [(strBytes "From", F),
       (strBytes "To", T),
       (strBytes "Subject", S),
       (strBytes "Mime-Version", strBytes "1.0"),
       (strBytes "Date", now),
       (strBytes "Message-Id", mid),
       (strBytes "Content-Type", ctv)] (strBytes "Content-Transfer-Encoding") = [] := by
    rw [headerGet_cons_miss _ _ _ _ (by decide)]
    rw [headerGet_cons_miss _ _ _ _ (by decide)]
    rw [headerGet_cons_miss _ _ _ _ (by decide)]
    rw [headerGet_cons_miss _ _ _ _ (by decide)]
    rw [headerGet_cons_miss _ _ _ _ (by decide)]
    rw [headerGet_cons_miss _ _ _ _ (by decide)]
    rw [headerGet_cons_miss _ _ _ _ (by decide)]
    rfl
  unfold ParseRawEmail
  rw [hrm]
  dsimp only
  rw [hgSub, hgFrom, hgRT, hgTo, hgCc, hgCT, hgCTE]
  rw [decodeHeader_id S hSnw]
  rw [parseAddressList_single T hTc hTt]
  have hTie : T.isEmpty = false := by
    cases hx : T
    · exact absurd hx hTok
    · rfl
  have hCie : ctv.isEmpty = false := by
    cases hx : ctv
    · exact absurd hx hCok
    · rfl
  rw [hTie, hCie]
  have hdp : decodePart mb [] = (mb, true) := rfl
  simp [hpm, hmt, hdp]

set_option maxRecDepth 4000 in
/-- C1 (amended): for an in-class email — one To, no Cc, Bcc, Reply-To,
HTMLBody or attachments — whose rendered From, To, Subject, Date and
Message-ID values are well-formed single-line header values, whose Subject
is emitted verbatim and holds no encoded-word marker, and whose rendered To
is one trimmed comma-free address, the round trip through BuildMessage and
ParseRawEmail succeeds and reproduces the email exactly up to the
canonicalizations the code performs: From and the single To entry come back
re-rendered (angle-bracket form for parseable addresses), the Subject comes
back unchanged, and the Body gains the builder's trailing CRLF. -/
theorem C1_roundtrip (now rand16 b1 b2 : List Byte) (email : Email)
    (t : List Byte)
    (hTo : email.To = [t]) (hCc : email.Cc = []) (hBcc : email.Bcc = [])
    (hRT : email.ReplyTo = []) (hHB : email.HTMLBody = [])
    (hAtt : email.Attachments = []) (hOC : email.OutlookCompatible = false)
    (hFok : headerLineOK (strBytes "From", fromAddrOf email))
    (hTok : headerLineOK (strBytes "To", formatAddresses email.To))
    (hSok : headerLineOK (strBytes "Subject", email.Subject))
    (hSasc : encodeHeader email.Subject = email.Subject)
    (hSnw : bytesContains email.Subject (strBytes "=?") = false)
    (hNok : headerLineOK (strBytes "Date", now))
    (hMok : headerLineOK (strBytes "Message-ID",
      generateMessageID email.From rand16))
    (hTc : (44 : Byte) ∉ formatAddresses email.To)
    (hTt : trimSpace (formatAddresses email.To) = formatAddresses email.To) :
    ParseRawEmail (BuildMessage now rand16 b1 b2 [] email) =
      ({ email with From := fromAddrOf email,
                    To := [formatAddresses email.To],
                    Body := email.Body ++ CRLF }, true) := by
  have hF10 : (10 : Byte) ∉ fromAddrOf email := hFok.2.2.2.1
  have hFne : fromAddrOf email ≠ [] := hFok.2.2.1
  have hT10 : (10 : Byte) ∉ formatAddresses email.To := hTok.2.2.2.1
  have hTne : formatAddresses email.To ≠ [] := hTok.2.2.1
  have hS10 : (10 : Byte) ∉ email.Subject := hSok.2.2.2.1
  have hSne : email.Subject ≠ [] := hSok.2.2.1
  have hN10 : (10 : Byte) ∉ now := hNok.2.2.2.1
  have hNne : now ≠ [] := hNok.2.2.1
  have hM10 : (10 : Byte) ∉ generateMessageID email.From rand16 := hMok.2.2.2.1
  have hsingle : email.Body = [] ∨ email.HTMLBody = [] := Or.inr hHB
  have hdr := buildHeaderBlock_exact now rand16 email t hTo hCc hRT
    hF10 hFne hT10 hTne (hSasc.symm ▸ hS10) (hSasc.symm ▸ hSne) hN10 hNne hM10
  rw [hSasc] at hdr
  have hCT6 : HasHeader (renderLines
      [(strBytes "From", fromAddrOf email),
       (strBytes "To", formatAddresses email.To),
       (strBytes "Subject", email.Subject),
       (strBytes "MIME-Version", strBytes "1.0"),
       (strBytes "Date", now),
       (strBytes "Message-ID", generateMessageID email.From rand16)]) (strBytes "Content-Type") = false := by
    apply HasHeader_false_of_pairs _ _ (by decide) (by decide)
    intro p hp
    simp only [List.mem_cons, List.not_mem_nil, or_false] at hp
    rcases hp with hp | hp | hp | hp | hp | hp
    · subst hp
      exact ⟨⟨(by decide : (10 : Byte) ∉ strBytes "From"), hF10⟩,
        (by decide : ciPref (List.take (strBytes "From" ++ [58, 32]).length
          (strBytes "Content-Type")) (strBytes "From" ++ [58, 32]) = false)⟩
    · subst hp
      exact ⟨⟨(by decide : (10 : Byte) ∉ strBytes "To"), hT10⟩,
        (by decide : ciPref (List.take (strBytes "To" ++ [58, 32]).length
          (strBytes "Content-Type")) (strBytes "To" ++ [58, 32]) = false)⟩
    · subst hp
      exact ⟨⟨(by decide : (10 : Byte) ∉ strBytes "Subject"), hS10⟩,
        (by decide : ciPref (List.take (strBytes "Subject" ++ [58, 32]).length
          (strBytes "Content-Type")) (strBytes "Subject" ++ [58, 32]) = false)⟩
    · subst hp
      exact ⟨⟨(by decide : (10 : Byte) ∉ strBytes "MIME-Version"), (by decide : (10 : Byte) ∉ strBytes "1.0")⟩,
        (by decide : ciPref (List.take (strBytes "MIME-Version" ++ [58, 32]).length
          (strBytes "Content-Type")) (strBytes "MIME-Version" ++ [58, 32]) = false)⟩
    · subst hp
      exact ⟨⟨(by decide : (10 : Byte) ∉ strBytes "Date"), hN10⟩,
        (by decide : ciPref (List.take (strBytes "Date" ++ [58, 32]).length
          (strBytes "Content-Type")) (strBytes "Date" ++ [58, 32]) = false)⟩
    · subst hp
      exact ⟨⟨(by decide : (10 : Byte) ∉ strBytes "Message-ID"), hM10⟩,
        (by decide : ciPref (List.take (strBytes "Message-ID" ++ [58, 32]).length
          (strBytes "Content-Type")) (strBytes "Message-ID" ++ [58, 32]) = false)⟩
  have hshape := buildMessage_single_shape now rand16 b1 b2 email hAtt hsingle
  rw [hdr] at hshape
  rw [if_neg (by rw [hCT6]; exact Bool.false_ne_true)] at hshape
  have hc1 : (email.Body.isEmpty && !email.HTMLBody.isEmpty) = false := by
    rw [hHB]
    simp
  rw [hc1] at hshape
  simp only [Bool.false_or] at hshape
  have hfinal : (Email.mk (fromAddrOf email) [formatAddresses email.To] [] [] []
      email.Subject (email.Body ++ CRLF) [] [] false) =
      { email with From := fromAddrOf email,
                   To := [formatAddresses email.To],
                   Body := email.Body ++ CRLF } := by
    cases email
    dsimp only at hCc hBcc hRT hHB hAtt hOC ⊢
    subst hCc hBcc hRT hHB hAtt hOC
    rfl
  cases hH : IsHTML email.Body
  · rw [hH, if_neg (by decide : ¬(false = true))] at hshape
    have h7 : ∀ p ∈ [(strBytes "From", fromAddrOf email),
         (strBytes "To", formatAddresses email.To),
         (strBytes "Subject", email.Subject),
         (strBytes "MIME-Version", strBytes "1.0"),
         (strBytes "Date", now),
         (strBytes "Message-ID", generateMessageID email.From rand16),
         (strBytes "Content-Type", strBytes "text/plain; charset=\"UTF-8\"")], headerLineOK p := by
      intro p hp
      simp only [List.mem_cons, List.not_mem_nil, or_false] at hp
      rcases hp with hp | hp | hp | hp | hp | hp | hp
      · subst hp
        exact hFok
      · subst hp
        exact hTok
      · subst hp
        exact hSok
      · subst hp
        exact (by decide : headerLineOK (strBytes "MIME-Version", strBytes "1.0"))
      · subst hp
        exact hNok
      · subst hp
        exact hMok
      · subst hp
        exact (by decide : headerLineOK (strBytes "Content-Type", strBytes "text/plain; charset=\"UTF-8\""))
    have hline : strBytes "Content-Type: text/plain; charset=\"UTF-8\"" ++ CRLF =
        renderLine (strBytes "Content-Type") (strBytes "text/plain; charset=\"UTF-8\"") := by decide
    have hout : BuildMessage now rand16 b1 b2 [] email =
        renderLines [(strBytes "From", fromAddrOf email),
         (strBytes "To", formatAddresses email.To),
         (strBytes "Subject", email.Subject),
         (strBytes "MIME-Version", strBytes "1.0"),
         (strBytes "Date", now),
         (strBytes "Message-ID", generateMessageID email.From rand16),
         (strBytes "Content-Type", strBytes "text/plain; charset=\"UTF-8\"")] ++ 13 :: 10 :: (email.Body ++ CRLF) := by
      rw [hshape, hline,
        ← renderLines_one (strBytes "Content-Type", strBytes "text/plain; charset=\"UTF-8\""),
        ← renderLines_append]
      simp [List.append_assoc]
      rfl
    have hrm := readMessage_renderLines
      [(strBytes "From", fromAddrOf email),
         (strBytes "To", formatAddresses email.To),
         (strBytes "Subject", email.Subject),
         (strBytes "MIME-Version", strBytes "1.0"),
         (strBytes "Date", now),
         (strBytes "Message-ID", generateMessageID email.From rand16),
         (strBytes "Content-Type", strBytes "text/plain; charset=\"UTF-8\"")] (email.Body ++ CRLF) h7
    simp only [List.map_cons, List.map_nil] at hrm
    rw [(by decide : canonKeyAux true (strBytes "From") = strBytes "From")] at hrm
    rw [(by decide : canonKeyAux true (strBytes "To") = strBytes "To")] at hrm
    rw [(by decide : canonKeyAux true (strBytes "Subject") = strBytes "Subject")] at hrm
    rw [(by decide : canonKeyAux true (strBytes "MIME-Version") = strBytes "Mime-Version")] at hrm
    rw [(by decide : canonKeyAux true (strBytes "Date") = strBytes "Date")] at hrm
    rw [(by decide : canonKeyAux true (strBytes "Message-ID") = strBytes "Message-Id")] at hrm
    rw [(by decide : canonKeyAux true (strBytes "Content-Type") = strBytes "Content-Type")] at hrm
    rw [hout, ParseRawEmail_sevenHeaders (fromAddrOf email)
      (formatAddresses email.To) email.Subject now
      (generateMessageID email.From rand16) (strBytes "text/plain; charset=\"UTF-8\"") (email.Body ++ CRLF)
      (strBytes "text/plain") ([(strBytes "charset", strBytes "UTF-8")])
      hTok.2.2.1 (by decide) hSnw hTc hTt (by decide) (by decide) hrm]
    rw [hfinal]
  · rw [hH, if_pos (by decide : true = true)] at hshape
    have h7 : ∀ p ∈ [(strBytes "From", fromAddrOf email),
         (strBytes "To", formatAddresses email.To),
         (strBytes "Subject", email.Subject),
         (strBytes "MIME-Version", strBytes "1.0"),
         (strBytes "Date", now),
         (strBytes "Message-ID", generateMessageID email.From rand16),
         (strBytes "Content-Type", strBytes "text/html; charset=\"UTF-8\"")], headerLineOK p := by
      intro p hp
      simp only [List.mem_cons, List.not_mem_nil, or_false] at hp
      rcases hp with hp | hp | hp | hp | hp | hp | hp
      · subst hp
        exact hFok
      · subst hp
        exact hTok
      · subst hp
        exact hSok
      · subst hp
        exact (by decide : headerLineOK (strBytes "MIME-Version", strBytes "1.0"))
      · subst hp
        exact hNok
      · subst hp
        exact hMok
      · subst hp
        exact (by decide : headerLineOK (strBytes "Content-Type", strBytes "text/html; charset=\"UTF-8\""))
    have hline : strBytes "Content-Type: text/html; charset=\"UTF-8\"" ++ CRLF =
        renderLine (strBytes "Content-Type") (strBytes "text/html; charset=\"UTF-8\"") := by decide
    have hout : BuildMessage now rand16 b1 b2 [] email =
        renderLines [(strBytes "From", fromAddrOf email),
         (strBytes "To", formatAddresses email.To),
         (strBytes "Subject", email.Subject),
         (strBytes "MIME-Version", strBytes "1.0"),
         (strBytes "Date", now),
         (strBytes "Message-ID", generateMessageID email.From rand16),
         (strBytes "Content-Type", strBytes "text/html; charset=\"UTF-8\"")] ++ 13 :: 10 :: (email.Body ++ CRLF) := by
      rw [hshape, hline,
        ← renderLines_one (strBytes "Content-Type", strBytes "text/html; charset=\"UTF-8\""),
        ← renderLines_append]
      simp [List.append_assoc]
      rfl
    have hrm := readMessage_renderLines
      [(strBytes "From", fromAddrOf email),
         (strBytes "To", formatAddresses email.To),
         (strBytes "Subject", email.Subject),
         (strBytes "MIME-Version", strBytes "1.0"),
         (strBytes "Date", now),
         (strBytes "Message-ID", generateMessageID email.From rand16),
         (strBytes "Content-Type", strBytes "text/html; charset=\"UTF-8\"")] (email.Body ++ CRLF) h7
    simp only [List.map_cons, List.map_nil] at hrm
    rw [(by decide : canonKeyAux true (strBytes "From") = strBytes "From")] at hrm
    rw [(by decide : canonKeyAux true (strBytes "To") = strBytes "To")] at hrm
    rw [(by decide : canonKeyAux true (strBytes "Subject") = strBytes "Subject")] at hrm
    rw [(by decide : canonKeyAux true (strBytes "MIME-Version") = strBytes "Mime-Version")] at hrm
    rw [(by decide : canonKeyAux true (strBytes "Date") = strBytes "Date")] at hrm
    rw [(by decide : canonKeyAux true (strBytes "Message-ID") = strBytes "Message-Id")] at hrm
    rw [(by decide : canonKeyAux true (strBytes "Content-Type") = strBytes "Content-Type")] at hrm
    rw [hout, ParseRawEmail_sevenHeaders (fromAddrOf email)
      (formatAddresses email.To) email.Subject now
      (generateMessageID email.From rand16) (strBytes "text/html; charset=\"UTF-8\"") (email.Body ++ CRLF)
      (strBytes "text/html") ([(strBytes "charset", strBytes "UTF-8")])
      hTok.2.2.1 (by decide) hSnw hTc hTt (by decide) (by decide) hrm]
    rw [hfinal]

set_option maxRecDepth 40000 in
theorem C1_roundtrip_witness :
    ParseRawEmail (BuildMessage (strBytes "Mon, 02 Jan 2006 15:04:05 -0700")
        [1, 2, 3] (strBytes "BND1") (strBytes "BND2") [] c1Email) =
      ({ c1Email with From := fromAddrOf c1Email,
                      To := [formatAddresses c1Email.To],
                      Body := c1Email.Body ++ CRLF }, true) :=
  C1_roundtrip (strBytes "Mon, 02 Jan 2006 15:04:05 -0700") [1, 2, 3]
    (strBytes "BND1") (strBytes "BND2") c1Email
    (strBytes "receiver@example.com") rfl rfl rfl rfl rfl rfl rfl
    (by decide) (by decide) (by decide) (by decide) (by decide) (by decide)
    (by decide) (by decide) (by decide)

end Gsmail
